import Mathlib

/-!
Travel planner front end (App.jsx): shallow embedding and verified properties.

The source is one React file, `travel-planner-frontend/src/App.jsx`.  Its
handlers are embedded as state-passing functions over

* the React state of the component that owns the handler, and
* a `World`: `localStorage`, the log of HTTP requests sent, the alerts shown
  and the console errors logged.

The backend is a function from requests to fetch results.  The JavaScript
built-ins the handlers call (`JSON.stringify`, `JSON.parse`, `parseFloat`,
property reads, truthiness, string conversion, `localStorage`) are modelled
after ECMAScript; numbers are binary64 values held as exact rationals.

Conventions of the embedding:

* strings are sequences of Unicode scalar values (a lone surrogate written as
  a JSON escape is read as U+FFFD);
* the wording of engine-raised errors (`TypeError`, `SyntaxError`) is
  engine-defined; the texts used here are stand-ins and no statement depends
  on them;
* `await` is sequential composition: one handler runs to completion.
-/

set_option autoImplicit false

namespace TravelPlanner

/-! ## JavaScript values -/

/-- A JavaScript number: NaN, an infinity, or a finite binary64 value held as
sign and exact magnitude (so that `-0` is `fin true 0`). -/
inductive JSNum where
  | nan
  | inf (neg : Bool)
  | fin (neg : Bool) (mag : ℚ)
  deriving DecidableEq

/-- The data values a handler of this program can hold: JSON values and
`undefined`. -/
inductive JSVal where
  | undefined
  | null
  | bool (b : Bool)
  | num (n : JSNum)
  | str (s : String)
  | arr (elems : List JSVal)
  | obj (props : List (String × JSVal))

/-- An error object: its constructor name and its `message`. -/
structure JSError where
  name : String
  message : String
  deriving DecidableEq

/-- What `new Error(message)` builds. -/
def JSError.mkError (message : String) : JSError :=
  { name := "Error", message := message }

/-- A `TypeError` raised by the engine. -/
def JSError.typeError (message : String) : JSError :=
  { name := "TypeError", message := message }

/-- A `SyntaxError` raised by the engine. -/
def JSError.syntaxError (message : String) : JSError :=
  { name := "SyntaxError", message := message }

/-! ## Numbers: binary64 rounding -/

/-- The value `m * 2 ^ p` as a rational. -/
def scale2 (m : Nat) (p : Int) : ℚ :=
  if 0 ≤ p then mkRat (m * 2 ^ p.toNat) 1 else mkRat m (2 ^ (-p).toNat)

/-- Floor of the binary logarithm of a positive natural number
(`fuel` bounds the number of halvings). -/
def log2Aux : Nat → Nat → Nat
  | 0, _ => 0
  | fuel + 1, n => if n < 2 then 0 else log2Aux fuel (n / 2) + 1

/-- Floor of the binary logarithm of a positive natural number. -/
def log2 (n : Nat) : Nat := log2Aux n n

/-- Floor of the binary logarithm of `num / den`, for positive `num`, `den`. -/
def floorLog2 (num den : Nat) : Int :=
  let e0 : Int := (log2 num : Int) - (log2 den : Int)
  let atLeast : Bool :=
    if 0 ≤ e0 then decide (den * 2 ^ e0.toNat ≤ num) else decide (den ≤ num * 2 ^ (-e0).toNat)
  if atLeast then e0 else e0 - 1

/-- Division rounded to nearest, ties to even. -/
def divRoundHalfEven (n d : Nat) : Nat :=
  let q := n / d
  let r := n % d
  if 2 * r < d then q
  else if d < 2 * r then q + 1
  else if q % 2 = 0 then q else q + 1

/-- The exponent of the unit in the last place of the binary64 value nearest
to `num / den`: 52 below the exponent of the value, and at least -1074. -/
def ulpExponent (num den : Nat) : Int := max (floorLog2 num den - 52) (-1074)

/-- The integer significand of `num / den` at that exponent, rounded to
nearest, ties to even. -/
def significand (num den : Nat) : Nat :=
  if 0 ≤ ulpExponent num den then divRoundHalfEven num (den * 2 ^ (ulpExponent num den).toNat)
  else divRoundHalfEven (num * 2 ^ (-ulpExponent num den).toNat) den

/-- Round the positive rational `num / den` to the nearest binary64 value
(ties to even); `none` when the result overflows to Infinity. -/
def roundBinary64 (num den : Nat) : Option ℚ :=
  if num = 0 then some 0
  else if 0 ≤ ulpExponent num den ∧
      2 ^ 1024 ≤ significand num den * 2 ^ (ulpExponent num den).toNat then none
  else some (scale2 (significand num den) (ulpExponent num den))

/-- The Number value of the decimal `(-1)^neg * digits * 10 ^ exp10`. -/
def JSNum.ofDecimal (neg : Bool) (digits : Nat) (exp10 : Int) : JSNum :=
  if digits = 0 then .fin neg 0 else
  let r := if 0 ≤ exp10 then roundBinary64 (digits * 10 ^ exp10.toNat) 1
           else roundBinary64 digits (10 ^ (-exp10).toNat)
  match r with
  | some q => .fin neg q
  | none => .inf neg

/-- The Number value of a natural number literal. -/
def JSNum.ofNat (n : Nat) : JSNum := JSNum.ofDecimal false n 0

/-- Decimal digits of a natural number, most significant first
(`fuel` bounds the number of digits). -/
def natDigitsAux : Nat → Nat → List Char → List Char
  | 0, _, acc => acc
  | fuel + 1, n, acc =>
    let acc1 := Char.ofNat (48 + n % 10) :: acc
    if n / 10 = 0 then acc1 else natDigitsAux fuel (n / 10) acc1

/-- Decimal digits of a natural number. -/
def natDigits (n : Nat) : List Char := natDigitsAux (n + 1) n []

/-- Drop trailing zeros of a positive natural number. -/
def stripZerosAux : Nat → Nat → Nat
  | 0, n => n
  | fuel + 1, n => if n ≠ 0 ∧ n % 10 = 0 then stripZerosAux fuel (n / 10) else n

/-- The number with its trailing decimal zeros removed. -/
def stripZeros (n : Nat) : Nat := stripZerosAux n n

/-- Smallest `j` from `j0` on with `den ≤ num * 10 ^ j` (`fuel` bounds the search). -/
def firstScaleAux : Nat → Nat → Nat → Nat → Nat
  | 0, _, _, j => j
  | fuel + 1, num, den, j => if den ≤ num * 10 ^ j then j else firstScaleAux fuel num den (j + 1)

/-- The position `n` of the decimal point: `10 ^ (n - 1) ≤ num / den < 10 ^ n`. -/
def decimalPoint (num den : Nat) : Int :=
  if den ≤ num then ((natDigits (num / den)).length : Int)
  else 1 - (firstScaleAux den num den 1 : Int)

/-- Whether the decimal `c * 10 ^ x` rounds to the binary64 value `v`. -/
def roundsTo (v : ℚ) (c : Nat) (x : Int) : Bool :=
  let r := if 0 ≤ x then roundBinary64 (c * 10 ^ x.toNat) 1
           else roundBinary64 c (10 ^ (-x).toNat)
  decide (r = some v)

/-- Search of the shortest decimal `s * 10 ^ (n - k)` that rounds to `v`
(Number::toString, step 5), for `k` digits from `k` up to 17. With
`x = n0 - k`, the two candidates are the multiples `lo * 10 ^ x` and
`(lo + 1) * 10 ^ x` around `v`; of two that round to `v` the closer one is
taken, the even one on a tie. The result `(s, x)` has value `s * 10 ^ x`. -/
def shortestAux : Nat → ℚ → Int → Nat → Nat × Int
  | 0, v, n0, k =>
    let x : Int := n0 - (k : Int)
    let p : Nat := if 0 ≤ x then v.num.natAbs else v.num.natAbs * 10 ^ (-x).toNat
    let u : Nat := if 0 ≤ x then v.den * 10 ^ x.toNat else v.den
    (p / u, x)
  | fuel + 1, v, n0, k =>
    let x : Int := n0 - (k : Int)
    let p : Nat := if 0 ≤ x then v.num.natAbs else v.num.natAbs * 10 ^ (-x).toNat
    let u : Nat := if 0 ≤ x then v.den * 10 ^ x.toNat else v.den
    let lo : Nat := p / u
    let r : Nat := p % u
    let okLo := roundsTo v lo x
    let okHi := roundsTo v (lo + 1) x
    if okLo && okHi then
      if 2 * r < u then (lo, x)
      else if u < 2 * r then (lo + 1, x)
      else if lo % 2 = 0 then (lo, x) else (lo + 1, x)
    else if okLo then (lo, x)
    else if okHi then (lo + 1, x)
    else shortestAux fuel v n0 (k + 1)

/-- A list of `n` zeros. -/
def zeros (n : Nat) : List Char := List.replicate n (Char.ofNat 48)

/-- Number::toString for a positive finite value. -/
def positiveToString (v : ℚ) : List Char :=
  let n0 := decimalPoint v.num.natAbs v.den
  let sx := shortestAux 17 v n0 1
  let s := stripZeros sx.1
  let ds := natDigits s
  let k : Int := (ds.length : Int)
  let n : Int := (natDigits sx.1).length + sx.2
  if k ≤ n ∧ n ≤ 21 then ds ++ zeros (n - k).toNat
  else if 0 < n ∧ n ≤ 21 then ds.take n.toNat ++ [Char.ofNat 46] ++ ds.drop n.toNat
  else if -6 < n ∧ n ≤ 0 then [Char.ofNat 48, Char.ofNat 46] ++ zeros (-n).toNat ++ ds
  else
    let e : Int := n - 1
    let sign : Char := if 0 ≤ e then Char.ofNat 43 else Char.ofNat 45
    let mant : List Char :=
      match ds with
      | [] => []
      | [d] => [d]
      | d :: rest => d :: Char.ofNat 46 :: rest
    mant ++ [Char.ofNat 101, sign] ++ natDigits e.natAbs

/-- Number::toString. -/
def JSNum.toJSString : JSNum → String
  | .nan => "NaN"
  | .inf false => "Infinity"
  | .inf true => "-Infinity"
  | .fin neg q =>
    if q = 0 then "0"
    else if neg then String.mk (Char.ofNat 45 :: positiveToString q)
    else String.mk (positiveToString q)

/-! ## Truthiness, property reads, string conversion -/

/-- ToBoolean. -/
def truthy : JSVal → Bool
  | .undefined => false
  | .null => false
  | .bool b => b
  | .num .nan => false
  | .num (.inf _) => true
  | .num (.fin _ q) => decide (q ≠ 0)
  | .str s => decide (s ≠ "")
  | .arr _ => true
  | .obj _ => true

/-- The expression `a || b` (both operands already evaluated: the right
operands of this program are literals). -/
def jsOr (a b : JSVal) : JSVal := if truthy a then a else b

/-- Number of UTF-16 code units of a string (its `length`). -/
def utf16Length (s : String) : Nat :=
  (s.data.map (fun c => if c.toNat < 65536 then 1 else 2)).sum

/-- The property read `v.name` for a data value `v`. Reading a property of
`undefined` or `null` raises a TypeError; an object yields its own property
or `undefined`; arrays and strings have `length`. The program reads the names
`token`, `user_id`, `username`, `detail`, `trip_id`, `suggestions`,
`destinations`, `success`, `error` and `length`: none of them is defined on a
built-in prototype, and no index property is read. -/
def getProp (v : JSVal) (name : String) : Except JSError JSVal :=
  match v with
  | .undefined =>
    .error (JSError.typeError ("Cannot read properties of undefined (reading '" ++ name ++ "')"))
  | .null =>
    .error (JSError.typeError ("Cannot read properties of null (reading '" ++ name ++ "')"))
  | .obj props =>
    match props.lookup name with
    | some x => .ok x
    | none => .ok .undefined
  | .arr elems => if name = "length" then .ok (.num (JSNum.ofNat elems.length)) else .ok .undefined
  | .str s => if name = "length" then .ok (.num (JSNum.ofNat (utf16Length s))) else .ok .undefined
  | .bool _ => .ok .undefined
  | .num _ => .ok .undefined

/-- Whether an object has an own property of that name. -/
def hasOwn (props : List (String × JSVal)) (name : String) : Bool :=
  (props.lookup name).isSome

mutual
/-- ToString. An object converts through `Object.prototype.toString`, unless
it has an own `toString` property: a data value is not callable, and the
conversion raises a TypeError. An array converts through `join`. -/
def toJSString : JSVal → Except JSError String
  | .undefined => .ok "undefined"
  | .null => .ok "null"
  | .bool true => .ok "true"
  | .bool false => .ok "false"
  | .num n => .ok n.toJSString
  | .str s => .ok s
  | .arr elems => joinElems elems
  | .obj props =>
    if hasOwn props "toString" then
      .error (JSError.typeError "Cannot convert object to primitive value")
    else .ok "[object Object]"
/-- The text of `Array.prototype.join` with separator `,`: `undefined` and `null`
elements give the empty string. -/
def joinElems : List JSVal → Except JSError String
  | [] => .ok ""
  | [v] => elemString v
  | v :: vs =>
    match elemString v with
    | .error e => .error e
    | .ok a =>
      match joinElems vs with
      | .error e => .error e
      | .ok b => .ok (a ++ "," ++ b)
/-- One element of a joined array. -/
def elemString : JSVal → Except JSError String
  | .undefined => .ok ""
  | .null => .ok ""
  | .bool true => .ok "true"
  | .bool false => .ok "false"
  | .num n => .ok n.toJSString
  | .str s => .ok s
  | .arr elems => joinElems elems
  | .obj props =>
    if hasOwn props "toString" then
      .error (JSError.typeError "Cannot convert object to primitive value")
    else .ok "[object Object]"
end

/-! ## JSON.stringify -/

/-- A hexadecimal digit (lower case). -/
def hexDigit (n : Nat) : Char :=
  if n < 10 then Char.ofNat (48 + n) else Char.ofNat (87 + n)

/-- QuoteJSONString, one code point: the escapes of `"`, the backslash and the
control characters. -/
def quoteChar (c : Char) : List Char :=
  let n := c.toNat
  if n = 8 then [Char.ofNat 92, Char.ofNat 98]
  else if n = 9 then [Char.ofNat 92, Char.ofNat 116]
  else if n = 10 then [Char.ofNat 92, Char.ofNat 110]
  else if n = 12 then [Char.ofNat 92, Char.ofNat 102]
  else if n = 13 then [Char.ofNat 92, Char.ofNat 114]
  else if n = 34 then [Char.ofNat 92, Char.ofNat 34]
  else if n = 92 then [Char.ofNat 92, Char.ofNat 92]
  else if n < 32 then
    [Char.ofNat 92, Char.ofNat 117, Char.ofNat 48, Char.ofNat 48, hexDigit (n / 16), hexDigit (n % 16)]
  else [c]

/-- QuoteJSONString. -/
def quoteJSONString (s : String) : String :=
  String.mk (Char.ofNat 34 :: ((s.data.map quoteChar).flatten ++ [Char.ofNat 34]))

/-- Join the pieces of an array or object with commas. -/
def commaJoin : List String → String
  | [] => ""
  | [a] => a
  | a :: rest => a ++ "," ++ commaJoin rest

namespace JSON

mutual
/-- SerializeJSONProperty without indentation: `none` stands for `undefined`.
A number that is not finite serialises as `null`. -/
def serialize : JSVal → Option String
  | .undefined => none
  | .null => some "null"
  | .bool true => some "true"
  | .bool false => some "false"
  | .num (.fin neg q) => some (JSNum.fin neg q).toJSString
  | .num .nan => some "null"
  | .num (.inf _) => some "null"
  | .str s => some (quoteJSONString s)
  | .arr elems => some ("[" ++ commaJoin (serializeElems elems) ++ "]")
  | .obj props => some ("\x7b" ++ commaJoin (serializeProps props) ++ "\x7d")
/-- The elements of an array: `undefined` serialises as `null`. -/
def serializeElems : List JSVal → List String
  | [] => []
  | v :: vs =>
    (match serialize v with
     | some t => t
     | none => "null") :: serializeElems vs
/-- The members of an object: a property whose value is `undefined` is left out. -/
def serializeProps : List (String × JSVal) → List String
  | [] => []
  | (k, v) :: rest =>
    match serialize v with
    | some t => (quoteJSONString k ++ ":" ++ t) :: serializeProps rest
    | none => serializeProps rest
end

/-- The call `JSON.stringify(value)`; `none` stands for `undefined`. -/
def stringify (value : JSVal) : Option String := serialize value

end JSON

/-! ## JSON.parse

The parser works on the code points of the text. Its recursive functions take
a `fuel` argument that bounds the number of nested calls. -/

/-- JSON white space: space, tab, line feed, carriage return. -/
def isJSONWs (c : Nat) : Bool := c = 32 || c = 9 || c = 10 || c = 13

/-- Skip JSON white space. -/
def skipWs (cs : List Nat) : List Nat := cs.dropWhile isJSONWs

/-- A decimal digit. -/
def isDigit (c : Nat) : Bool := decide (48 ≤ c) && decide (c ≤ 57)

/-- The value of a run of decimal digits. -/
def digitsValue (ds : List Nat) : Nat := ds.foldl (fun a d => a * 10 + (d - 48)) 0

/-- The rest of `cs` after the literal `lit`, when `cs` begins with it. -/
def dropLit : List Nat → List Nat → Option (List Nat)
  | [], cs => some cs
  | _ :: _, [] => none
  | l :: ls, c :: cs => if l = c then dropLit ls cs else none

/-- An optional exponent part `e`, `e+` or `e-` followed by digits: its value
and the rest; `none` when `e` is not followed by digits. -/
def exponentPart (cs : List Nat) : Option (Int × List Nat) :=
  match cs with
  | [] => none
  | c :: r =>
    if c = 101 || c = 69 then
      match r with
      | [] => none
      | d :: r1 =>
        if d = 43 then
          (if (r1.span isDigit).1 = [] then none
           else some ((digitsValue (r1.span isDigit).1 : Int), (r1.span isDigit).2))
        else if d = 45 then
          (if (r1.span isDigit).1 = [] then none
           else some (-(digitsValue (r1.span isDigit).1 : Int), (r1.span isDigit).2))
        else
          (if (r.span isDigit).1 = [] then none
           else some ((digitsValue (r.span isDigit).1 : Int), (r.span isDigit).2))
    else none

/-- A JSON number: `-? (0 | [1-9][0-9]*) (. [0-9]+)? ([eE] [+-]? [0-9]+)?`. -/
def parseNumber (cs : List Nat) : Option (JSNum × List Nat) :=
  let neg : Bool := decide (cs.head? = some 45)
  let cs1 := if neg then cs.tail else cs
  let intPart : Option (List Nat × List Nat) :=
    match cs1 with
    | [] => none
    | c :: r =>
      if c = 48 then some ([48], r)
      else if isDigit c then some (cs1.span isDigit)
      else none
  match intPart with
  | none => none
  | some (ids, r1) =>
    let fracPart : Option (List Nat × List Nat) :=
      match r1 with
      | [] => some ([], r1)
      | c :: r =>
        if c = 46 then
          (if (r.span isDigit).1 = [] then none else some (r.span isDigit))
        else some ([], r1)
    match fracPart with
    | none => none
    | some (fds, r2) =>
      let isExp : Bool := decide (r2.head? = some 101) || decide (r2.head? = some 69)
      if isExp then
        match exponentPart r2 with
        | none => none
        | some (e, r3) =>
          some (JSNum.ofDecimal neg (digitsValue (ids ++ fds)) (e - (fds.length : Int)), r3)
      else some (JSNum.ofDecimal neg (digitsValue (ids ++ fds)) (-(fds.length : Int)), r2)

/-- The value of a hexadecimal digit. -/
def hexValue (c : Nat) : Option Nat :=
  if 48 ≤ c ∧ c ≤ 57 then some (c - 48)
  else if 97 ≤ c ∧ c ≤ 102 then some (c - 87)
  else if 65 ≤ c ∧ c ≤ 70 then some (c - 55)
  else none

/-- The value of four hexadecimal digits. -/
def hex4 (a b c d : Nat) : Option Nat :=
  match hexValue a, hexValue b, hexValue c, hexValue d with
  | some x, some y, some z, some w => some (((x * 16 + y) * 16 + z) * 16 + w)
  | _, _, _, _ => none

/-- The characters of a JSON string after its opening quote, up to the closing
quote. `pending` is a high surrogate read from the previous escape and waiting
for its low surrogate. -/
def parseStringBody : Nat → List Nat → Option Nat → List Char → Option (String × List Nat)
  | 0, _, _, _ => none
  | fuel + 1, cs, pending, acc =>
    let acc1 : List Char :=
      match pending with
      | some _ => Char.ofNat 65533 :: acc
      | none => acc
    match cs with
    | [] => none
    | c :: rest =>
      if c = 34 then some (String.mk acc1.reverse, rest)
      else if c = 92 then
        match rest with
        | [] => none
        | e :: r =>
          if e = 34 then parseStringBody fuel r none (Char.ofNat 34 :: acc1)
          else if e = 92 then parseStringBody fuel r none (Char.ofNat 92 :: acc1)
          else if e = 47 then parseStringBody fuel r none (Char.ofNat 47 :: acc1)
          else if e = 98 then parseStringBody fuel r none (Char.ofNat 8 :: acc1)
          else if e = 102 then parseStringBody fuel r none (Char.ofNat 12 :: acc1)
          else if e = 110 then parseStringBody fuel r none (Char.ofNat 10 :: acc1)
          else if e = 114 then parseStringBody fuel r none (Char.ofNat 13 :: acc1)
          else if e = 116 then parseStringBody fuel r none (Char.ofNat 9 :: acc1)
          else if e = 117 then
            match r with
            | h1 :: h2 :: h3 :: h4 :: r1 =>
              match hex4 h1 h2 h3 h4 with
              | none => none
              | some u =>
                if 55296 ≤ u ∧ u ≤ 56319 then parseStringBody fuel r1 (some u) acc1
                else if 56320 ≤ u ∧ u ≤ 57343 then
                  match pending with
                  | some hi =>
                    parseStringBody fuel r1 none
                      (Char.ofNat (65536 + (hi - 55296) * 1024 + (u - 56320)) :: acc)
                  | none => parseStringBody fuel r1 none (Char.ofNat 65533 :: acc1)
                else parseStringBody fuel r1 none (Char.ofNat u :: acc1)
            | _ => none
          else none
      else if c < 32 then none
      else parseStringBody fuel rest none (Char.ofNat c :: acc1)

/-- A JSON string after its opening quote. -/
def parseString (cs : List Nat) : Option (String × List Nat) :=
  parseStringBody (cs.length + 1) cs none []

/-- The array index a property key denotes, if it is the canonical decimal
form of an integer below `2 ^ 32 - 1`. -/
def arrayIndex (key : String) : Option Nat :=
  let cs := key.data.map Char.toNat
  if cs = [] then none
  else if !cs.all isDigit then none
  else if cs.head? = some 48 ∧ cs.length ≠ 1 then none
  else if digitsValue cs < 4294967295 then some (digitsValue cs) else none

/-- Insert an array-index key in ascending order before the string keys. -/
def insertIndexed (key : String) (i : Nat) (v : JSVal) :
    List (String × JSVal) → List (String × JSVal)
  | [] => [(key, v)]
  | (k, x) :: rest =>
    match arrayIndex k with
    | some j => if i < j then (key, v) :: (k, x) :: rest else (k, x) :: insertIndexed key i v rest
    | none => (key, v) :: (k, x) :: rest

/-- CreateDataProperty on an ordinary object: an existing key keeps its place
and takes the new value; a new array-index key goes among the index keys in
ascending order; any other new key goes last. -/
def setProp (props : List (String × JSVal)) (key : String) (v : JSVal) :
    List (String × JSVal) :=
  if hasOwn props key then props.map (fun kv => if kv.1 = key then (kv.1, v) else kv)
  else
    match arrayIndex key with
    | some i => insertIndexed key i v props
    | none => props ++ [(key, v)]

mutual
/-- A JSON value at the head of `cs` (leading white space already skipped),
with the text that follows it. -/
def parseValue : Nat → List Nat → Option (JSVal × List Nat)
  | 0, _ => none
  | fuel + 1, cs =>
    match cs with
    | [] => none
    | c :: rest =>
      if c = 123 then
        (if (skipWs rest).head? = some 125 then some (.obj [], (skipWs rest).tail)
         else parseMembers fuel (skipWs rest) [])
      else if c = 91 then
        (if (skipWs rest).head? = some 93 then some (.arr [], (skipWs rest).tail)
         else parseElements fuel (skipWs rest) [])
      else if c = 34 then
        match parseString rest with
        | some (s, r) => some (.str s, r)
        | none => none
      else if c = 116 then
        match dropLit [114, 117, 101] rest with
        | some r => some (.bool true, r)
        | none => none
      else if c = 102 then
        match dropLit [97, 108, 115, 101] rest with
        | some r => some (.bool false, r)
        | none => none
      else if c = 110 then
        match dropLit [117, 108, 108] rest with
        | some r => some (.null, r)
        | none => none
      else
        match parseNumber cs with
        | some (n, r) => some (.num n, r)
        | none => none
/-- The elements of an array from the head of an element on, up to the closing
bracket; `acc` holds the elements read so far, last first. -/
def parseElements : Nat → List Nat → List JSVal → Option (JSVal × List Nat)
  | 0, _, _ => none
  | fuel + 1, cs, acc =>
    match parseValue fuel cs with
    | none => none
    | some (v, rest) =>
      match skipWs rest with
      | [] => none
      | c :: r =>
        if c = 44 then parseElements fuel (skipWs r) (v :: acc)
        else if c = 93 then some (.arr (v :: acc).reverse, r)
        else none
/-- The members of an object from the head of a key on, up to the closing
brace; `acc` holds the properties read so far. -/
def parseMembers : Nat → List Nat → List (String × JSVal) → Option (JSVal × List Nat)
  | 0, _, _ => none
  | fuel + 1, cs, acc =>
    match cs with
    | [] => none
    | q :: rest =>
      if q = 34 then
        match parseString rest with
        | none => none
        | some (k, rest1) =>
          match skipWs rest1 with
          | [] => none
          | colon :: rest2 =>
            if colon = 58 then
              match parseValue fuel (skipWs rest2) with
              | none => none
              | some (v, rest3) =>
                match skipWs rest3 with
                | [] => none
                | c :: r =>
                  if c = 44 then parseMembers fuel (skipWs r) (setProp acc k v)
                  else if c = 125 then some (.obj (setProp acc k v), r)
                  else none
            else none
      else none
end

namespace JSON

/-- The call `JSON.parse(text)`: the value the text denotes, or a SyntaxError. -/
def parse (text : String) : Except JSError JSVal :=
  let cs := text.data.map Char.toNat
  match parseValue (2 * cs.length + 2) (skipWs cs) with
  | some (v, rest) =>
    if skipWs rest = [] then .ok v
    else .error (JSError.syntaxError "Unexpected non-whitespace character after JSON")
  | none => .error (JSError.syntaxError "Unexpected token in JSON")

end JSON

/-! ## parseFloat -/

/-- White space and line terminators skipped by `parseFloat`. -/
def isStrWs (c : Nat) : Bool :=
  c = 9 || c = 10 || c = 11 || c = 12 || c = 13 || c = 32 || c = 160 || c = 5760 ||
  (decide (8192 ≤ c) && decide (c ≤ 8202)) || c = 8232 || c = 8233 || c = 8239 ||
  c = 8287 || c = 12288 || c = 65279

/-- The global `parseFloat` on a string: the longest leading StrDecimalLiteral
after white space, NaN when there is none. -/
def parseFloat (s : String) : JSNum :=
  let cs := (s.data.map Char.toNat).dropWhile isStrWs
  let neg : Bool := decide (cs.head? = some 45)
  let cs1 := if cs.head? = some 45 ∨ cs.head? = some 43 then cs.tail else cs
  match dropLit [73, 110, 102, 105, 110, 105, 116, 121] cs1 with
  | some _ => .inf neg
  | none =>
    let ids := (cs1.span isDigit).1
    let r1 := (cs1.span isDigit).2
    let fds := if r1.head? = some 46 then (r1.tail.span isDigit).1 else []
    let r2 := if r1.head? = some 46 then (r1.tail.span isDigit).2 else r1
    if ids = [] ∧ fds = [] then .nan
    else
      match exponentPart r2 with
      | some (e, _) => JSNum.ofDecimal neg (digitsValue (ids ++ fds)) (e - (fds.length : Int))
      | none => JSNum.ofDecimal neg (digitsValue (ids ++ fds)) (-(fds.length : Int))

/-! ## The browser: storage, network, alerts -/

/-- An HTTP request as passed to `fetch`. -/
structure Request where
  url : String
  method : String
  headers : List (String × String)
  body : Option String
  deriving DecidableEq

/-- The outcome of `fetch`: the promise rejects (network failure), or resolves
with a response of which the program reads `ok` and the body text. -/
inductive FetchResult where
  | networkError (message : String)
  | response (ok : Bool) (body : String)
  deriving DecidableEq

/-- The backend and the network: what each request is answered with. -/
abbrev Backend := Request → FetchResult

/-- A response object. -/
structure Response where
  ok : Bool
  body : String
  deriving DecidableEq

/-- What the program can observe or change outside its React state. -/
structure World where
  localStorage : List (String × String)
  requests : List Request
  alerts : List String
  consoleErrors : List String
  deriving DecidableEq

/-- A computation over the React state `σ` of a component and the world: it
returns a value or raises, and the state changes made before a raise stay. -/
def JS (σ : Type) (α : Type) : Type := σ → World → Except JSError α × σ × World

namespace JS

variable {σ τ α β : Type}

/-- Return a value. -/
def ret (a : α) : JS σ α := fun s w => (.ok a, s, w)

/-- Sequence two computations. -/
def seq (m : JS σ α) (f : α → JS σ β) : JS σ β := fun s w =>
  match m s w with
  | (.ok a, s1, w1) => f a s1 w1
  | (.error e, s1, w1) => (.error e, s1, w1)

/-- The statement `throw e`. -/
def raise (e : JSError) : JS σ α := fun s w => (.error e, s, w)

/-- The statement `try body catch (e) handler`. -/
def tryCatch (body : JS σ α) (handler : JSError → JS σ α) : JS σ α := fun s w =>
  match body s w with
  | (.ok a, s1, w1) => (.ok a, s1, w1)
  | (.error e, s1, w1) => handler e s1 w1

/-- The statement `try body finally fin`: `fin` runs on both exits and the
outcome of `body` stands unless `fin` raises. -/
def tryFinally (body : JS σ α) (fin : JS σ Unit) : JS σ α := fun s w =>
  match body s w with
  | (r, s1, w1) =>
    match fin s1 w1 with
    | (.ok _, s2, w2) => (r, s2, w2)
    | (.error e, s2, w2) => (.error e, s2, w2)

/-- A pure operation that may raise. -/
def liftExcept (r : Except JSError α) : JS σ α := fun s w => (r, s, w)

/-- Read the React state captured by the handler. -/
def getState : JS σ σ := fun s w => (.ok s, s, w)

/-- A React state setter. -/
def modifyState (f : σ → σ) : JS σ Unit := fun s w => (.ok (), f s, w)

/-- A change of the world. -/
def modifyWorld (f : World → World) : JS σ Unit := fun s w => (.ok (), s, f w)

/-- Run a computation of a component on the part of a larger state that
belongs to that component. -/
def within (get : τ → σ) (set : σ → τ → τ) (m : JS σ α) : JS τ α := fun t w =>
  match m (get t) w with
  | (r, s1, w1) => (r, set s1 t, w1)

end JS

instance (σ : Type) : Monad (JS σ) where
  pure := JS.ret
  bind := JS.seq

/-- The call `alert(message)`. -/
def alert {σ : Type} (message : String) : JS σ Unit :=
  JS.modifyWorld (fun w => { w with alerts := w.alerts ++ [message] })

/-- The call `console.error(label, error)`. -/
def consoleError {σ : Type} (label : String) (error : JSError) : JS σ Unit :=
  JS.modifyWorld (fun w =>
    { w with consoleErrors := w.consoleErrors ++ [label ++ " " ++ error.name ++ ": " ++ error.message] })

/-- Storage: replace the value of a key in place, or add the key. -/
def storageSet (store : List (String × String)) (key value : String) : List (String × String) :=
  if (store.lookup key).isSome then store.map (fun kv => if kv.1 = key then (kv.1, value) else kv)
  else store ++ [(key, value)]

namespace localStorage

variable {σ : Type}

/-- The call `localStorage.getItem(key)`: the stored string, or `null`. -/
def getItem (key : String) : JS σ JSVal := fun s w =>
  match w.localStorage.lookup key with
  | some v => (.ok (.str v), s, w)
  | none => (.ok .null, s, w)

/-- The call `localStorage.setItem(key, value)`: the value is converted to a
string. -/
def setItem (key : String) (value : JSVal) : JS σ Unit := do
  let text ← JS.liftExcept (toJSString value)
  JS.modifyWorld (fun w => { w with localStorage := storageSet w.localStorage key text })

/-- The call `localStorage.removeItem(key)`. -/
def removeItem (key : String) : JS σ Unit :=
  JS.modifyWorld (fun w => { w with localStorage := w.localStorage.filter (fun kv => kv.1 != key) })

end localStorage

/-- The call `fetch(url, options)`: the request is sent, and the promise
resolves with the response or rejects with a TypeError. -/
def fetch {σ : Type} (backend : Backend) (req : Request) : JS σ Response := fun s w =>
  let w1 := { w with requests := w.requests ++ [req] }
  match backend req with
  | .networkError message => (.error (JSError.typeError message), s, w1)
  | .response ok body => (.ok { ok := ok, body := body }, s, w1)

/-- The call `response.json()`. -/
def Response.json {σ : Type} (response : Response) : JS σ JSVal :=
  JS.liftExcept (JSON.parse response.body)

/-- The call `JSON.stringify(value)` as a value: a string or `undefined`. -/
def stringifyValue (value : JSVal) : JSVal :=
  match JSON.stringify value with
  | some text => .str text
  | none => .undefined

/-- The call `JSON.parse(value)`: the argument is converted to a string. -/
def parseValueOf {σ : Type} (value : JSVal) : JS σ JSVal := do
  let text ← JS.liftExcept (toJSString value)
  JS.liftExcept (JSON.parse text)

/-- The property read `v.name` inside a handler. -/
def prop {σ : Type} (v : JSVal) (name : String) : JS σ JSVal := JS.liftExcept (getProp v name)

/-! ## The HTTP client wrapper (App.jsx, lines 4-30) -/

/-- `const API_BASE_URL`. -/
def API_BASE_URL : String := "http://localhost:8000"

namespace api

variable {σ : Type}

/-- `api.post(endpoint, data)`. -/
def post (backend : Backend) (endpoint : String) (data : JSVal) : JS σ JSVal := do
  let response ← fetch backend
    { url := API_BASE_URL ++ endpoint
      method := "POST"
      headers := [("Content-Type", "application/json")]
      body := JSON.stringify data }
  if !response.ok then
    let error ← response.json
    let detail ← prop error "detail"
    let message ← JS.liftExcept (toJSString (jsOr detail (.str "API request failed")))
    JS.raise (JSError.mkError message)
  else
    response.json

/-- `api.get(endpoint, token)`. -/
def get (backend : Backend) (endpoint : String) (token : JSVal) : JS σ JSVal := do
  let headers : List (String × String) ←
    (if truthy token then do
      let text ← JS.liftExcept (toJSString token)
      pure [("Content-Type", "application/json"), ("Authorization", "Bearer " ++ text)]
    else pure [("Content-Type", "application/json")])
  let response ← fetch backend
    { url := API_BASE_URL ++ endpoint, method := "GET", headers := headers, body := none }
  if !response.ok then JS.raise (JSError.mkError "API request failed")
  else response.json

end api

/-! ## TravelPlannerApp (App.jsx, lines 33-105) -/

/-- The React state of `TravelPlannerApp`. -/
structure AppState where
  user : JSVal
  token : JSVal
  currentView : String
  authMode : String

namespace TravelPlannerApp

/-- The initial values given to `useState`. -/
def initialState : AppState :=
  { user := .null, token := .null, currentView := "auth", authMode := "login" }

/-- `setUser`. -/
def setUser (v : JSVal) : JS AppState Unit := JS.modifyState (fun s => { s with user := v })

/-- `setToken`. -/
def setToken (v : JSVal) : JS AppState Unit := JS.modifyState (fun s => { s with token := v })

/-- `setCurrentView`. -/
def setCurrentView (v : String) : JS AppState Unit :=
  JS.modifyState (fun s => { s with currentView := v })

/-- `setAuthMode`. -/
def setAuthMode (v : String) : JS AppState Unit :=
  JS.modifyState (fun s => { s with authMode := v })

/-- The effect run once after the first render (lines 39-47). -/
def startupEffect : JS AppState Unit := do
  let savedToken ← localStorage.getItem "token"
  let savedUser ← localStorage.getItem "user"
  if truthy savedToken && truthy savedUser then
    setToken savedToken
    let parsed ← parseValueOf savedUser
    setUser parsed
    setCurrentView "main"
  else pure ()

/-- `handleLogin` (lines 49-61). -/
def handleLogin (backend : Backend) (credentials : JSVal) : JS AppState JSVal :=
  JS.tryCatch
    (do
      let result ← api.post backend "/auth/login" credentials
      let resultToken ← prop result "token"
      setToken resultToken
      let userId ← prop result "user_id"
      let username ← prop result "username"
      setUser (.obj [("user_id", userId), ("username", username)])
      let resultToken2 ← prop result "token"
      localStorage.setItem "token" resultToken2
      let userId2 ← prop result "user_id"
      let username2 ← prop result "username"
      localStorage.setItem "user" (stringifyValue (.obj [("user_id", userId2), ("username", username2)]))
      setCurrentView "main"
      pure (.obj [("success", .bool true)]))
    (fun error => pure (.obj [("success", .bool false), ("error", .str error.message)]))

/-- `handleSignup` (lines 63-75). -/
def handleSignup (backend : Backend) (credentials : JSVal) : JS AppState JSVal :=
  JS.tryCatch
    (do
      let result ← api.post backend "/auth/signup" credentials
      let resultToken ← prop result "token"
      setToken resultToken
      let userId ← prop result "user_id"
      let username ← prop result "username"
      setUser (.obj [("user_id", userId), ("username", username)])
      let resultToken2 ← prop result "token"
      localStorage.setItem "token" resultToken2
      let userId2 ← prop result "user_id"
      let username2 ← prop result "username"
      localStorage.setItem "user" (stringifyValue (.obj [("user_id", userId2), ("username", username2)]))
      setCurrentView "main"
      pure (.obj [("success", .bool true)]))
    (fun error => pure (.obj [("success", .bool false), ("error", .str error.message)]))

/-- `handleLogout` (lines 77-83). -/
def handleLogout : JS AppState Unit := do
  setUser .null
  setToken .null
  localStorage.removeItem "token"
  localStorage.removeItem "user"
  setCurrentView "auth"

end TravelPlannerApp

/-! ## AuthView (App.jsx, lines 108-240) -/

/-- The `formData` state of `AuthView`: the text of its five inputs. -/
structure FormData where
  email : String
  password : String
  username : String
  city : String
  country : String
  deriving DecidableEq

/-- The `formData` object as a value. -/
def FormData.toJS (f : FormData) : JSVal :=
  .obj [("email", .str f.email), ("password", .str f.password), ("username", .str f.username),
        ("city", .str f.city), ("country", .str f.country)]

/-- The React state of `AuthView`. -/
structure AuthViewState where
  formData : FormData
  error : JSVal
  loading : Bool

/-- The state of the page while `AuthView` is shown: the state of
`TravelPlannerApp`, which the `onLogin` and `onSignup` props act on, and the
state of `AuthView`. -/
structure AuthPage where
  app : AppState
  view : AuthViewState

namespace AuthView

/-- The initial values given to `useState`. -/
def initialState : AuthViewState :=
  { formData := { email := "", password := "", username := "", city := "", country := "" }
    error := .str ""
    loading := false }

/-- `setError`. -/
def setError (v : JSVal) : JS AuthPage Unit :=
  JS.modifyState (fun p => { p with view := { p.view with error := v } })

/-- `setLoading`. -/
def setLoading (v : Bool) : JS AuthPage Unit :=
  JS.modifyState (fun p => { p with view := { p.view with loading := v } })

/-- A prop of `TravelPlannerApp` called from `AuthView`. -/
def callApp {α : Type} (m : JS AppState α) : JS AuthPage α :=
  JS.within (fun p => p.app) (fun a p => { p with app := a }) m

/-- `handleSubmit` (lines 119-137); `e.preventDefault()` has no effect on the
state. -/
def handleSubmit (mode : String) (onLogin onSignup : JSVal → JS AppState JSVal) :
    JS AuthPage Unit := do
  let captured ← JS.getState
  let formData := captured.view.formData
  setError (.str "")
  setLoading true
  JS.tryFinally
    (JS.tryCatch
      (do
        let result ←
          (if mode = "login" then
            callApp (onLogin (.obj [("email", .str formData.email), ("password", .str formData.password)]))
          else callApp (onSignup formData.toJS))
        let success ← prop result "success"
        if !truthy success then
          let resultError ← prop result "error"
          setError resultError
        else pure ())
      (fun _ => setError (.str "An unexpected error occurred")))
    (setLoading false)

end AuthView

/-! ## PlanningView (App.jsx, lines 297-544) -/

/-- The `tripData` state: the text of the trip form's inputs. -/
structure TripData where
  maxBudget : String
  startDate : String
  endDate : String
  destinationCity : String
  destinationCountry : String
  deriving DecidableEq

/-- The `filters` state: the text of the filter inputs. -/
structure Filters where
  budget : String
  destination : String
  category : String
  deriving DecidableEq

/-- The React state of `PlanningView`. -/
structure PlanningState where
  step : String
  tripData : TripData
  suggestions : JSVal
  filteredDestinations : JSVal
  filters : Filters
  loading : Bool
  currentTrip : JSVal

/-- Which branch of `PlanningView` is rendered. The cards inside the lists are
not part of the embedding. -/
inductive PlanningScreen where
  | tripDetailsForm
  | suggestionsScreen
  | noDestinationsMatch
  | filteredResults
  | nothing
  deriving DecidableEq

/-- The comparison `v === 0`. -/
def strictEqualsZero : JSVal → Bool
  | .num (.fin _ q) => decide (q = 0)
  | _ => false

namespace PlanningView

/-- The initial values given to `useState`. -/
def initialState : PlanningState :=
  { step := "trip-details"
    tripData := { maxBudget := "", startDate := "", endDate := "", destinationCity := "",
                  destinationCountry := "" }
    suggestions := .arr []
    filteredDestinations := .arr []
    filters := { budget := "", destination := "", category := "" }
    loading := false
    currentTrip := .null }

/-- `setStep`. -/
def setStep (v : String) : JS PlanningState Unit := JS.modifyState (fun s => { s with step := v })

/-- `setTripData`. -/
def setTripData (v : TripData) : JS PlanningState Unit :=
  JS.modifyState (fun s => { s with tripData := v })

/-- `setSuggestions`. -/
def setSuggestions (v : JSVal) : JS PlanningState Unit :=
  JS.modifyState (fun s => { s with suggestions := v })

/-- `setFilteredDestinations`. -/
def setFilteredDestinations (v : JSVal) : JS PlanningState Unit :=
  JS.modifyState (fun s => { s with filteredDestinations := v })

/-- `setFilters`. -/
def setFilters (v : Filters) : JS PlanningState Unit :=
  JS.modifyState (fun s => { s with filters := v })

/-- `setLoading`. -/
def setLoading (v : Bool) : JS PlanningState Unit :=
  JS.modifyState (fun s => { s with loading := v })

/-- `setCurrentTrip`. -/
def setCurrentTrip (v : JSVal) : JS PlanningState Unit :=
  JS.modifyState (fun s => { s with currentTrip := v })

/-- The object literal `handleCreateTrip` passes to `api.post` (lines 316-323). -/
def createTripData (userId : JSVal) (tripData : TripData) : JSVal :=
  .obj [("user_id", userId),
        ("max_budget", .num (parseFloat tripData.maxBudget)),
        ("start_date", .str tripData.startDate),
        ("end_date", .str tripData.endDate),
        ("destination_city", jsOr (.str tripData.destinationCity) .null),
        ("destination_country", jsOr (.str tripData.destinationCountry) .null)]

/-- `handleCreateTrip` (lines 312-331); `e.preventDefault()` has no effect on
the state. -/
def handleCreateTrip (backend : Backend) (user : JSVal) : JS PlanningState Unit := do
  let captured ← JS.getState
  let tripData := captured.tripData
  setLoading true
  JS.tryFinally
    (JS.tryCatch
      (do
        let userId ← prop user "user_id"
        let result ← api.post backend "/planning/create-trip" (createTripData userId tripData)
        let tripId ← prop result "trip_id"
        setCurrentTrip tripId
        setStep "suggestions")
      (fun error => alert ("Error creating trip: " ++ error.message)))
    (setLoading false)

/-- `fetchSuggestions` (lines 333-343). -/
def fetchSuggestions (backend : Backend) (user token : JSVal) : JS PlanningState Unit := do
  setLoading true
  JS.tryFinally
    (JS.tryCatch
      (do
        let userId ← prop user "user_id"
        let idText ← JS.liftExcept (toJSString userId)
        let result ← api.get backend ("/planning/suggestions/" ++ idText) token
        let suggestions ← prop result "suggestions"
        setSuggestions (jsOr suggestions (.arr [])))
      (fun error => alert ("Error fetching suggestions: " ++ error.message)))
    (setLoading false)

/-- The object literal `applyFilters` passes to `api.post` (lines 348-353). -/
def filterData (userId : JSVal) (filters : Filters) : JSVal :=
  .obj [("user_id", userId),
        ("budget", if truthy (.str filters.budget) then .num (parseFloat filters.budget) else .null),
        ("destination", jsOr (.str filters.destination) .null),
        ("category", jsOr (.str filters.category) .null)]

/-- `applyFilters` (lines 345-361). -/
def applyFilters (backend : Backend) (user : JSVal) : JS PlanningState Unit := do
  let captured ← JS.getState
  let filters := captured.filters
  setLoading true
  JS.tryFinally
    (JS.tryCatch
      (do
        let userId ← prop user "user_id"
        let result ← api.post backend "/planning/filter" (filterData userId filters)
        let destinations ← prop result "destinations"
        setFilteredDestinations (jsOr destinations (.arr []))
        setStep "filtered")
      (fun error => alert ("Error applying filters: " ++ error.message)))
    (setLoading false)

/-- The click handler of the button `Try Different Filters` (line 526). -/
def tryDifferentFilters : JS PlanningState Unit := setStep "suggestions"

/-- The branch of `PlanningView` rendered in a state (lines 363-543); reading
`filteredDestinations.length` raises when the value is `null` or `undefined`. -/
def render (s : PlanningState) : Except JSError PlanningScreen :=
  if s.step = "trip-details" then .ok .tripDetailsForm
  else if s.step = "suggestions" then .ok .suggestionsScreen
  else if s.step = "filtered" then
    match getProp s.filteredDestinations "length" with
    | .error e => .error e
    | .ok len => if strictEqualsZero len then .ok .noDestinationsMatch else .ok .filteredResults
  else .ok .nothing

end PlanningView

/-- What the user can do on a screen of `PlanningView`: each action is a
control the screen renders together with the backend's answer to the request
it sends, if it sends one. -/
inductive PlanningAction where
  | editTripData (v : TripData)
  | submitTrip (backend : Backend)
  | showSuggestions (backend : Backend)
  | editFilters (v : Filters)
  | applyFilters (backend : Backend)
  | tryDifferentFilters

namespace PlanningView

/-- Whether a screen renders the control of an action, and the control is not
disabled. -/
def offers (screen : PlanningScreen) (loading : Bool) : PlanningAction → Bool
  | .editTripData _ => decide (screen = .tripDetailsForm)
  | .submitTrip _ => decide (screen = .tripDetailsForm) && !loading
  | .showSuggestions _ => decide (screen = .suggestionsScreen) && !loading
  | .editFilters _ => decide (screen = .suggestionsScreen)
  | .applyFilters _ => decide (screen = .suggestionsScreen) && !loading
  | .tryDifferentFilters => decide (screen = .noDestinationsMatch)

/-- The handler an action runs. -/
def perform (user token : JSVal) : PlanningAction → JS PlanningState Unit
  | .editTripData v => setTripData v
  | .submitTrip backend => handleCreateTrip backend user
  | .showSuggestions backend => fetchSuggestions backend user token
  | .editFilters v => setFilters v
  | .applyFilters backend => applyFilters backend user
  | .tryDifferentFilters => tryDifferentFilters

/-- One user action on a mounted instance of the view: the action must be
offered by the screen rendered in the current state; otherwise nothing
happens. -/
def act (user token : JSVal) (a : PlanningAction) (s : PlanningState) (w : World) :
    PlanningState × World :=
  match render s with
  | .ok screen =>
    if offers screen s.loading a then ((perform user token a s w).2.1, (perform user token a s w).2.2)
    else (s, w)
  | .error _ => (s, w)

/-- The moves of the planning step the specification allows. -/
def allowedMove (before after : String) : Prop :=
  before = after ∨
  (before = "trip-details" ∧ after = "suggestions") ∨
  (before = "suggestions" ∧ after = "filtered") ∨
  (before = "filtered" ∧ after = "suggestions")

end PlanningView

/-! ## TripsView (App.jsx, lines 585-639) -/

/-- The React state of `TripsView`. -/
structure TripsState where
  trips : JSVal
  loading : Bool

namespace TripsView

/-- The initial values given to `useState`. -/
def initialState : TripsState := { trips := .arr [], loading := true }

/-- `setTrips`. -/
def setTrips (v : JSVal) : JS TripsState Unit := JS.modifyState (fun s => { s with trips := v })

/-- `setLoading`. -/
def setLoading (v : Bool) : JS TripsState Unit := JS.modifyState (fun s => { s with loading := v })

/-- `fetchTrips` (lines 593-602), run once by the effect of lines 589-591. -/
def fetchTrips (backend : Backend) (user token : JSVal) : JS TripsState Unit :=
  JS.tryFinally
    (JS.tryCatch
      (do
        let userId ← prop user "user_id"
        let idText ← JS.liftExcept (toJSString userId)
        let result ← api.get backend ("/trips/" ++ idText) token
        let trips ← prop result "trips"
        setTrips (jsOr trips (.arr [])))
      (fun error => consoleError "Error fetching trips:" error))
    (setLoading false)

end TripsView

/-! ## What TravelPlannerApp renders, and the actions it offers -/

/-- Which component `TravelPlannerApp` shows (lines 85-104): `AuthView`, or
`MainApp` (lines 243-294) with `PlanningView`, with `TripsView`, or with
neither. -/
inductive AppScreen where
  | authView
  | planningView
  | tripsView
  | navigationOnly
  deriving DecidableEq

/-- What the user can do at the top level: submit the form of `AuthView` (a
login or a signup attempt, with the backend's answer to it), switch the form
between login and signup, and in `MainApp` press `Plan Trip`, `My Trips` or
`Logout`. -/
inductive AppAction where
  | login (backend : Backend) (credentials : JSVal)
  | signup (backend : Backend) (credentials : JSVal)
  | setMode (mode : String)
  | planTrip
  | myTrips
  | logout

namespace TravelPlannerApp

/-- The render of `TravelPlannerApp` and, below it, of `MainApp`, which reads
`user.username` (line 274). -/
def render (s : AppState) : Except JSError AppScreen :=
  if s.currentView = "auth" then .ok .authView
  else
    match getProp s.user "username" with
    | .error e => .error e
    | .ok _ =>
      if s.currentView = "main" then .ok .planningView
      else if s.currentView = "trips" then .ok .tripsView
      else .ok .navigationOnly

/-- Whether a screen renders the control of an action: the form and the mode
buttons belong to `AuthView`, the three navigation buttons to `MainApp`. -/
def offers (screen : AppScreen) : AppAction → Bool
  | .login _ _ => decide (screen = .authView)
  | .signup _ _ => decide (screen = .authView)
  | .setMode _ => decide (screen = .authView)
  | .planTrip => decide (screen ≠ .authView)
  | .myTrips => decide (screen ≠ .authView)
  | .logout => decide (screen ≠ .authView)

/-- The handler an action runs; the value a handler returns is dropped. -/
def perform : AppAction → JS AppState Unit
  | .login backend credentials => do
    let _ ← handleLogin backend credentials
    pure ()
  | .signup backend credentials => do
    let _ ← handleSignup backend credentials
    pure ()
  | .setMode mode => setAuthMode mode
  | .planTrip => setCurrentView "main"
  | .myTrips => setCurrentView "trips"
  | .logout => handleLogout

/-- One user action: it must be offered by the screen rendered in the current
state; when the render raises there is no screen and nothing happens. -/
def act (a : AppAction) (s : AppState) (w : World) : AppState × World :=
  match render s with
  | .ok screen => if offers screen a then ((perform a s w).2.1, (perform a s w).2.2) else (s, w)
  | .error _ => (s, w)

/-- A sequence of user actions. -/
def run : List AppAction → AppState → World → AppState × World
  | [], s, w => (s, w)
  | a :: rest, s, w => run rest (act a s w).1 (act a s w).2

end TravelPlannerApp

/-! ## The page: MainApp and the PlanningView it mounts (App.jsx, lines 243-298)

`MainApp` renders `PlanningView` only while `currentView === 'main'` (line
289). The state of `PlanningView` lives in the mounted instance: React keeps
it while the instance stays rendered, drops it when the instance is no longer
rendered, and gives a newly rendered instance the initial values of its
`useState` calls (line 298 for `step`). -/

/-- The state of the page: the state of `TravelPlannerApp` and, while
`PlanningView` is rendered, the state of its mounted instance. -/
structure Page where
  app : AppState
  planning : Option PlanningState

/-- What the user can do on the page: use a control of `AuthView` or of the
navigation bar of `MainApp`, or a control of the mounted `PlanningView`. -/
inductive PageAction where
  | app (a : AppAction)
  | planning (a : PlanningAction)

namespace Page

/-- Whether `PlanningView` is rendered: `MainApp` is shown with
`currentView === 'main'` (line 289). -/
def planningMounted (s : AppState) : Bool :=
  match TravelPlannerApp.render s with
  | .ok .planningView => true
  | _ => false

/-- The page when `TravelPlannerApp` is first rendered in a state. -/
def ofApp (s : AppState) : Page :=
  { app := s, planning := if planningMounted s then some PlanningView.initialState else none }

/-- The page at startup: `AuthView` is shown and no `PlanningView` is mounted. -/
def initial : Page := ofApp TravelPlannerApp.initialState

/-- The instance of `PlanningView` after `TravelPlannerApp` has rendered again:
a mounted instance that is still rendered keeps its state, an instance that is
no longer rendered is dropped, and one that was not mounted before starts from
`PlanningView.initialState`. -/
def remount (before : Option PlanningState) (after : AppState) : Option PlanningState :=
  if planningMounted after then
    match before with
    | some st => some st
    | none => some PlanningView.initialState
  else none

/-- One user action on the page. A control of `PlanningView` exists only while
an instance is mounted; it acts on that instance with the `user` and `token`
props `MainApp` passes (line 289). -/
def act : PageAction → Page → World → Page × World
  | .app a, p, w =>
    ({ app := (TravelPlannerApp.act a p.app w).1
       planning := remount p.planning (TravelPlannerApp.act a p.app w).1 },
     (TravelPlannerApp.act a p.app w).2)
  | .planning a, p, w =>
    match p.planning with
    | some st =>
      ({ p with planning := some (PlanningView.act p.app.user p.app.token a st w).1 },
       (PlanningView.act p.app.user p.app.token a st w).2)
    | none => (p, w)

/-- A sequence of user actions on the page. -/
def run : List PageAction → Page → World → Page × World
  | [], p, w => (p, w)
  | a :: rest, p, w => run rest (act a p w).1 (act a p w).2

/-- The planning step shown on the page, if `PlanningView` is mounted. -/
def step (p : Page) : Option String := p.planning.map PlanningState.step

end Page

/-! ## Values that JSON text holds exactly -/

mutual
/-- Whether `JSON.stringify` writes a value without loss: the value holds no
`undefined` (left out of an object, written `null` in an array), no `NaN` or
infinity (written `null`) and no negative zero (written `0`). -/
def JSVal.storable : JSVal → Bool
  | .undefined => false
  | .null => true
  | .bool _ => true
  | .num (.fin neg q) => !(neg && decide (q = 0))
  | .num .nan => false
  | .num (.inf _) => false
  | .str _ => true
  | .arr elems => JSVal.storableElems elems
  | .obj props => JSVal.storableProps props
/-- The elements of an array are all written without loss. -/
def JSVal.storableElems : List JSVal → Bool
  | [] => true
  | v :: vs => JSVal.storable v && JSVal.storableElems vs
/-- The property values of an object are all written without loss. -/
def JSVal.storableProps : List (String × JSVal) → Bool
  | [] => true
  | (_, v) :: rest => JSVal.storable v && JSVal.storableProps rest
end

/-- The order of two property keys of an object: an array index comes before a
key that is not one, and array indices ascend. -/
def keyBefore (a b : String) : Prop :=
  match arrayIndex a, arrayIndex b with
  | some i, some j => i ≤ j
  | some _, none => True
  | none, some _ => False
  | none, none => True

/-- The properties of an object as the engine keeps them: no key twice, the
keys in property order. -/
def KeysInOrder (props : List (String × JSVal)) : Prop :=
  props.Pairwise (fun a b => a.1 ≠ b.1 ∧ keyBefore a.1 b.1)

/-- The comparison `v === undefined`. -/
def JSVal.isUndefined : JSVal → Bool
  | .undefined => true
  | _ => false

mutual
/-- The value held by the text `JSON.stringify` writes for a value: negative
zero becomes zero, `NaN` and the infinities become `null`, an `undefined`
array element becomes `null`, and a property whose value is `undefined` is
left out. -/
def JSVal.written : JSVal → JSVal
  | .undefined => .null
  | .null => .null
  | .bool b => .bool b
  | .num (.fin neg q) => .num (.fin (neg && decide (q ≠ 0)) q)
  | .num .nan => .null
  | .num (.inf _) => .null
  | .str s => .str s
  | .arr elems => .arr (JSVal.writtenElems elems)
  | .obj props => .obj (JSVal.writtenProps props)
/-- The elements held by the text of an array. -/
def JSVal.writtenElems : List JSVal → List JSVal
  | [] => []
  | v :: vs => JSVal.written v :: JSVal.writtenElems vs
/-- The properties held by the text of an object. -/
def JSVal.writtenProps : List (String × JSVal) → List (String × JSVal)
  | [] => []
  | (k, v) :: rest =>
    if JSVal.isUndefined v then JSVal.writtenProps rest
    else (k, JSVal.written v) :: JSVal.writtenProps rest
end

/-- A text reads as a value: it does not begin with white space, and
`parseValue` reads the value from it when a comma or a closing bracket or
brace follows, given fuel for the length of the text. -/
def ReadsAs (text : String) (v : JSVal) : Prop :=
  (∃ c tl, text.data.map Char.toNat = c :: tl ∧ isJSONWs c = false) ∧
  ∀ (fuel t : Nat) (rest : List Nat), text.length ≤ fuel → (t = 44 ∨ t = 93 ∨ t = 125) →
    parseValue fuel (text.data.map Char.toNat ++ t :: rest) = some (v, t :: rest)

/-- The text `JSON.stringify` writes for `v` reads as `v1`. -/
def ReadsBackAs (v v1 : JSVal) : Prop :=
  ∃ text : String, JSON.serialize v = some text ∧ ReadsAs text v1

/-! ## Vocabulary of the statements -/

/-- The request `api.post(endpoint, data)` sends. -/
def postRequest (endpoint : String) (data : JSVal) : Request :=
  { url := API_BASE_URL ++ endpoint
    method := "POST"
    headers := [("Content-Type", "application/json")]
    body := JSON.stringify data }

/-- The record `handleLogin` and `handleSignup` keep as `user`. -/
def userRecord (userId username : JSVal) : JSVal :=
  .obj [("user_id", userId), ("username", username)]

/-- The endpoint of the two authentication handlers. -/
def authEndpoint (signup : Bool) : String := if signup then "/auth/signup" else "/auth/login"

/-- The two authentication handlers: `handleSignup` and `handleLogin`. -/
def authHandler (signup : Bool) : Backend → JSVal → JS AppState JSVal :=
  if signup then TravelPlannerApp.handleSignup else TravelPlannerApp.handleLogin

/-- A world with an empty storage and nothing sent or shown yet. -/
def emptyWorld : World := { localStorage := [], requests := [], alerts := [], consoleErrors := [] }

/-- A backend that gives the same answer to every request. -/
def constBackend (ok : Bool) (body : String) : Backend := fun _ => .response ok body

/-- Credentials as the login form passes them. -/
def sampleCredentials : JSVal :=
  .obj [("email", .str "ann@example.com"), ("password", .str "secret1")]

/-- A user record as `handleLogin` stores it. -/
def sampleUser : JSVal := userRecord (.num (JSNum.ofNat 7)) (.str "ann")

/-- The trip draft of the specification's example: budget "1500", 1 to 10 June
2025, no destination preference. -/
def sampleDraft : TripData :=
  { maxBudget := "1500", startDate := "2025-06-01", endDate := "2025-06-10",
    destinationCity := "", destinationCountry := "" }

/-- The planning state holding the example draft. -/
def sampleDraftState : PlanningState := { PlanningView.initialState with tripData := sampleDraft }

/-- The JSON text of the `budget` member `applyFilters` sends: `null` for an
empty text and for a text `parseFloat` reads as NaN or an infinity, the number
read otherwise. -/
def budgetWireText (budget : String) : String :=
  if budget = "" then "null"
  else
    match parseFloat budget with
    | .fin neg q => (JSNum.fin neg q).toJSString
    | .nan => "null"
    | .inf _ => "null"

/-- The JSON text of an optional text member: `null` for the empty text, the
quoted text otherwise. -/
def optionalWireText (text : String) : String :=
  if text = "" then "null" else quoteJSONString text

/-- A planning state holding given filters. -/
def filtersState (budget destination category : String) : PlanningState :=
  { PlanningView.initialState with
    step := "suggestions"
    filters := { budget := budget, destination := destination, category := category } }

/-- The request `api.get(endpoint, token)` sends, `text` being the token
converted to a string. -/
def getRequest (endpoint : String) (token : JSVal) (text : String) : Request :=
  { url := API_BASE_URL ++ endpoint
    method := "GET"
    headers :=
      if truthy token then [("Content-Type", "application/json"), ("Authorization", "Bearer " ++ text)]
      else [("Content-Type", "application/json")]
    body := none }

/-- A world whose storage holds the given entries. -/
def worldWithStorage (entries : List (String × String)) : World :=
  { localStorage := entries, requests := [], alerts := [], consoleErrors := [] }

/-- The planning state after a first, successful click on `Show Random
Suggestions`, the backend answering with one suggestion. -/
def stateWithSuggestions : PlanningState :=
  (PlanningView.fetchSuggestions
    (constBackend true "\x7b\"suggestions\":[\x7b\"name\":\"Lisbon\"\x7d]\x7d")
    sampleUser (.str "t0") (filtersState "" "" "") emptyWorld).2.1

/-- The credentials `handleSubmit` passes on: email and password in login
mode, the whole form otherwise. -/
def submitCredentials (mode : String) (formData : FormData) : JSVal :=
  if mode = "login" then .obj [("email", .str formData.email), ("password", .str formData.password)]
  else formData.toJS

/-- The login form filled in. -/
def sampleAuthView : AuthViewState :=
  { formData := { email := "ann@example.com", password := "secret1", username := "", city := "",
                  country := "" }
    error := .str ""
    loading := false }

/-- The session invariant: the view is one of the three the program sets, and
outside `auth` the user is an object. -/
def SessionOk (s : AppState) : Prop :=
  (s.currentView = "auth" ∨ s.currentView = "main" ∨ s.currentView = "trips") ∧
  (s.currentView ≠ "auth" → ∃ props, s.user = .obj props)

/-- A login response with the values the witnesses use. -/
def sampleLoginBody : String := "\x7b\"token\":\"t0\",\"user_id\":7,\"username\":\"ann\"\x7d"

/-- A login response whose `user_id` is not an integer. -/
def fractionalIdBody : String := "\x7b\"token\":\"t0\",\"user_id\":1.5,\"username\":\"ann\"\x7d"

/-- A login response whose token is the empty string. -/
def emptyTokenBody : String := "\x7b\"token\":\"\",\"user_id\":7,\"username\":\"ann\"\x7d"

/-- A create-trip response. -/
def sampleTripBody : String := "\x7b\"trip_id\":1\x7d"

/-- A visit of the page: log in, fill in the trip form and submit it, the
backend accepting both requests. -/
def sampleVisit : List PageAction :=
  [.app (.login (constBackend true sampleLoginBody) sampleCredentials),
   .planning (.editTripData sampleDraft),
   .planning (.submitTrip (constBackend true sampleTripBody))]

/-! ## Verified properties -/

open TravelPlannerApp

theorem lookup_filter_self (l : List (String × String)) (key : String) :
    (l.filter (fun kv => kv.1 != key)).lookup key = none := by
  induction l with
  | nil => rfl
  | cons kv rest ih =>
    obtain ⟨k, v⟩ := kv
    rw [List.filter_cons]
    by_cases h : k = key
    · have : ((k, v).1 != key) = false := by simp [h]
      rw [this]; simpa using ih
    · have h1 : ((k, v).1 != key) = true := by simp [h]
      have h2 : (key == k) = false := by simpa using (fun h3 : key = k => h h3.symm)
      rw [h1]; simp only [if_true, List.lookup_cons, h2]; exact ih

theorem lookup_filter_other (l : List (String × String)) (key k : String) (hk : k ≠ key) :
    (l.filter (fun kv => kv.1 != key)).lookup k = l.lookup k := by
  induction l with
  | nil => rfl
  | cons kv rest ih =>
    obtain ⟨k1, v⟩ := kv
    rw [List.filter_cons]
    by_cases h : k1 = key
    · have h1 : ((k1, v).1 != key) = false := by simp [h]
      have h2 : (k == k1) = false := by simpa [h] using hk
      rw [h1]; simp only [List.lookup_cons, h2]; simpa using ih
    · have h1 : ((k1, v).1 != key) = true := by simp [h]
      rw [h1]; simp only [if_true, List.lookup_cons, ih]

theorem handleLogout_eq (s : AppState) (w : World) :
    handleLogout s w =
      (.ok (), { s with user := .null, token := .null, currentView := "auth" },
       { w with localStorage :=
          (w.localStorage.filter (fun kv => kv.1 != "token")).filter (fun kv => kv.1 != "user") }) := by
  rfl

/-- C1: whatever the session state and the storage content, `handleLogout`
returns normally and leaves `user = null`, `token = null`, `currentView = 'auth'`,
a storage without the keys `token` and `user`, and every other key of the
storage with the value it had. -/
theorem handleLogout_clears_session (s : AppState) (w : World) :
    (handleLogout s w).1 = .ok () ∧
    (handleLogout s w).2.1.user = .null ∧
    (handleLogout s w).2.1.token = .null ∧
    (handleLogout s w).2.1.currentView = "auth" ∧
    (handleLogout s w).2.2.localStorage.lookup "token" = none ∧
    (handleLogout s w).2.2.localStorage.lookup "user" = none ∧
    ∀ key : String, key ≠ "token" → key ≠ "user" →
      (handleLogout s w).2.2.localStorage.lookup key = w.localStorage.lookup key := by
  rw [handleLogout_eq]
  refine ⟨rfl, rfl, rfl, rfl, ?_, ?_, ?_⟩
  · show ((w.localStorage.filter _).filter _).lookup "token" = none
    rw [lookup_filter_other _ _ _ (by decide), lookup_filter_self]
  · exact lookup_filter_self _ _
  · intro key h1 h2
    show ((w.localStorage.filter _).filter _).lookup key = _
    rw [lookup_filter_other _ _ _ h2, lookup_filter_other _ _ _ h1]

theorem handleLogout_clears_session_witness :
    (TravelPlannerApp.handleLogout TravelPlannerApp.initialState
        (worldWithStorage [("theme", "dark"), ("token", "t0"), ("user", "u0")])).2.2.localStorage.lookup
      "theme" = some "dark" :=
  (handleLogout_clears_session TravelPlannerApp.initialState
      (worldWithStorage [("theme", "dark"), ("token", "t0"), ("user", "u0")])).2.2.2.2.2.2
    "theme" (by decide) (by decide)

theorem api_post_eq {σ : Type} (backend : Backend) (endpoint : String) (data : JSVal)
    (s : σ) (w : World) :
    api.post backend endpoint data s w =
      ((match backend (postRequest endpoint data) with
        | .networkError message => .error (JSError.typeError message)
        | .response true body => JSON.parse body
        | .response false body =>
          match JSON.parse body with
          | .error e => .error e
          | .ok error =>
            match getProp error "detail" with
            | .error e => .error e
            | .ok detail =>
              match toJSString (jsOr detail (.str "API request failed")) with
              | .error e => .error e
              | .ok message => .error (JSError.mkError message)),
       s, { w with requests := w.requests ++ [postRequest endpoint data] }) := by
  unfold api.post
  simp only [Bind.bind, JS.seq, fetch, postRequest]
  cases hb : backend _ with
  | networkError m => rfl
  | response ok body =>
    cases ok with
    | true => rfl
    | false =>
      simp only [Response.json, JS.liftExcept, prop, Bool.not_false, if_true, JS.raise, JS.seq]
      cases hp : JSON.parse body with
      | error e => rfl
      | ok err =>
        simp only []
        cases hd : getProp err "detail" with
        | error e => rfl
        | ok d =>
          simp only []
          cases ht : toJSString (jsOr d (.str "API request failed")) with
          | error e => rfl
          | ok m => rfl

theorem lookup_storageSet_self (store : List (String × String)) (key value : String) :
    (storageSet store key value).lookup key = some value := by
  unfold storageSet
  split
  · rename_i h
    induction store with
    | nil => simp at h
    | cons kv rest ih =>
      obtain ⟨k, v⟩ := kv
      by_cases hk : key = k
      · subst hk; simp [List.lookup_cons]
      · have h2 : (key == k) = false := by simpa using hk
        have h3 : ¬ k = key := fun h4 => hk h4.symm
        simp only [List.lookup_cons, h2] at h
        simp only [List.map_cons, h3, if_false, List.lookup_cons, h2]
        exact ih h
  · rename_i h
    induction store with
    | nil => simp [List.lookup_cons]
    | cons kv rest ih =>
      obtain ⟨k, v⟩ := kv
      by_cases hk : key = k
      · subst hk; simp [List.lookup_cons] at h
      · have h2 : (key == k) = false := by simpa using hk
        simp only [List.lookup_cons, h2] at h
        simp only [List.cons_append, List.lookup_cons, h2]
        exact ih h

theorem lookup_storageSet_other (store : List (String × String)) (key value k : String)
    (hk : k ≠ key) : (storageSet store key value).lookup k = store.lookup k := by
  have hne : (k == key) = false := by simpa using hk
  unfold storageSet
  split
  · rename_i h
    clear h
    induction store with
    | nil => rfl
    | cons kv rest ih =>
      obtain ⟨k1, v⟩ := kv
      by_cases h1 : k1 = key
      · subst h1
        simp only [List.map_cons, if_true, List.lookup_cons, hne]
        exact ih
      · simp only [List.map_cons, h1, if_false, List.lookup_cons]
        cases (k == k1) with
        | true => rfl
        | false => exact ih
  · rename_i h
    clear h
    induction store with
    | nil => simp [List.lookup_cons, hne]
    | cons kv rest ih =>
      obtain ⟨k1, v⟩ := kv
      simp only [List.cons_append, List.lookup_cons]
      cases (k == k1) with
      | true => rfl
      | false => exact ih

theorem toJSString_str (t : String) : toJSString (.str t) = .ok t := by
  simp only [toJSString]

theorem handleLogin_success_eq (backend : Backend) (credentials : JSVal) (s : AppState) (w : World)
    (body text userText : String) (r tok uid uname : JSVal)
    (hb : backend (postRequest "/auth/login" credentials) = .response true body)
    (hp : JSON.parse body = .ok r)
    (htok : getProp r "token" = .ok tok) (htext : toJSString tok = .ok text)
    (huid : getProp r "user_id" = .ok uid) (huname : getProp r "username" = .ok uname)
    (huser : JSON.stringify (userRecord uid uname) = some userText) :
    TravelPlannerApp.handleLogin backend credentials s w =
      (.ok (.obj [("success", .bool true)]),
       { s with token := tok, user := userRecord uid uname, currentView := "main" },
       { w with
          requests := w.requests ++ [postRequest "/auth/login" credentials]
          localStorage := storageSet (storageSet w.localStorage "token" text) "user" userText }) := by
  have hsv : stringifyValue (userRecord uid uname) = .str userText := by
    simp only [stringifyValue, huser]
  unfold userRecord at hsv
  simp only [TravelPlannerApp.handleLogin, JS.tryCatch, Bind.bind, JS.seq, api_post_eq, hb, hp, prop,
    JS.liftExcept, htok, huid, huname, TravelPlannerApp.setToken, TravelPlannerApp.setUser,
    TravelPlannerApp.setCurrentView, JS.modifyState, localStorage.setItem, htext, JS.modifyWorld,
    hsv, toJSString_str, Pure.pure, JS.ret, userRecord]

theorem handleSignup_success_eq (backend : Backend) (credentials : JSVal) (s : AppState) (w : World)
    (body text userText : String) (r tok uid uname : JSVal)
    (hb : backend (postRequest "/auth/signup" credentials) = .response true body)
    (hp : JSON.parse body = .ok r)
    (htok : getProp r "token" = .ok tok) (htext : toJSString tok = .ok text)
    (huid : getProp r "user_id" = .ok uid) (huname : getProp r "username" = .ok uname)
    (huser : JSON.stringify (userRecord uid uname) = some userText) :
    TravelPlannerApp.handleSignup backend credentials s w =
      (.ok (.obj [("success", .bool true)]),
       { s with token := tok, user := userRecord uid uname, currentView := "main" },
       { w with
          requests := w.requests ++ [postRequest "/auth/signup" credentials]
          localStorage := storageSet (storageSet w.localStorage "token" text) "user" userText }) := by
  have hsv : stringifyValue (userRecord uid uname) = .str userText := by
    simp only [stringifyValue, huser]
  unfold userRecord at hsv
  simp only [TravelPlannerApp.handleSignup, JS.tryCatch, Bind.bind, JS.seq, api_post_eq, hb, hp, prop,
    JS.liftExcept, htok, huid, huname, TravelPlannerApp.setToken, TravelPlannerApp.setUser,
    TravelPlannerApp.setCurrentView, JS.modifyState, localStorage.setItem, htext, JS.modifyWorld,
    hsv, toJSString_str, Pure.pure, JS.ret, userRecord]

theorem stringify_userRecord (uid uname : JSVal) :
    ∃ userText, JSON.stringify (userRecord uid uname) = some userText := by
  simp only [JSON.stringify, userRecord, JSON.serialize, Option.some.injEq, exists_eq']

theorem authHandler_success_eq (signup : Bool) (backend : Backend) (credentials : JSVal)
    (s : AppState) (w : World) (body text userText : String) (r tok uid uname : JSVal)
    (hb : backend (postRequest (authEndpoint signup) credentials) = .response true body)
    (hp : JSON.parse body = .ok r)
    (htok : getProp r "token" = .ok tok) (htext : toJSString tok = .ok text)
    (huid : getProp r "user_id" = .ok uid) (huname : getProp r "username" = .ok uname)
    (huser : JSON.stringify (userRecord uid uname) = some userText) :
    authHandler signup backend credentials s w =
      (.ok (.obj [("success", .bool true)]),
       { s with token := tok, user := userRecord uid uname, currentView := "main" },
       { w with
          requests := w.requests ++ [postRequest (authEndpoint signup) credentials]
          localStorage := storageSet (storageSet w.localStorage "token" text) "user" userText }) := by
  cases signup with
  | true => exact handleSignup_success_eq backend credentials s w body text userText r tok uid uname
              hb hp htok htext huid huname huser
  | false => exact handleLogin_success_eq backend credentials s w body text userText r tok uid uname
              hb hp htok htext huid huname huser

/-- C2 (amended): for `handleLogin` (endpoint `/auth/login`) and `handleSignup`
(endpoint `/auth/signup`) alike, when the backend answers the request with a
success status and a JSON body `r` whose `token` can be read (so `r` is not
`null`) and converts to the string `text`, the handler returns
`{success: true}` and leaves `token = r.token`,
`user = {user_id: r.user_id, username: r.username}`, `currentView = 'main'`,
`localStorage['token'] = text` (the token itself when it is a string) and
`localStorage['user']` = the JSON encoding of the user record; the one request
sent goes to the handler's endpoint, and nothing else distinguishes the two
handlers. -/
theorem auth_success_session (signup : Bool) (backend : Backend) (credentials : JSVal)
    (s : AppState) (w : World) (body text : String) (r tok uid uname : JSVal)
    (hb : backend (postRequest (authEndpoint signup) credentials) = .response true body)
    (hp : JSON.parse body = .ok r)
    (htok : getProp r "token" = .ok tok) (htext : toJSString tok = .ok text)
    (huid : getProp r "user_id" = .ok uid) (huname : getProp r "username" = .ok uname) :
    (authHandler signup backend credentials s w).1 = .ok (.obj [("success", .bool true)]) ∧
    (authHandler signup backend credentials s w).2.1.token = tok ∧
    (authHandler signup backend credentials s w).2.1.user = userRecord uid uname ∧
    (authHandler signup backend credentials s w).2.1.currentView = "main" ∧
    (authHandler signup backend credentials s w).2.2.localStorage.lookup "token" = some text ∧
    (∀ t : String, tok = .str t →
      (authHandler signup backend credentials s w).2.2.localStorage.lookup "token" = some t) ∧
    (authHandler signup backend credentials s w).2.2.localStorage.lookup "user" =
      JSON.stringify (userRecord uid uname) ∧
    (authHandler signup backend credentials s w).2.2.requests =
      w.requests ++ [postRequest (authEndpoint signup) credentials] := by
  obtain ⟨userText, huser⟩ := stringify_userRecord uid uname
  rw [authHandler_success_eq signup backend credentials s w body text userText r tok uid uname
    hb hp htok htext huid huname huser]
  have hlook : (storageSet (storageSet w.localStorage "token" text) "user" userText).lookup "token"
      = some text := by
    rw [lookup_storageSet_other _ _ _ _ (by decide), lookup_storageSet_self]
  refine ⟨rfl, rfl, rfl, rfl, hlook, ?_, ?_, rfl⟩
  · intro t ht
    subst ht
    rw [toJSString_str] at htext
    cases htext
    exact hlook
  · rw [huser]
    exact lookup_storageSet_self _ _ _

theorem auth_success_session_witness :
    JSON.parse "\x7b\"token\":\"t0\",\"user_id\":7,\"username\":\"ann\"\x7d" =
      .ok (.obj [("token", .str "t0"), ("user_id", .num (.fin false 7)), ("username", .str "ann")]) ∧
    (authHandler false (constBackend true "\x7b\"token\":\"t0\",\"user_id\":7,\"username\":\"ann\"\x7d")
        sampleCredentials TravelPlannerApp.initialState emptyWorld).1 =
      .ok (.obj [("success", .bool true)]) ∧
    (authHandler false (constBackend true "\x7b\"token\":\"t0\",\"user_id\":7,\"username\":\"ann\"\x7d")
        sampleCredentials TravelPlannerApp.initialState emptyWorld).2.1.currentView = "main" ∧
    (authHandler false (constBackend true "\x7b\"token\":\"t0\",\"user_id\":7,\"username\":\"ann\"\x7d")
        sampleCredentials TravelPlannerApp.initialState emptyWorld).2.2.localStorage.lookup "token" =
      some "t0" :=
  ⟨rfl,
   (auth_success_session false
      (constBackend true "\x7b\"token\":\"t0\",\"user_id\":7,\"username\":\"ann\"\x7d")
      sampleCredentials TravelPlannerApp.initialState emptyWorld
      "\x7b\"token\":\"t0\",\"user_id\":7,\"username\":\"ann\"\x7d" "t0"
      (.obj [("token", .str "t0"), ("user_id", .num (.fin false 7)), ("username", .str "ann")])
      (.str "t0") (.num (.fin false 7)) (.str "ann") rfl rfl rfl rfl rfl rfl).1,
   (auth_success_session false
      (constBackend true "\x7b\"token\":\"t0\",\"user_id\":7,\"username\":\"ann\"\x7d")
      sampleCredentials TravelPlannerApp.initialState emptyWorld
      "\x7b\"token\":\"t0\",\"user_id\":7,\"username\":\"ann\"\x7d" "t0"
      (.obj [("token", .str "t0"), ("user_id", .num (.fin false 7)), ("username", .str "ann")])
      (.str "t0") (.num (.fin false 7)) (.str "ann") rfl rfl rfl rfl rfl rfl).2.2.2.1,
   (auth_success_session false
      (constBackend true "\x7b\"token\":\"t0\",\"user_id\":7,\"username\":\"ann\"\x7d")
      sampleCredentials TravelPlannerApp.initialState emptyWorld
      "\x7b\"token\":\"t0\",\"user_id\":7,\"username\":\"ann\"\x7d" "t0"
      (.obj [("token", .str "t0"), ("user_id", .num (.fin false 7)), ("username", .str "ann")])
      (.str "t0") (.num (.fin false 7)) (.str "ann") rfl rfl rfl rfl rfl rfl).2.2.2.2.1⟩

/-- C2, counterexample: a success status with the JSON body `null`. Reading
`result.token` raises, the handler returns `{success: false, error: ...}` and
the session stays on `auth` with nothing stored. -/
theorem handleLogin_null_body :
    JSON.parse "null" = .ok .null ∧
    (∃ m : String,
      (TravelPlannerApp.handleLogin (constBackend true "null") sampleCredentials
          TravelPlannerApp.initialState emptyWorld).1 =
        .ok (.obj [("success", .bool false), ("error", .str m)])) ∧
    (TravelPlannerApp.handleLogin (constBackend true "null") sampleCredentials
        TravelPlannerApp.initialState emptyWorld).1 ≠ .ok (.obj [("success", .bool true)]) ∧
    (TravelPlannerApp.handleLogin (constBackend true "null") sampleCredentials
        TravelPlannerApp.initialState emptyWorld).2.1.currentView = "auth" ∧
    (TravelPlannerApp.handleLogin (constBackend true "null") sampleCredentials
        TravelPlannerApp.initialState emptyWorld).2.1.token = .null ∧
    (TravelPlannerApp.handleLogin (constBackend true "null") sampleCredentials
        TravelPlannerApp.initialState emptyWorld).2.1.user = .null ∧
    (TravelPlannerApp.handleLogin (constBackend true "null") sampleCredentials
        TravelPlannerApp.initialState emptyWorld).2.2.localStorage = [] := by
  refine ⟨rfl, ⟨_, rfl⟩, ?_, rfl, rfl, rfl, rfl⟩
  intro h
  have h2 : (TravelPlannerApp.handleLogin (constBackend true "null") sampleCredentials
        TravelPlannerApp.initialState emptyWorld).1 =
      .ok (.obj [("success", .bool false),
                 ("error", .str "Cannot read properties of null (reading 'token')")]) := rfl
  rw [h2] at h
  simp at h

theorem jsOr_str_null (t : String) :
    jsOr (.str t) .null = if t = "" then .null else .str t := by
  unfold jsOr truthy
  by_cases h : t = "" <;> simp [h]

theorem createTripData_empty (uid : JSVal) (td : TripData)
    (hcity : td.destinationCity = "") (hcountry : td.destinationCountry = "") :
    PlanningView.createTripData uid td =
      .obj [("user_id", uid), ("max_budget", .num (parseFloat td.maxBudget)),
            ("start_date", .str td.startDate), ("end_date", .str td.endDate),
            ("destination_city", .null), ("destination_country", .null)] := by
  simp only [PlanningView.createTripData, hcity, hcountry, jsOr_str_null, if_true]

theorem handleCreateTrip_eq (backend : Backend) (user uid : JSVal) (s : PlanningState) (w : World)
    (huid : getProp user "user_id" = .ok uid) :
    PlanningView.handleCreateTrip backend user s w =
      (match (api.post backend "/planning/create-trip"
                (PlanningView.createTripData uid s.tripData) s w).1 with
       | .error e =>
         (.ok (), { s with loading := false },
          { w with
            requests := w.requests ++
              [postRequest "/planning/create-trip" (PlanningView.createTripData uid s.tripData)]
            alerts := w.alerts ++ ["Error creating trip: " ++ e.message] })
       | .ok result =>
         match getProp result "trip_id" with
         | .error e =>
           (.ok (), { s with loading := false },
            { w with
              requests := w.requests ++
                [postRequest "/planning/create-trip" (PlanningView.createTripData uid s.tripData)]
              alerts := w.alerts ++ ["Error creating trip: " ++ e.message] })
         | .ok tripId =>
           (.ok (), { s with currentTrip := tripId, step := "suggestions", loading := false },
            { w with
              requests := w.requests ++
                [postRequest "/planning/create-trip" (PlanningView.createTripData uid s.tripData)] })) := by
  simp only [PlanningView.handleCreateTrip, Bind.bind, JS.seq, JS.getState, PlanningView.setLoading,
    JS.modifyState, JS.tryFinally, JS.tryCatch, prop, JS.liftExcept, huid, api_post_eq, alert,
    JS.modifyWorld, PlanningView.setCurrentTrip, PlanningView.setStep]
  generalize (match backend (postRequest "/planning/create-trip"
      (PlanningView.createTripData uid s.tripData)) with
    | .networkError message => (Except.error (JSError.typeError message) : Except JSError JSVal)
    | .response true body => JSON.parse body
    | .response false body =>
      match JSON.parse body with
      | .error e => .error e
      | .ok error =>
        match getProp error "detail" with
        | .error e => .error e
        | .ok detail =>
          match toJSString (jsOr detail (.str "API request failed")) with
          | .error e => .error e
          | .ok message => .error (JSError.mkError message)) = res
  cases res with
  | error e => rfl
  | ok result =>
    simp only []
    cases getProp result "trip_id" with
    | error e => rfl
    | ok tripId => rfl

theorem api_post_fst_ok {σ : Type} (backend : Backend) (endpoint : String) (data : JSVal)
    (s : σ) (w : World) (body : String)
    (hb : backend (postRequest endpoint data) = .response true body) :
    (api.post backend endpoint data s w).1 = JSON.parse body := by
  rw [api_post_eq, hb]

theorem handleCreateTrip_requests (backend : Backend) (user uid : JSVal) (s : PlanningState)
    (w : World) (huid : getProp user "user_id" = .ok uid) :
    (PlanningView.handleCreateTrip backend user s w).2.2.requests =
      w.requests ++ [postRequest "/planning/create-trip" (PlanningView.createTripData uid s.tripData)] := by
  rw [handleCreateTrip_eq backend user uid s w huid]
  cases (api.post backend "/planning/create-trip"
                (PlanningView.createTripData uid s.tripData) s w).1 with
  | error e => rfl
  | ok result =>
    simp only []
    cases getProp result "trip_id" with
    | error e => rfl
    | ok tripId => rfl

/-- C3 (amended): for every trip draft whose `destinationCity` and
`destinationCountry` are empty and every user whose `user_id` can be read,
`handleCreateTrip` sends, whatever the backend answers, one request to
`/planning/create-trip` whose body is the JSON encoding of an object with the
keys `destination_city` and `destination_country` present and `null`,
`max_budget` the number `parseFloat` reads from the budget text (1500 for
"1500") and `start_date`, `end_date` the draft's strings; and when the answer
has a success status and a JSON body `r` whose `trip_id` can be read (so `r` is
not `null`), the handler returns normally with `step = 'suggestions'`,
`currentTrip = r.trip_id`, `loading = false` and no alert. -/
theorem handleCreateTrip_request_and_advance (backend : Backend) (user uid : JSVal)
    (s : PlanningState) (w : World) (body : String) (r tripId : JSVal)
    (huid : getProp user "user_id" = .ok uid)
    (hcity : s.tripData.destinationCity = "") (hcountry : s.tripData.destinationCountry = "")
    (hb : backend (postRequest "/planning/create-trip"
            (PlanningView.createTripData uid s.tripData)) = .response true body)
    (hp : JSON.parse body = .ok r)
    (htrip : getProp r "trip_id" = .ok tripId) :
    (∀ anyBackend : Backend,
      (PlanningView.handleCreateTrip anyBackend user s w).2.2.requests =
        w.requests ++
          [postRequest "/planning/create-trip"
            (.obj [("user_id", uid), ("max_budget", .num (parseFloat s.tripData.maxBudget)),
                   ("start_date", .str s.tripData.startDate), ("end_date", .str s.tripData.endDate),
                   ("destination_city", .null), ("destination_country", .null)])]) ∧
    parseFloat "1500" = JSNum.ofNat 1500 ∧
    JSON.stringify (PlanningView.createTripData (.num (JSNum.ofNat 7)) sampleDraft) =
      some ("\x7b\"user_id\":7,\"max_budget\":1500,\"start_date\":\"2025-06-01\"," ++
            "\"end_date\":\"2025-06-10\",\"destination_city\":null,\"destination_country\":null\x7d") ∧
    (PlanningView.handleCreateTrip backend user s w).1 = .ok () ∧
    (PlanningView.handleCreateTrip backend user s w).2.1.step = "suggestions" ∧
    (PlanningView.handleCreateTrip backend user s w).2.1.currentTrip = tripId ∧
    (PlanningView.handleCreateTrip backend user s w).2.1.loading = false ∧
    (PlanningView.handleCreateTrip backend user s w).2.2.alerts = w.alerts := by
  refine ⟨?_, by decide, by rfl, ?_⟩
  · intro anyBackend
    rw [handleCreateTrip_requests anyBackend user uid s w huid,
      createTripData_empty uid s.tripData hcity hcountry]
  · rw [handleCreateTrip_eq backend user uid s w huid, api_post_fst_ok _ _ _ _ _ body hb, hp]
    simp only [htrip, and_self]

theorem handleCreateTrip_request_and_advance_witness :
    getProp sampleUser "user_id" = .ok (.num (JSNum.ofNat 7)) ∧
    sampleDraftState.tripData.destinationCity = "" ∧
    sampleDraftState.tripData.destinationCountry = "" ∧
    JSON.parse "\x7b\"trip_id\":12\x7d" = .ok (.obj [("trip_id", .num (JSNum.ofNat 12))]) ∧
    (PlanningView.handleCreateTrip (constBackend true "\x7b\"trip_id\":12\x7d") sampleUser
        sampleDraftState emptyWorld).2.1.step = "suggestions" ∧
    (PlanningView.handleCreateTrip (constBackend true "\x7b\"trip_id\":12\x7d") sampleUser
        sampleDraftState emptyWorld).2.1.currentTrip = .num (JSNum.ofNat 12) :=
  ⟨rfl, rfl, rfl, rfl,
   (handleCreateTrip_request_and_advance (constBackend true "\x7b\"trip_id\":12\x7d") sampleUser
      (.num (JSNum.ofNat 7)) sampleDraftState emptyWorld "\x7b\"trip_id\":12\x7d"
      (.obj [("trip_id", .num (JSNum.ofNat 12))]) (.num (JSNum.ofNat 12))
      rfl rfl rfl rfl rfl rfl).2.2.2.2.1,
   (handleCreateTrip_request_and_advance (constBackend true "\x7b\"trip_id\":12\x7d") sampleUser
      (.num (JSNum.ofNat 7)) sampleDraftState emptyWorld "\x7b\"trip_id\":12\x7d"
      (.obj [("trip_id", .num (JSNum.ofNat 12))]) (.num (JSNum.ofNat 12))
      rfl rfl rfl rfl rfl rfl).2.2.2.2.2.1⟩

/-- C3, counterexample: the example draft and a success status with the JSON
body `null`. Reading `result.trip_id` raises, an alert is shown and `step`
stays `trip-details`. -/
theorem handleCreateTrip_null_body :
    JSON.parse "null" = .ok .null ∧
    (PlanningView.handleCreateTrip (constBackend true "null") sampleUser
        sampleDraftState emptyWorld).2.1.step = "trip-details" ∧
    (PlanningView.handleCreateTrip (constBackend true "null") sampleUser
        sampleDraftState emptyWorld).2.1.step ≠ "suggestions" ∧
    (PlanningView.handleCreateTrip (constBackend true "null") sampleUser
        sampleDraftState emptyWorld).2.1.currentTrip = .null ∧
    (∃ m : String,
      (PlanningView.handleCreateTrip (constBackend true "null") sampleUser
          sampleDraftState emptyWorld).2.2.alerts = ["Error creating trip: " ++ m]) := by
  refine ⟨rfl, rfl, ?_, rfl, ⟨_, rfl⟩⟩
  have h : (PlanningView.handleCreateTrip (constBackend true "null") sampleUser
        sampleDraftState emptyWorld).2.1.step = "trip-details" := rfl
  rw [h]
  decide

theorem applyFilters_eq (backend : Backend) (user uid : JSVal) (s : PlanningState) (w : World)
    (huid : getProp user "user_id" = .ok uid) :
    PlanningView.applyFilters backend user s w =
      (match (api.post backend "/planning/filter"
                (PlanningView.filterData uid s.filters) s w).1 with
       | .error e =>
         (.ok (), { s with loading := false },
          { w with
            requests := w.requests ++
              [postRequest "/planning/filter" (PlanningView.filterData uid s.filters)]
            alerts := w.alerts ++ ["Error applying filters: " ++ e.message] })
       | .ok result =>
         match getProp result "destinations" with
         | .error e =>
           (.ok (), { s with loading := false },
            { w with
              requests := w.requests ++
                [postRequest "/planning/filter" (PlanningView.filterData uid s.filters)]
              alerts := w.alerts ++ ["Error applying filters: " ++ e.message] })
         | .ok destinations =>
           (.ok (),
            { s with filteredDestinations := jsOr destinations (.arr []), step := "filtered",
                     loading := false },
            { w with
              requests := w.requests ++
                [postRequest "/planning/filter" (PlanningView.filterData uid s.filters)] })) := by
  simp only [PlanningView.applyFilters, Bind.bind, JS.seq, JS.getState, PlanningView.setLoading,
    JS.modifyState, JS.tryFinally, JS.tryCatch, prop, JS.liftExcept, huid, api_post_eq, alert,
    JS.modifyWorld, PlanningView.setFilteredDestinations, PlanningView.setStep]
  generalize (match backend (postRequest "/planning/filter"
      (PlanningView.filterData uid s.filters)) with
    | .networkError message => (Except.error (JSError.typeError message) : Except JSError JSVal)
    | .response true body => JSON.parse body
    | .response false body =>
      match JSON.parse body with
      | .error e => .error e
      | .ok error =>
        match getProp error "detail" with
        | .error e => .error e
        | .ok detail =>
          match toJSString (jsOr detail (.str "API request failed")) with
          | .error e => .error e
          | .ok message => .error (JSError.mkError message)) = res
  cases res with
  | error e => rfl
  | ok result =>
    simp only []
    cases getProp result "destinations" with
    | error e => rfl
    | ok destinations => rfl

theorem applyFilters_requests (backend : Backend) (user uid : JSVal) (s : PlanningState)
    (w : World) (huid : getProp user "user_id" = .ok uid) :
    (PlanningView.applyFilters backend user s w).2.2.requests =
      w.requests ++ [postRequest "/planning/filter" (PlanningView.filterData uid s.filters)] := by
  rw [applyFilters_eq backend user uid s w huid]
  cases (api.post backend "/planning/filter" (PlanningView.filterData uid s.filters) s w).1 with
  | error e => rfl
  | ok result =>
    simp only []
    cases getProp result "destinations" with
    | error e => rfl
    | ok destinations => rfl

theorem truthy_str (t : String) : truthy (.str t) = decide (t ≠ "") := by
  simp only [truthy]

theorem filterData_eq (uid : JSVal) (f : Filters) :
    PlanningView.filterData uid f =
      .obj [("user_id", uid),
            ("budget", if f.budget = "" then .null else .num (parseFloat f.budget)),
            ("destination", if f.destination = "" then .null else .str f.destination),
            ("category", if f.category = "" then .null else .str f.category)] := by
  simp only [PlanningView.filterData, jsOr_str_null, truthy_str]
  by_cases h : f.budget = "" <;> simp [h]

theorem serialize_budget (budget : String) :
    JSON.serialize (if budget = "" then .null else .num (parseFloat budget)) =
      some (budgetWireText budget) := by
  unfold budgetWireText
  by_cases h : budget = ""
  · simp only [h, if_true, JSON.serialize]
  · simp only [h, if_false]
    cases parseFloat budget with
    | nan => simp only [JSON.serialize]
    | inf neg => simp only [JSON.serialize]
    | fin neg q => simp only [JSON.serialize]

theorem serialize_optional (text : String) :
    JSON.serialize (if text = "" then .null else .str text) = some (optionalWireText text) := by
  unfold optionalWireText
  by_cases h : text = ""
  · simp only [h, if_true, JSON.serialize]
  · simp only [h, if_false, JSON.serialize]

theorem stringify_filterData (uid : JSVal) (f : Filters) :
    JSON.stringify (PlanningView.filterData uid f) =
      some ("\x7b" ++ commaJoin (JSON.serializeProps [("user_id", uid)] ++
              ["\"budget\":" ++ budgetWireText f.budget,
               "\"destination\":" ++ optionalWireText f.destination,
               "\"category\":" ++ optionalWireText f.category]) ++ "\x7d") := by
  rw [filterData_eq]
  simp only [JSON.stringify, JSON.serialize, JSON.serializeProps, serialize_budget,
    serialize_optional]
  cases JSON.serialize uid with
  | none => rfl
  | some t => rfl

/-- C4: for every filters state and every user whose `user_id` can be read,
`applyFilters` sends, whatever the backend answers, one request to
`/planning/filter` whose body is the JSON encoding of an object that always has
the keys `budget`, `destination` and `category`. `budget` is `null` when the
budget text is empty and the number `parseFloat` reads from it otherwise (500
for "500"); in the JSON text sent a budget that does not parse to a finite
number ("abc") is `null`. `destination` and `category` are `null` when their
text is empty and the text itself otherwise. -/
theorem applyFilters_request_body (user uid : JSVal) (s : PlanningState) (w : World)
    (huid : getProp user "user_id" = .ok uid) :
    (∀ backend : Backend,
      (PlanningView.applyFilters backend user s w).2.2.requests =
        w.requests ++ [postRequest "/planning/filter" (PlanningView.filterData uid s.filters)]) ∧
    PlanningView.filterData uid s.filters =
      .obj [("user_id", uid),
            ("budget", if s.filters.budget = "" then .null
                       else .num (parseFloat s.filters.budget)),
            ("destination", if s.filters.destination = "" then .null
                            else .str s.filters.destination),
            ("category", if s.filters.category = "" then .null else .str s.filters.category)] ∧
    (postRequest "/planning/filter" (PlanningView.filterData uid s.filters)).body =
      some ("\x7b" ++ commaJoin (JSON.serializeProps [("user_id", uid)] ++
              ["\"budget\":" ++ budgetWireText s.filters.budget,
               "\"destination\":" ++ optionalWireText s.filters.destination,
               "\"category\":" ++ optionalWireText s.filters.category]) ++ "\x7d") ∧
    parseFloat "500" = JSNum.ofNat 500 ∧
    budgetWireText "" = "null" ∧ budgetWireText "500" = "500" ∧ budgetWireText "abc" = "null" ∧
    (postRequest "/planning/filter"
        (PlanningView.filterData (.num (JSNum.ofNat 7))
          { budget := "500", destination := "", category := "Beach" })).body =
      some "\x7b\"user_id\":7,\"budget\":500,\"destination\":null,\"category\":\"Beach\"\x7d" ∧
    (postRequest "/planning/filter"
        (PlanningView.filterData (.num (JSNum.ofNat 7))
          { budget := "", destination := "", category := "" })).body =
      some "\x7b\"user_id\":7,\"budget\":null,\"destination\":null,\"category\":null\x7d" := by
  refine ⟨?_, filterData_eq uid s.filters, ?_, by decide, by decide, by decide, by decide,
    by rfl, by rfl⟩
  · intro backend
    exact applyFilters_requests backend user uid s w huid
  · exact stringify_filterData uid s.filters

theorem applyFilters_request_body_witness :
    getProp sampleUser "user_id" = .ok (.num (JSNum.ofNat 7)) ∧
    (PlanningView.applyFilters (constBackend true "\x7b\"destinations\":[]\x7d") sampleUser
        (filtersState "500" "" "Beach") emptyWorld).2.2.requests =
      [postRequest "/planning/filter"
        (PlanningView.filterData (.num (JSNum.ofNat 7))
          { budget := "500", destination := "", category := "Beach" })] :=
  ⟨rfl, (applyFilters_request_body sampleUser (.num (JSNum.ofNat 7))
          (filtersState "500" "" "Beach") emptyWorld rfl).1
          (constBackend true "\x7b\"destinations\":[]\x7d")⟩

theorem truthy_jsOr_left (d fallback : JSVal) (h : truthy d = true) : jsOr d fallback = d := by
  simp only [jsOr, h, if_true]

theorem truthy_jsOr_right (d fallback : JSVal) (h : truthy d = false) : jsOr d fallback = fallback := by
  simp [jsOr, h]

/-- C5 (amended): `api.post` sends one request and leaves the React state
alone. On a success status it returns what `response.json()` gives: the parsed
JSON body (and it raises the SyntaxError of the parse when the body is not
JSON). On any other status it never returns a value; when the error body is
JSON whose `detail` can be read (a value other than `null`), it raises an Error
whose message is `detail` converted to a string (the detail itself when it is a
string) if `detail` is truthy, and `'API request failed'` if `detail` is absent
or falsy. -/
theorem api_post_outcome {σ : Type} (backend : Backend) (endpoint : String) (data : JSVal)
    (s : σ) (w : World) (ok : Bool) (body : String)
    (hb : backend (postRequest endpoint data) = .response ok body) :
    (ok = true → (api.post backend endpoint data s w).1 = JSON.parse body) ∧
    (ok = false → ∀ v : JSVal, (api.post backend endpoint data s w).1 ≠ .ok v) ∧
    (ok = false → ∀ (errorBody detail : JSVal) (message : String),
      JSON.parse body = .ok errorBody → getProp errorBody "detail" = .ok detail →
      truthy detail = true → toJSString detail = .ok message →
      (api.post backend endpoint data s w).1 = .error (JSError.mkError message)) ∧
    (ok = false → ∀ (errorBody detail : JSVal),
      JSON.parse body = .ok errorBody → getProp errorBody "detail" = .ok detail →
      truthy detail = false →
      (api.post backend endpoint data s w).1 = .error (JSError.mkError "API request failed")) ∧
    (api.post backend endpoint data s w).2 =
      (s, { w with requests := w.requests ++ [postRequest endpoint data] }) := by
  rw [api_post_eq, hb]
  refine ⟨?_, ?_, ?_, ?_, rfl⟩
  · intro h; subst h; rfl
  · intro h v; subst h
    simp only []
    cases JSON.parse body with
    | error e => simp
    | ok errorBody =>
      simp only []
      cases getProp errorBody "detail" with
      | error e => simp
      | ok detail =>
        simp only []
        cases toJSString (jsOr detail (.str "API request failed")) with
        | error e => simp
        | ok m => simp
  · intro h errorBody detail message hp hd ht hm; subst h
    simp only [hp, hd, truthy_jsOr_left _ _ ht, hm]
  · intro h errorBody detail hp hd ht; subst h
    simp only [hp, hd, truthy_jsOr_right _ _ ht, toJSString_str]

theorem api_post_outcome_witness :
    JSON.parse "\x7b\"detail\":\"Invalid credentials\"\x7d" =
      .ok (.obj [("detail", .str "Invalid credentials")]) ∧
    (api.post (constBackend false "\x7b\"detail\":\"Invalid credentials\"\x7d") "/auth/login"
        sampleCredentials TravelPlannerApp.initialState emptyWorld).1 =
      .error (JSError.mkError "Invalid credentials") :=
  ⟨rfl,
   (api_post_outcome (constBackend false "\x7b\"detail\":\"Invalid credentials\"\x7d") "/auth/login"
      sampleCredentials TravelPlannerApp.initialState emptyWorld false
      "\x7b\"detail\":\"Invalid credentials\"\x7d" rfl).2.2.1 rfl
      (.obj [("detail", .str "Invalid credentials")]) (.str "Invalid credentials")
      "Invalid credentials" rfl rfl rfl rfl⟩

/-- C5, counterexample: a non-success status whose body is the plain text
`Internal Server Error`. The body has no `detail`, yet the error raised is the
SyntaxError of `response.json()`, not an Error with the message
`'API request failed'`. -/
theorem api_post_plain_text_error :
    (∃ m : String, JSON.parse "Internal Server Error" = .error (JSError.syntaxError m)) ∧
    (∃ m : String,
      (api.post (constBackend false "Internal Server Error") "/auth/login"
          sampleCredentials TravelPlannerApp.initialState emptyWorld).1 =
        .error (JSError.syntaxError m)) ∧
    (api.post (constBackend false "Internal Server Error") "/auth/login"
        sampleCredentials TravelPlannerApp.initialState emptyWorld).1 ≠
      .error (JSError.mkError "API request failed") := by
  refine ⟨⟨_, rfl⟩, ⟨_, rfl⟩, ?_⟩
  have h : (api.post (constBackend false "Internal Server Error") "/auth/login"
        sampleCredentials TravelPlannerApp.initialState emptyWorld).1 =
      .error (JSError.syntaxError "Unexpected token in JSON") := rfl
  rw [h]
  simp [JSError.syntaxError, JSError.mkError]

theorem api_get_eq {σ : Type} (backend : Backend) (endpoint : String) (token : JSVal)
    (text : String) (s : σ) (w : World) (htext : toJSString token = .ok text) :
    api.get backend endpoint token s w =
      ((match backend (getRequest endpoint token text) with
        | .networkError message => .error (JSError.typeError message)
        | .response true body => JSON.parse body
        | .response false _ => .error (JSError.mkError "API request failed")),
       s, { w with requests := w.requests ++ [getRequest endpoint token text] }) := by
  unfold api.get getRequest
  by_cases ht : truthy token = true
  · simp only [ht, if_true, Bind.bind, JS.seq, JS.liftExcept, htext, Pure.pure, JS.ret, fetch]
    cases backend _ with
    | networkError m => rfl
    | response ok body => cases ok <;> rfl
  · have hf : truthy token = false := by simpa using ht
    simp only [hf, Bool.false_eq_true, if_false, Bind.bind, JS.seq, Pure.pure, JS.ret, fetch]
    cases backend _ with
    | networkError m => rfl
    | response ok body => cases ok <;> rfl

/-- C6: for every endpoint and token argument (with `text` its conversion to a
string: the token itself when it is a string), `api.get` sends one GET request
whose `Authorization` header is `'Bearer ' ++ text` exactly when a token is
supplied, that is when the argument passes the test `if (token)`, and which has
no `Authorization` header otherwise. On a non-success status it raises an Error
with the fixed message `'API request failed'` whatever the body; on a success
status it returns what `response.json()` gives, the parsed JSON body. -/
theorem api_get_outcome {σ : Type} (backend : Backend) (endpoint : String) (token : JSVal)
    (text : String) (s : σ) (w : World) (ok : Bool) (body : String)
    (htext : toJSString token = .ok text)
    (hb : backend (getRequest endpoint token text) = .response ok body) :
    (api.get backend endpoint token s w).2 =
      (s, { w with requests := w.requests ++ [getRequest endpoint token text] }) ∧
    (∀ t : String, token = .str t → text = t) ∧
    (truthy token = true →
      (getRequest endpoint token text).headers.lookup "Authorization" = some ("Bearer " ++ text)) ∧
    (truthy token = false →
      (getRequest endpoint token text).headers.lookup "Authorization" = none) ∧
    (ok = false → (api.get backend endpoint token s w).1 = .error (JSError.mkError "API request failed")) ∧
    (ok = true → (api.get backend endpoint token s w).1 = JSON.parse body) := by
  rw [api_get_eq backend endpoint token text s w htext, hb]
  refine ⟨rfl, ?_, ?_, ?_, ?_, ?_⟩
  · intro t ht
    subst ht
    rw [toJSString_str] at htext
    cases htext
    rfl
  · intro ht
    simp only [getRequest, ht, if_true]
    rfl
  · intro ht
    simp only [getRequest, ht]
    rfl
  · intro h; subst h; rfl
  · intro h; subst h; rfl

theorem api_get_outcome_witness :
    toJSString (.str "t0") = .ok "t0" ∧
    (getRequest "/trips/7" (.str "t0") "t0").headers.lookup "Authorization" = some "Bearer t0" ∧
    (api.get (constBackend false "oops") "/trips/7" (.str "t0")
        TravelPlannerApp.initialState emptyWorld).1 = .error (JSError.mkError "API request failed") :=
  ⟨rfl,
   (api_get_outcome (constBackend false "oops") "/trips/7" (.str "t0") "t0"
      TravelPlannerApp.initialState emptyWorld false "oops" rfl rfl).2.2.1 rfl,
   (api_get_outcome (constBackend false "oops") "/trips/7" (.str "t0") "t0"
      TravelPlannerApp.initialState emptyWorld false "oops" rfl rfl).2.2.2.2.1 rfl⟩

theorem startupEffect_world (s : AppState) (w : World) :
    (TravelPlannerApp.startupEffect s w).2.2 = w := by
  cases ht : w.localStorage.lookup "token" with
  | none =>
    simp only [TravelPlannerApp.startupEffect, Bind.bind, JS.seq, localStorage.getItem, ht]
    cases hu : w.localStorage.lookup "user" <;>
      simp only [truthy, Bool.false_and, Bool.false_eq_true, if_false, Pure.pure, JS.ret]
  | some t =>
    cases hu : w.localStorage.lookup "user" with
    | none =>
      simp only [TravelPlannerApp.startupEffect, Bind.bind, JS.seq, localStorage.getItem, ht, hu,
        truthy, Bool.and_false, Bool.false_eq_true, if_false, Pure.pure, JS.ret]
    | some u =>
      simp only [TravelPlannerApp.startupEffect, Bind.bind, JS.seq, localStorage.getItem, ht, hu]
      by_cases h : (truthy (.str t) && truthy (.str u)) = true
      · simp only [h, if_true, TravelPlannerApp.setToken, JS.modifyState, parseValueOf, Bind.bind,
          JS.seq, JS.liftExcept, toJSString_str, TravelPlannerApp.setUser,
          TravelPlannerApp.setCurrentView]
        cases JSON.parse u with
        | error e => rfl
        | ok v => rfl
      · simp only [h, Bool.false_eq_true, if_false, Pure.pure, JS.ret]

theorem startupEffect_restore_eq (s : AppState) (w : World) (t u : String) (v : JSVal)
    (ht : w.localStorage.lookup "token" = some t) (hu : w.localStorage.lookup "user" = some u)
    (htne : t ≠ "") (hune : u ≠ "") (hp : JSON.parse u = .ok v) :
    TravelPlannerApp.startupEffect s w =
      (.ok (), { s with token := .str t, user := v, currentView := "main" }, w) := by
  have h : (truthy (.str t) && truthy (.str u)) = true := by
    simp [truthy_str, htne, hune]
  simp only [TravelPlannerApp.startupEffect, Bind.bind, JS.seq, localStorage.getItem, ht, hu,
    h, if_true, TravelPlannerApp.setToken, JS.modifyState, parseValueOf, JS.liftExcept,
    toJSString_str, hp, TravelPlannerApp.setUser, TravelPlannerApp.setCurrentView]

theorem startupEffect_raise_eq (s : AppState) (w : World) (t u : String) (e : JSError)
    (ht : w.localStorage.lookup "token" = some t) (hu : w.localStorage.lookup "user" = some u)
    (htne : t ≠ "") (hune : u ≠ "") (hp : JSON.parse u = .error e) :
    TravelPlannerApp.startupEffect s w = (.error e, { s with token := .str t }, w) := by
  have h : (truthy (.str t) && truthy (.str u)) = true := by
    simp [truthy_str, htne, hune]
  simp only [TravelPlannerApp.startupEffect, Bind.bind, JS.seq, localStorage.getItem, ht, hu,
    h, if_true, TravelPlannerApp.setToken, JS.modifyState, parseValueOf, JS.liftExcept,
    toJSString_str, hp, TravelPlannerApp.setUser, TravelPlannerApp.setCurrentView]

theorem startupEffect_skip_eq (s : AppState) (w : World)
    (h : w.localStorage.lookup "token" = none ∨ w.localStorage.lookup "token" = some "" ∨
         w.localStorage.lookup "user" = none ∨ w.localStorage.lookup "user" = some "") :
    TravelPlannerApp.startupEffect s w = (.ok (), s, w) := by
  cases ht : w.localStorage.lookup "token" with
  | none =>
    simp only [TravelPlannerApp.startupEffect, Bind.bind, JS.seq, localStorage.getItem, ht]
    cases hu : w.localStorage.lookup "user" <;>
      simp only [truthy, Bool.false_and, Bool.false_eq_true, if_false, Pure.pure, JS.ret]
  | some t =>
    cases hu : w.localStorage.lookup "user" with
    | none =>
      simp only [TravelPlannerApp.startupEffect, Bind.bind, JS.seq, localStorage.getItem, ht, hu,
        truthy, Bool.and_false, Bool.false_eq_true, if_false, Pure.pure, JS.ret]
    | some u =>
      have hf : (truthy (.str t) && truthy (.str u)) = false := by
        rw [ht, hu] at h
        rcases h with h | h | h | h
        · cases h
        · cases h; simp [truthy_str]
        · cases h
        · cases h; simp [truthy_str]
      simp only [TravelPlannerApp.startupEffect, Bind.bind, JS.seq, localStorage.getItem, ht, hu,
        hf, Bool.false_eq_true, if_false, Pure.pure, JS.ret]

/-- C7 (amended): the startup effect never modifies `localStorage`. When the
keys `token` and `user` are both stored with non-empty values and the `user`
value is JSON text, it returns normally with `currentView = 'main'`, `token` =
the stored token string and `user` = the JSON-decoded stored value. When either
key is missing or stored with the empty string, the state stays as it was
(`user = null`, `token = null`, `currentView = 'auth'` at startup). When both
values are non-empty and the `user` value is not JSON text, the effect raises
the SyntaxError of `JSON.parse` after `setToken`, with `user` and `currentView`
as they were. -/
theorem startupEffect_restores (s : AppState) (w : World) :
    (∀ (t u : String) (v : JSVal),
      w.localStorage.lookup "token" = some t → w.localStorage.lookup "user" = some u →
      t ≠ "" → u ≠ "" → JSON.parse u = .ok v →
      TravelPlannerApp.startupEffect s w =
        (.ok (), { s with token := .str t, user := v, currentView := "main" }, w)) ∧
    ((w.localStorage.lookup "token" = none ∨ w.localStorage.lookup "token" = some "" ∨
      w.localStorage.lookup "user" = none ∨ w.localStorage.lookup "user" = some "") →
      TravelPlannerApp.startupEffect s w = (.ok (), s, w)) ∧
    (∀ (t u : String) (e : JSError),
      w.localStorage.lookup "token" = some t → w.localStorage.lookup "user" = some u →
      t ≠ "" → u ≠ "" → JSON.parse u = .error e →
      TravelPlannerApp.startupEffect s w = (.error e, { s with token := .str t }, w)) ∧
    (TravelPlannerApp.startupEffect s w).2.2 = w :=
  ⟨fun t u v ht hu htne hune hp => startupEffect_restore_eq s w t u v ht hu htne hune hp,
   startupEffect_skip_eq s w,
   fun t u e ht hu htne hune hp => startupEffect_raise_eq s w t u e ht hu htne hune hp,
   startupEffect_world s w⟩

theorem startupEffect_restores_witness :
    (worldWithStorage [("token", "t0"), ("user", "\x7b\"user_id\":7,\"username\":\"ann\"\x7d")]).localStorage.lookup
      "token" = some "t0" ∧
    JSON.parse "\x7b\"user_id\":7,\"username\":\"ann\"\x7d" =
      .ok (.obj [("user_id", .num (.fin false 7)), ("username", .str "ann")]) ∧
    TravelPlannerApp.startupEffect TravelPlannerApp.initialState
        (worldWithStorage [("token", "t0"), ("user", "\x7b\"user_id\":7,\"username\":\"ann\"\x7d")]) =
      (.ok (),
       { TravelPlannerApp.initialState with
          token := .str "t0"
          user := .obj [("user_id", .num (.fin false 7)), ("username", .str "ann")]
          currentView := "main" },
       worldWithStorage [("token", "t0"), ("user", "\x7b\"user_id\":7,\"username\":\"ann\"\x7d")]) :=
  ⟨rfl, rfl,
   (startupEffect_restores TravelPlannerApp.initialState
      (worldWithStorage [("token", "t0"), ("user", "\x7b\"user_id\":7,\"username\":\"ann\"\x7d")])).1
     "t0" "\x7b\"user_id\":7,\"username\":\"ann\"\x7d"
     (.obj [("user_id", .num (.fin false 7)), ("username", .str "ann")])
     rfl rfl (by decide) (by decide) rfl⟩

/-- C7, counterexample: both keys are stored, the `user` value being the plain
text `ann`, which is not JSON. The effect raises and the view stays `auth` with
`user = null`. -/
theorem startupEffect_user_not_json :
    (worldWithStorage [("token", "t0"), ("user", "ann")]).localStorage.lookup "token" = some "t0" ∧
    (worldWithStorage [("token", "t0"), ("user", "ann")]).localStorage.lookup "user" = some "ann" ∧
    (∃ m : String,
      (TravelPlannerApp.startupEffect TravelPlannerApp.initialState
          (worldWithStorage [("token", "t0"), ("user", "ann")])).1 =
        .error (JSError.syntaxError m)) ∧
    (TravelPlannerApp.startupEffect TravelPlannerApp.initialState
        (worldWithStorage [("token", "t0"), ("user", "ann")])).2.1.currentView = "auth" ∧
    (TravelPlannerApp.startupEffect TravelPlannerApp.initialState
        (worldWithStorage [("token", "t0"), ("user", "ann")])).2.1.currentView ≠ "main" ∧
    (TravelPlannerApp.startupEffect TravelPlannerApp.initialState
        (worldWithStorage [("token", "t0"), ("user", "ann")])).2.1.user = .null := by
  refine ⟨rfl, rfl, ⟨_, rfl⟩, rfl, ?_, rfl⟩
  have h : (TravelPlannerApp.startupEffect TravelPlannerApp.initialState
        (worldWithStorage [("token", "t0"), ("user", "ann")])).2.1.currentView = "auth" := rfl
  rw [h]
  decide

theorem api_get_state_indep {σ : Type} (backend : Backend) (endpoint : String) (token : JSVal)
    (s : σ) (w : World) :
    api.get backend endpoint token s w =
      ((api.get backend endpoint token () w).1, s, (api.get backend endpoint token () w).2.2) := by
  unfold api.get
  by_cases ht : truthy token = true
  · simp only [ht, if_true, Bind.bind, JS.seq, JS.liftExcept, Pure.pure, JS.ret, fetch]
    cases toJSString token with
    | error e => rfl
    | ok text =>
      simp only []
      cases backend _ with
      | networkError m => rfl
      | response ok body => cases ok <;> rfl
  · have hf : truthy token = false := by simpa using ht
    simp only [hf, Bool.false_eq_true, if_false, Bind.bind, JS.seq, Pure.pure, JS.ret, fetch]
    cases backend _ with
    | networkError m => rfl
    | response ok body => cases ok <;> rfl

theorem api_get_alerts (backend : Backend) (endpoint : String) (token : JSVal) (w : World) :
    (api.get backend endpoint token () w).2.2.alerts = w.alerts := by
  unfold api.get
  by_cases ht : truthy token = true
  · simp only [ht, if_true, Bind.bind, JS.seq, JS.liftExcept, Pure.pure, JS.ret, fetch]
    cases toJSString token with
    | error e => rfl
    | ok text =>
      simp only []
      cases backend _ with
      | networkError m => rfl
      | response ok body => cases ok <;> rfl
  · have hf : truthy token = false := by simpa using ht
    simp only [hf, Bool.false_eq_true, if_false, Bind.bind, JS.seq, Pure.pure, JS.ret, fetch]
    cases backend _ with
    | networkError m => rfl
    | response ok body => cases ok <;> rfl

theorem fetchSuggestions_eq (backend : Backend) (user token uid : JSVal) (idText : String)
    (s : PlanningState) (w : World)
    (huid : getProp user "user_id" = .ok uid) (hid : toJSString uid = .ok idText) :
    PlanningView.fetchSuggestions backend user token s w =
      (match (api.get backend ("/planning/suggestions/" ++ idText) token () w).1 with
       | .error e =>
         (.ok (), { s with loading := false },
          { (api.get backend ("/planning/suggestions/" ++ idText) token () w).2.2 with
            alerts := (api.get backend ("/planning/suggestions/" ++ idText) token () w).2.2.alerts ++
              ["Error fetching suggestions: " ++ e.message] })
       | .ok result =>
         match getProp result "suggestions" with
         | .error e =>
           (.ok (), { s with loading := false },
            { (api.get backend ("/planning/suggestions/" ++ idText) token () w).2.2 with
              alerts := (api.get backend ("/planning/suggestions/" ++ idText) token () w).2.2.alerts ++
                ["Error fetching suggestions: " ++ e.message] })
         | .ok suggestions =>
           (.ok (), { s with suggestions := jsOr suggestions (.arr []), loading := false },
            (api.get backend ("/planning/suggestions/" ++ idText) token () w).2.2)) := by
  simp only [PlanningView.fetchSuggestions, Bind.bind, JS.seq, PlanningView.setLoading,
    JS.modifyState, JS.tryFinally, JS.tryCatch, prop, JS.liftExcept, huid, hid, alert,
    JS.modifyWorld, PlanningView.setSuggestions]
  rw [api_get_state_indep]
  cases (api.get backend ("/planning/suggestions/" ++ idText) token () w).1 with
  | error e => rfl
  | ok result =>
    simp only []
    cases getProp result "suggestions" with
    | error e => rfl
    | ok suggestions => rfl

/-- C8 (amended): for every planning state and every user whose `user_id` can
be read and converted to a string, when the call `api.get` made by
`fetchSuggestions` raises an error `e`, `fetchSuggestions` itself returns
normally; the suggestions list afterwards is the list held before the call
(empty when it was empty, as in the initial state), `step` is unchanged,
`loading` is false, and one alert with the error's message is shown. -/
theorem fetchSuggestions_failure (backend : Backend) (user token uid : JSVal) (idText : String)
    (s : PlanningState) (w : World) (e : JSError)
    (huid : getProp user "user_id" = .ok uid) (hid : toJSString uid = .ok idText)
    (hfail : (api.get backend ("/planning/suggestions/" ++ idText) token s w).1 = .error e) :
    (PlanningView.fetchSuggestions backend user token s w).1 = .ok () ∧
    (PlanningView.fetchSuggestions backend user token s w).2.1 = { s with loading := false } ∧
    (PlanningView.fetchSuggestions backend user token s w).2.1.suggestions = s.suggestions ∧
    (s.suggestions = .arr [] →
      (PlanningView.fetchSuggestions backend user token s w).2.1.suggestions = .arr []) ∧
    (PlanningView.fetchSuggestions backend user token s w).2.1.step = s.step ∧
    (PlanningView.fetchSuggestions backend user token s w).2.1.loading = false ∧
    (PlanningView.fetchSuggestions backend user token s w).2.2.alerts =
      w.alerts ++ ["Error fetching suggestions: " ++ e.message] := by
  rw [api_get_state_indep] at hfail
  simp only at hfail
  rw [fetchSuggestions_eq backend user token uid idText s w huid hid, hfail]
  simp only [api_get_alerts, true_and, imp_self]

theorem fetchSuggestions_failure_witness :
    getProp sampleUser "user_id" = .ok (.num (JSNum.ofNat 7)) ∧
    toJSString (.num (JSNum.ofNat 7)) = .ok "7" ∧
    (api.get (constBackend false "oops") ("/planning/suggestions/" ++ "7") (.str "t0")
        (filtersState "" "" "") emptyWorld).1 = .error (JSError.mkError "API request failed") ∧
    (PlanningView.fetchSuggestions (constBackend false "oops") sampleUser (.str "t0")
        (filtersState "" "" "") emptyWorld).2.1.suggestions = .arr [] ∧
    (PlanningView.fetchSuggestions (constBackend false "oops") sampleUser (.str "t0")
        (filtersState "" "" "") emptyWorld).2.2.alerts =
      ["Error fetching suggestions: API request failed"] :=
  ⟨rfl, rfl, rfl,
   (fetchSuggestions_failure (constBackend false "oops") sampleUser (.str "t0")
      (.num (JSNum.ofNat 7)) "7" (filtersState "" "" "") emptyWorld
      (JSError.mkError "API request failed") rfl rfl rfl).2.2.2.1 rfl,
   (fetchSuggestions_failure (constBackend false "oops") sampleUser (.str "t0")
      (.num (JSNum.ofNat 7)) "7" (filtersState "" "" "") emptyWorld
      (JSError.mkError "API request failed") rfl rfl rfl).2.2.2.2.2.2⟩

/-- C8, counterexample: after a first successful fetch the state holds one
suggestion; a second fetch that the backend fails leaves that suggestion in the
list, which is therefore not empty. -/
theorem fetchSuggestions_keeps_previous :
    stateWithSuggestions.suggestions = .arr [.obj [("name", .str "Lisbon")]] ∧
    (api.get (constBackend false "oops") "/planning/suggestions/7" (.str "t0")
        stateWithSuggestions emptyWorld).1 = .error (JSError.mkError "API request failed") ∧
    (PlanningView.fetchSuggestions (constBackend false "oops") sampleUser (.str "t0")
        stateWithSuggestions emptyWorld).2.1.suggestions = .arr [.obj [("name", .str "Lisbon")]] ∧
    (PlanningView.fetchSuggestions (constBackend false "oops") sampleUser (.str "t0")
        stateWithSuggestions emptyWorld).2.1.suggestions ≠ .arr [] := by
  refine ⟨rfl, rfl, rfl, ?_⟩
  have h : (PlanningView.fetchSuggestions (constBackend false "oops") sampleUser (.str "t0")
        stateWithSuggestions emptyWorld).2.1.suggestions = .arr [.obj [("name", .str "Lisbon")]] :=
    rfl
  rw [h]
  simp

theorem authHandler_failure_eq (signup : Bool) (backend : Backend) (credentials : JSVal)
    (s : AppState) (w : World) (e : JSError)
    (hfail : (api.post backend (authEndpoint signup) credentials s w).1 = .error e) :
    authHandler signup backend credentials s w =
      (.ok (.obj [("success", .bool false), ("error", .str e.message)]), s,
       { w with requests := w.requests ++ [postRequest (authEndpoint signup) credentials] }) := by
  rw [api_post_eq] at hfail
  simp only at hfail
  cases signup with
  | true =>
    simp only [authEndpoint, if_true] at hfail
    simp only [authHandler, if_true, TravelPlannerApp.handleSignup, JS.tryCatch, Bind.bind, JS.seq,
      api_post_eq, hfail, Pure.pure, JS.ret, authEndpoint]
  | false =>
    simp only [authEndpoint, Bool.false_eq_true, if_false] at hfail
    simp only [authHandler, Bool.false_eq_true, if_false, TravelPlannerApp.handleLogin, JS.tryCatch,
      Bind.bind, JS.seq, api_post_eq, hfail, Pure.pure, JS.ret, authEndpoint]

theorem handleSubmit_failure_eq (signup : Bool) (backend : Backend) (credentials : JSVal)
    (s : AppState) (w : World) (e : JSError) (mode : String) (view : AuthViewState)
    (hfail : (api.post backend (authEndpoint signup) credentials s w).1 = .error e)
    (hmode : signup = decide (mode ≠ "login"))
    (hcred : credentials = submitCredentials mode view.formData) :
    AuthView.handleSubmit mode (TravelPlannerApp.handleLogin backend)
        (TravelPlannerApp.handleSignup backend) { app := s, view := view } w =
      (.ok (),
       { app := s, view := { view with error := .str e.message, loading := false } },
       { w with requests := w.requests ++ [postRequest (authEndpoint signup) credentials] }) := by
  have hh := authHandler_failure_eq signup backend credentials s w e hfail
  by_cases hm : mode = "login"
  · have hs : signup = false := by simp [hmode, hm]
    subst hs
    simp only [authHandler, Bool.false_eq_true, if_false] at hh
    simp only [submitCredentials, hm, if_true] at hcred
    subst hcred
    simp only [AuthView.handleSubmit, Bind.bind, JS.seq, JS.getState, AuthView.setError,
      AuthView.setLoading, JS.modifyState, JS.tryFinally, JS.tryCatch, hm, if_true,
      AuthView.callApp, JS.within, hh, prop, JS.liftExcept, getProp, List.lookup, truthy]
    rfl
  · have hs : signup = true := by simp [hmode, hm]
    subst hs
    simp only [authHandler, if_true] at hh
    simp only [submitCredentials, hm, if_false] at hcred
    subst hcred
    simp only [AuthView.handleSubmit, Bind.bind, JS.seq, JS.getState, AuthView.setError,
      AuthView.setLoading, JS.modifyState, JS.tryFinally, JS.tryCatch, hm, if_false,
      AuthView.callApp, JS.within, hh, prop, JS.liftExcept, getProp, List.lookup, truthy]
    rfl

/-- C10: for every credentials input, when the call `api.post` made by
`handleLogin` (endpoint `/auth/login`) or `handleSignup` (endpoint
`/auth/signup`) raises an error with message `m`, the handler returns normally
with `{success: false, error: m}`; `user`, `token`, `currentView` and
`localStorage` are exactly as they were; and `handleSubmit` of `AuthView`,
calling the handler with the credentials of the form, returns normally with the
form error set to `m` and `loading` false. -/
theorem auth_failure_reported (signup : Bool) (backend : Backend) (credentials : JSVal)
    (s : AppState) (w : World) (e : JSError)
    (hfail : (api.post backend (authEndpoint signup) credentials s w).1 = .error e) :
    (authHandler signup backend credentials s w).1 =
      .ok (.obj [("success", .bool false), ("error", .str e.message)]) ∧
    (authHandler signup backend credentials s w).2.1 = s ∧
    (authHandler signup backend credentials s w).2.2.localStorage = w.localStorage ∧
    (∀ (mode : String) (view : AuthViewState),
      signup = decide (mode ≠ "login") → credentials = submitCredentials mode view.formData →
      (AuthView.handleSubmit mode (TravelPlannerApp.handleLogin backend)
          (TravelPlannerApp.handleSignup backend) { app := s, view := view } w).1 = .ok () ∧
      (AuthView.handleSubmit mode (TravelPlannerApp.handleLogin backend)
          (TravelPlannerApp.handleSignup backend) { app := s, view := view } w).2.1.app = s ∧
      (AuthView.handleSubmit mode (TravelPlannerApp.handleLogin backend)
          (TravelPlannerApp.handleSignup backend) { app := s, view := view } w).2.1.view.error =
        .str e.message ∧
      (AuthView.handleSubmit mode (TravelPlannerApp.handleLogin backend)
          (TravelPlannerApp.handleSignup backend) { app := s, view := view } w).2.1.view.loading =
        false ∧
      (AuthView.handleSubmit mode (TravelPlannerApp.handleLogin backend)
          (TravelPlannerApp.handleSignup backend) { app := s, view := view } w).2.2.localStorage =
        w.localStorage) := by
  refine ⟨?_, ?_, ?_, ?_⟩
  · rw [authHandler_failure_eq signup backend credentials s w e hfail]
  · rw [authHandler_failure_eq signup backend credentials s w e hfail]
  · rw [authHandler_failure_eq signup backend credentials s w e hfail]
  · intro mode view hmode hcred
    rw [handleSubmit_failure_eq signup backend credentials s w e mode view hfail hmode hcred]
    exact ⟨rfl, rfl, rfl, rfl, rfl⟩

theorem auth_failure_reported_witness :
    (api.post (constBackend false "\x7b\"detail\":\"Invalid credentials\"\x7d") (authEndpoint false)
        sampleCredentials TravelPlannerApp.initialState emptyWorld).1 =
      .error (JSError.mkError "Invalid credentials") ∧
    (authHandler false (constBackend false "\x7b\"detail\":\"Invalid credentials\"\x7d")
        sampleCredentials TravelPlannerApp.initialState emptyWorld).1 =
      .ok (.obj [("success", .bool false), ("error", .str "Invalid credentials")]) ∧
    (AuthView.handleSubmit "login"
        (TravelPlannerApp.handleLogin (constBackend false "\x7b\"detail\":\"Invalid credentials\"\x7d"))
        (TravelPlannerApp.handleSignup (constBackend false "\x7b\"detail\":\"Invalid credentials\"\x7d"))
        { app := TravelPlannerApp.initialState, view := sampleAuthView } emptyWorld).2.1.view.error =
      .str "Invalid credentials" :=
  ⟨rfl,
   (auth_failure_reported false (constBackend false "\x7b\"detail\":\"Invalid credentials\"\x7d")
      sampleCredentials TravelPlannerApp.initialState emptyWorld
      (JSError.mkError "Invalid credentials") rfl).1,
   ((auth_failure_reported false (constBackend false "\x7b\"detail\":\"Invalid credentials\"\x7d")
      sampleCredentials TravelPlannerApp.initialState emptyWorld
      (JSError.mkError "Invalid credentials") rfl).2.2.2 "login" sampleAuthView rfl rfl).2.2.1⟩

theorem two_pow_log2Aux_le (fuel n : Nat) (hn : 1 ≤ n) : 2 ^ log2Aux fuel n ≤ n := by
  induction fuel generalizing n with
  | zero => simpa [log2Aux] using hn
  | succ fuel ih =>
    unfold log2Aux
    by_cases h : n < 2
    · simpa [h] using hn
    · simp only [h, if_false]
      have h2 : 1 ≤ n / 2 := by omega
      have := ih (n / 2) h2
      rw [pow_succ]
      omega

theorem divRoundHalfEven_ge (n d : Nat) : n / d ≤ divRoundHalfEven n d := by
  unfold divRoundHalfEven
  simp only []
  split
  · exact le_refl _
  · split
    · omega
    · split <;> omega

theorem scale2_ne_zero (m : Nat) (p : Int) (hm : 0 < m) : scale2 m p ≠ 0 := by
  unfold scale2
  split
  · rw [Ne, Rat.mkRat_eq_zero (by decide)]
    have h : 0 < m * 2 ^ p.toNat := Nat.mul_pos hm (pow_pos (by decide) _)
    exact_mod_cast Nat.pos_iff_ne_zero.mp h
  · rw [Ne, Rat.mkRat_eq_zero (Nat.pos_iff_ne_zero.mp (pow_pos (by decide) _))]
    exact_mod_cast Nat.pos_iff_ne_zero.mp hm

theorem significand_int_pos (n : Nat) (hn : 0 < n) : 0 < significand n 1 := by
  unfold significand
  split
  · rename_i hp
    have hlog : (2 : Nat) ^ log2 n ≤ n := two_pow_log2Aux_le n n hn
    have he : floorLog2 n 1 ≤ (log2 n : Int) := by
      unfold floorLog2
      have h1 : log2 1 = 0 := by decide
      simp only [h1]
      split <;> omega
    have hle : (ulpExponent n 1).toNat ≤ log2 n := by
      unfold ulpExponent at hp ⊢
      omega
    have hpow : 2 ^ (ulpExponent n 1).toNat ≤ n :=
      le_trans (Nat.pow_le_pow_right (by decide) hle) hlog
    have hq : 1 ≤ n / (1 * 2 ^ (ulpExponent n 1).toNat) := by
      rw [Nat.one_mul]
      exact (Nat.one_le_div_iff (pow_pos (by decide) _)).mpr hpow
    exact lt_of_lt_of_le hq (divRoundHalfEven_ge _ _)
  · have hq : 0 < n * 2 ^ (-ulpExponent n 1).toNat := Nat.mul_pos hn (pow_pos (by decide) _)
    have := divRoundHalfEven_ge (n * 2 ^ (-ulpExponent n 1).toNat) 1
    rw [Nat.div_one] at this
    omega

theorem roundBinary64_int_ne_zero (n : Nat) (hn : 0 < n) (q : ℚ)
    (h : roundBinary64 n 1 = some q) : q ≠ 0 := by
  have hn0 : ¬ n = 0 := by omega
  unfold roundBinary64 at h
  rw [if_neg hn0] at h
  split at h
  · cases h
  · simp only [Option.some.injEq] at h
    rw [← h]
    exact scale2_ne_zero _ _ (significand_int_pos n hn)

theorem strictEqualsZero_ofNat (n : Nat) :
    strictEqualsZero (.num (JSNum.ofNat n)) = decide (n = 0) := by
  unfold JSNum.ofNat JSNum.ofDecimal
  by_cases hn : n = 0
  · simp [hn, strictEqualsZero]
  · simp only [hn, if_false, le_refl, if_true, Int.toNat_zero, pow_zero, Nat.mul_one, decide_False]
    cases h : roundBinary64 n 1 with
    | none => rfl
    | some q =>
      have := roundBinary64_int_ne_zero n (by omega) q h
      simp [strictEqualsZero, this]

theorem handleCreateTrip_step (backend : Backend) (user : JSVal) (s : PlanningState) (w : World) :
    (PlanningView.handleCreateTrip backend user s w).2.1.step = s.step ∨
    (PlanningView.handleCreateTrip backend user s w).2.1.step = "suggestions" := by
  cases huid : getProp user "user_id" with
  | error e =>
    left
    simp only [PlanningView.handleCreateTrip, Bind.bind, JS.seq, JS.getState,
      PlanningView.setLoading, JS.modifyState, JS.tryFinally, JS.tryCatch, prop, JS.liftExcept,
      huid, alert, JS.modifyWorld]
  | ok uid =>
    rw [handleCreateTrip_eq backend user uid s w huid]
    cases (api.post backend "/planning/create-trip"
        (PlanningView.createTripData uid s.tripData) s w).1 with
    | error e => left; rfl
    | ok result =>
      simp only []
      cases getProp result "trip_id" with
      | error e => left; rfl
      | ok tripId => right; rfl

theorem applyFilters_step (backend : Backend) (user : JSVal) (s : PlanningState) (w : World) :
    (PlanningView.applyFilters backend user s w).2.1.step = s.step ∨
    (PlanningView.applyFilters backend user s w).2.1.step = "filtered" := by
  cases huid : getProp user "user_id" with
  | error e =>
    left
    simp only [PlanningView.applyFilters, Bind.bind, JS.seq, JS.getState,
      PlanningView.setLoading, JS.modifyState, JS.tryFinally, JS.tryCatch, prop, JS.liftExcept,
      huid, alert, JS.modifyWorld]
  | ok uid =>
    rw [applyFilters_eq backend user uid s w huid]
    cases (api.post backend "/planning/filter" (PlanningView.filterData uid s.filters) s w).1 with
    | error e => left; rfl
    | ok result =>
      simp only []
      cases getProp result "destinations" with
      | error e => left; rfl
      | ok destinations => right; rfl

theorem fetchSuggestions_step (backend : Backend) (user token : JSVal) (s : PlanningState)
    (w : World) : (PlanningView.fetchSuggestions backend user token s w).2.1.step = s.step := by
  cases huid : getProp user "user_id" with
  | error e =>
    simp only [PlanningView.fetchSuggestions, Bind.bind, JS.seq, PlanningView.setLoading,
      JS.modifyState, JS.tryFinally, JS.tryCatch, prop, JS.liftExcept, huid, alert, JS.modifyWorld]
  | ok uid =>
    cases hid : toJSString uid with
    | error e =>
      simp only [PlanningView.fetchSuggestions, Bind.bind, JS.seq, PlanningView.setLoading,
        JS.modifyState, JS.tryFinally, JS.tryCatch, prop, JS.liftExcept, huid, hid, alert,
        JS.modifyWorld]
    | ok idText =>
      rw [fetchSuggestions_eq backend user token uid idText s w huid hid]
      cases (api.get backend ("/planning/suggestions/" ++ idText) token () w).1 with
      | error e => rfl
      | ok result =>
        simp only []
        cases getProp result "suggestions" with
        | error e => rfl
        | ok suggestions => rfl

theorem render_filtered_arr (s : PlanningState) (l : List JSVal)
    (hs : s.step = "filtered") (hf : s.filteredDestinations = .arr l) :
    PlanningView.render s =
      .ok (if l.length = 0 then .noDestinationsMatch else .filteredResults) := by
  have h1 : ¬ s.step = "trip-details" := by rw [hs]; decide
  have h2 : ¬ s.step = "suggestions" := by rw [hs]; decide
  unfold PlanningView.render
  rw [if_neg h1, if_neg h2, if_pos hs, hf]
  simp only [getProp, if_true]
  cases l with
  | nil => simp [strictEqualsZero_ofNat]
  | cons x xs => simp [strictEqualsZero_ofNat]

theorem render_step (s : PlanningState) (screen : PlanningScreen)
    (h : PlanningView.render s = .ok screen) :
    (screen = .tripDetailsForm → s.step = "trip-details") ∧
    (screen = .suggestionsScreen → s.step = "suggestions") ∧
    (screen = .noDestinationsMatch → s.step = "filtered") := by
  unfold PlanningView.render at h
  by_cases h1 : s.step = "trip-details"
  · rw [if_pos h1] at h
    cases h
    refine ⟨?_, ?_, ?_⟩ <;> intro hc <;> first | exact h1 | cases hc
  · rw [if_neg h1] at h
    by_cases h2 : s.step = "suggestions"
    · rw [if_pos h2] at h
      cases h
      refine ⟨?_, ?_, ?_⟩ <;> intro hc <;> first | exact h2 | cases hc
    · rw [if_neg h2] at h
      by_cases h3 : s.step = "filtered"
      · rw [if_pos h3] at h
        cases hg : getProp s.filteredDestinations "length" with
        | error e => rw [hg] at h; cases h
        | ok len =>
          rw [hg] at h
          simp only [] at h
          by_cases hz : strictEqualsZero len = true
          · rw [if_pos hz] at h
            cases h
            refine ⟨?_, ?_, ?_⟩ <;> intro hc <;> first | exact h3 | cases hc
          · rw [if_neg hz] at h
            cases h
            refine ⟨?_, ?_, ?_⟩ <;> intro hc <;> cases hc
      · rw [if_neg h3] at h
        cases h
        refine ⟨?_, ?_, ?_⟩ <;> intro hc <;> cases hc

theorem act_allowedMove (user token : JSVal) (a : PlanningAction) (s : PlanningState) (w : World) :
    PlanningView.allowedMove s.step (PlanningView.act user token a s w).1.step := by
  unfold PlanningView.act
  cases hr : PlanningView.render s with
  | error e => exact Or.inl rfl
  | ok screen =>
    simp only []
    have hstep := render_step s screen hr
    by_cases ho : PlanningView.offers screen s.loading a = true
    · simp only [ho, if_true]
      cases a with
      | editTripData v => exact Or.inl rfl
      | editFilters v => exact Or.inl rfl
      | submitTrip backend =>
        have hscreen : screen = .tripDetailsForm := by
          simp only [PlanningView.offers, Bool.and_eq_true, decide_eq_true_eq] at ho
          exact ho.1
        have hs := hstep.1 hscreen
        rcases handleCreateTrip_step backend user s w with h | h
        · exact Or.inl h.symm
        · exact Or.inr (Or.inl ⟨hs, h⟩)
      | showSuggestions backend =>
        exact Or.inl (fetchSuggestions_step backend user token s w).symm
      | applyFilters backend =>
        have hscreen : screen = .suggestionsScreen := by
          simp only [PlanningView.offers, Bool.and_eq_true, decide_eq_true_eq] at ho
          exact ho.1
        have hs := hstep.2.1 hscreen
        rcases applyFilters_step backend user s w with h | h
        · exact Or.inl h.symm
        · exact Or.inr (Or.inr (Or.inl ⟨hs, h⟩))
      | tryDifferentFilters =>
        have hscreen : screen = .noDestinationsMatch := by
          simp only [PlanningView.offers, decide_eq_true_eq] at ho
          exact ho
        have hs := hstep.2.2 hscreen
        exact Or.inr (Or.inr (Or.inr ⟨hs, rfl⟩))
    · simp only [ho, if_false]
      exact Or.inl rfl

theorem allowedMove_not_back (before after : String)
    (h : PlanningView.allowedMove before after) (hb : before ≠ "trip-details") :
    after ≠ "trip-details" := by
  rcases h with h | ⟨h, _⟩ | ⟨_, h⟩ | ⟨_, h⟩
  · rw [← h]; exact hb
  · exact absurd h hb
  · rw [h]; decide
  · rw [h]; decide

theorem applyFilters_success_eq (backend : Backend) (user uid : JSVal) (s : PlanningState)
    (w : World) (body : String) (r dests : JSVal)
    (huid : getProp user "user_id" = .ok uid)
    (hb : backend (postRequest "/planning/filter" (PlanningView.filterData uid s.filters)) =
      .response true body)
    (hp : JSON.parse body = .ok r) (hd : getProp r "destinations" = .ok dests) :
    PlanningView.applyFilters backend user s w =
      (.ok (),
       { s with filteredDestinations := jsOr dests (.arr []), step := "filtered", loading := false },
       { w with requests := w.requests ++
          [postRequest "/planning/filter" (PlanningView.filterData uid s.filters)] }) := by
  rw [applyFilters_eq backend user uid s w huid, api_post_fst_ok _ _ _ _ _ body hb, hp]
  simp only [hd]

theorem planningMounted_iff (s : AppState) :
    Page.planningMounted s = true ↔
      s.currentView = "main" ∧ ∃ v, getProp s.user "username" = .ok v := by
  unfold Page.planningMounted TravelPlannerApp.render
  by_cases h1 : s.currentView = "auth"
  · rw [if_pos h1]
    simp [h1]
  · rw [if_neg h1]
    cases hg : getProp s.user "username" with
    | error e => simp
    | ok v =>
      by_cases h2 : s.currentView = "main"
      · simp [h2]
      · by_cases h3 : s.currentView = "trips"
        · simp [h2, h3]
        · simp [h2, h3]

theorem remount_some (st : PlanningState) (s : AppState) :
    Page.remount (some st) s = none ∨ Page.remount (some st) s = some st := by
  unfold Page.remount
  by_cases h : Page.planningMounted s = true
  · rw [if_pos h]; exact Or.inr rfl
  · rw [if_neg h]; exact Or.inl rfl

theorem remount_none (s : AppState) :
    Page.remount none s = none ∨ Page.remount none s = some PlanningView.initialState := by
  unfold Page.remount
  by_cases h : Page.planningMounted s = true
  · rw [if_pos h]; exact Or.inr rfl
  · rw [if_neg h]; exact Or.inl rfl

theorem page_act_mounted (a : PageAction) (p : Page) (w : World) (st : PlanningState)
    (h : p.planning = some st) :
    (Page.act a p w).1.planning = none ∨
    ∃ st1, (Page.act a p w).1.planning = some st1 ∧ PlanningView.allowedMove st.step st1.step := by
  cases a with
  | app a =>
    simp only [Page.act, h]
    rcases remount_some st (TravelPlannerApp.act a p.app w).1 with h1 | h1
    · exact Or.inl h1
    · exact Or.inr ⟨st, h1, Or.inl rfl⟩
  | planning a =>
    simp only [Page.act, h]
    exact Or.inr ⟨_, rfl, act_allowedMove _ _ a st w⟩

theorem page_act_unmounted (a : PageAction) (p : Page) (w : World) (st1 : PlanningState)
    (h : p.planning = none) (h1 : (Page.act a p w).1.planning = some st1) :
    st1 = PlanningView.initialState := by
  cases a with
  | app a =>
    simp only [Page.act, h] at h1
    rcases remount_none (TravelPlannerApp.act a p.app w).1 with h2 | h2
    · rw [h2] at h1; cases h1
    · rw [h2] at h1; cases h1; rfl
  | planning a =>
    simp only [Page.act, h] at h1
    cases h1

theorem page_run_within_mount (actions : List PageAction) (p : Page) (w : World)
    (hm : ∀ k, k ≤ actions.length → (Page.run (actions.take k) p w).1.step ≠ none)
    (hs : p.step ≠ some "trip-details") :
    (Page.run actions p w).1.step ≠ some "trip-details" := by
  induction actions generalizing p w with
  | nil => exact hs
  | cons a rest ih =>
    have h0 := hm 0 (Nat.zero_le _)
    have h1 := hm 1 (by simp)
    simp only [List.take_zero, Page.run] at h0
    simp only [List.take_succ_cons, List.take_zero, Page.run] at h1
    unfold Page.run
    apply ih
    · intro k hk
      have := hm (k + 1) (by simp; omega)
      simpa only [List.take_succ_cons, Page.run] using this
    · cases hp : p.planning with
      | none => simp [Page.step, hp] at h0
      | some st =>
        have hst : st.step ≠ "trip-details" := by
          intro hc
          apply hs
          simp [Page.step, hp, hc]
        rcases page_act_mounted a p w st hp with h2 | ⟨st1, h2, hmove⟩
        · simp [Page.step, h2] at h1
        · simp only [Page.step, h2, Option.map_some', ne_eq, Option.some.injEq]
          exact allowedMove_not_back _ _ hmove hst

theorem page_leave_and_return (p : Page) (w : World) (hm : Page.planningMounted p.app = true) :
    (Page.act (.app .myTrips) p w).1.planning = none ∧
    (Page.run [.app .myTrips, .app .planTrip] p w).1.planning = some PlanningView.initialState := by
  obtain ⟨hv, v, hu⟩ := (planningMounted_iff p.app).1 hm
  have hr : TravelPlannerApp.render p.app = .ok .planningView := by
    simp [TravelPlannerApp.render, hv, hu]
  have h1 : TravelPlannerApp.act .myTrips p.app w = ({ p.app with currentView := "trips" }, w) := by
    simp [TravelPlannerApp.act, hr, TravelPlannerApp.offers, TravelPlannerApp.perform,
      TravelPlannerApp.setCurrentView, JS.modifyState]
  have hr2 : TravelPlannerApp.render { p.app with currentView := "trips" } = .ok .tripsView := by
    simp [TravelPlannerApp.render, hu]
  have h2 : TravelPlannerApp.act .planTrip { p.app with currentView := "trips" } w =
      ({ p.app with currentView := "main" }, w) := by
    simp [TravelPlannerApp.act, hr2, TravelPlannerApp.offers, TravelPlannerApp.perform,
      TravelPlannerApp.setCurrentView, JS.modifyState]
  have hm1 : Page.planningMounted { p.app with currentView := "trips" } = false := by
    simp [Page.planningMounted, hr2]
  have hm2 : Page.planningMounted { p.app with currentView := "main" } = true := by
    rw [planningMounted_iff]
    exact ⟨rfl, v, hu⟩
  constructor
  · simp [Page.act, h1, Page.remount, hm1]
  · simp [Page.run, Page.act, h1, h2, Page.remount, hm1, hm2]

/-- C9 (amended): after every call of `applyFilters` that the backend answers
with a success status and a JSON body `r` whose `destinations` can be read,
`step` is `'filtered'` and `filteredDestinations` is `r.destinations || []`:
the response's list, and the empty list when the field is missing. In step
`'filtered'` with a list held, the view is the `No destinations match your
filters` state exactly when the list is empty; the one control that state
offers is `Try Different Filters`, which sets `step` to `'suggestions'`. While
an instance of `PlanningView` stays mounted, every user action on the page
leaves its `step` unchanged or moves it along `trip-details -> suggestions`,
`suggestions -> filtered` or `filtered -> suggestions`, so a sequence of
actions after each of which `PlanningView` is mounted never returns to
`'trip-details'`. An instance mounted by an action starts from the initial
state, with `step = 'trip-details'`: from any page showing `PlanningView`,
`My Trips` unmounts it and `Plan Trip` then mounts a new instance. -/
theorem planning_flow_within_mount :
    (∀ (backend : Backend) (user uid : JSVal) (s : PlanningState) (w : World) (body : String)
        (r dests : JSVal),
      getProp user "user_id" = .ok uid →
      backend (postRequest "/planning/filter" (PlanningView.filterData uid s.filters)) =
        .response true body →
      JSON.parse body = .ok r → getProp r "destinations" = .ok dests →
      (PlanningView.applyFilters backend user s w).1 = .ok () ∧
      (PlanningView.applyFilters backend user s w).2.1.step = "filtered" ∧
      (PlanningView.applyFilters backend user s w).2.1.filteredDestinations =
        jsOr dests (.arr []) ∧
      (dests = .undefined →
        (PlanningView.applyFilters backend user s w).2.1.filteredDestinations = .arr []) ∧
      (∀ l : List JSVal, dests = .arr l →
        (PlanningView.applyFilters backend user s w).2.1.filteredDestinations = .arr l)) ∧
    (∀ (s : PlanningState) (l : List JSVal),
      s.step = "filtered" → s.filteredDestinations = .arr l →
      (PlanningView.render s = .ok .noDestinationsMatch ↔ l = []) ∧
      (l ≠ [] → PlanningView.render s = .ok .filteredResults)) ∧
    (∀ loading : Bool,
      PlanningView.offers .noDestinationsMatch loading .tryDifferentFilters = true) ∧
    (∀ (loading : Bool) (a : PlanningAction),
      PlanningView.offers .noDestinationsMatch loading a = true → a = .tryDifferentFilters) ∧
    (∀ (user token : JSVal) (s : PlanningState) (w : World),
      PlanningView.render s = .ok .noDestinationsMatch →
      (PlanningView.act user token .tryDifferentFilters s w).1.step = "suggestions") ∧
    (∀ (a : PageAction) (p : Page) (w : World) (st : PlanningState),
      p.planning = some st →
      (Page.act a p w).1.planning = none ∨
      ∃ st1, (Page.act a p w).1.planning = some st1 ∧
        PlanningView.allowedMove st.step st1.step) ∧
    (∀ (actions : List PageAction) (p : Page) (w : World),
      (∀ k, k ≤ actions.length → (Page.run (actions.take k) p w).1.step ≠ none) →
      p.step ≠ some "trip-details" →
      (Page.run actions p w).1.step ≠ some "trip-details") ∧
    (∀ (a : PageAction) (p : Page) (w : World) (st1 : PlanningState),
      p.planning = none → (Page.act a p w).1.planning = some st1 →
      st1 = PlanningView.initialState ∧ st1.step = "trip-details") ∧
    (∀ (p : Page) (w : World),
      Page.planningMounted p.app = true →
      (Page.act (.app .myTrips) p w).1.planning = none ∧
      (Page.run [.app .myTrips, .app .planTrip] p w).1.step = some "trip-details") := by
  refine ⟨?_, ?_, ?_, ?_, ?_, page_act_mounted, page_run_within_mount, ?_, ?_⟩
  · intro backend user uid s w body r dests huid hb hp hd
    rw [applyFilters_success_eq backend user uid s w body r dests huid hb hp hd]
    refine ⟨rfl, rfl, rfl, ?_, ?_⟩
    · intro h; subst h; rfl
    · intro l h; subst h; rfl
  · intro s l hs hf
    rw [render_filtered_arr s l hs hf]
    cases l with
    | nil => simp
    | cons x xs => simp
  · intro loading; rfl
  · intro loading a h
    cases a <;> first | rfl | (simp [PlanningView.offers] at h)
  · intro user token s w h
    simp only [PlanningView.act, h, PlanningView.offers, decide_True, if_true]
    rfl
  · intro a p w st1 h h1
    have := page_act_unmounted a p w st1 h h1
    subst this
    exact ⟨rfl, rfl⟩
  · intro p w hm
    have := page_leave_and_return p w hm
    refine ⟨this.1, ?_⟩
    simp only [Page.step, this.2]
    rfl

theorem planning_flow_within_mount_witness :
    getProp sampleUser "user_id" = .ok (.num (JSNum.ofNat 7)) ∧
    JSON.parse "\x7b\"destinations\":[]\x7d" = .ok (.obj [("destinations", .arr [])]) ∧
    (PlanningView.applyFilters (constBackend true "\x7b\"destinations\":[]\x7d") sampleUser
        (filtersState "500" "" "Beach") emptyWorld).2.1.step = "filtered" ∧
    (PlanningView.applyFilters (constBackend true "\x7b\"destinations\":[]\x7d") sampleUser
        (filtersState "500" "" "Beach") emptyWorld).2.1.filteredDestinations = .arr [] ∧
    (Page.run sampleVisit Page.initial emptyWorld).1.step = some "suggestions" ∧
    (Page.run
        [.planning (.applyFilters (constBackend true "\x7b\"destinations\":[]\x7d")),
         .planning .tryDifferentFilters]
        (Page.run sampleVisit Page.initial emptyWorld).1
        (Page.run sampleVisit Page.initial emptyWorld).2).1.step ≠ some "trip-details" :=
  ⟨rfl, rfl,
   (planning_flow_within_mount.1 (constBackend true "\x7b\"destinations\":[]\x7d") sampleUser
      (.num (JSNum.ofNat 7)) (filtersState "500" "" "Beach") emptyWorld
      "\x7b\"destinations\":[]\x7d" (.obj [("destinations", .arr [])]) (.arr [])
      rfl rfl rfl rfl).2.1,
   (planning_flow_within_mount.1 (constBackend true "\x7b\"destinations\":[]\x7d") sampleUser
      (.num (JSNum.ofNat 7)) (filtersState "500" "" "Beach") emptyWorld
      "\x7b\"destinations\":[]\x7d" (.obj [("destinations", .arr [])]) (.arr [])
      rfl rfl rfl rfl).2.2.2.2 [] rfl,
   rfl,
   planning_flow_within_mount.2.2.2.2.2.2.1
      [.planning (.applyFilters (constBackend true "\x7b\"destinations\":[]\x7d")),
       .planning .tryDifferentFilters]
      (Page.run sampleVisit Page.initial emptyWorld).1
      (Page.run sampleVisit Page.initial emptyWorld).2
      (fun k hk => by
        have h0 : (Page.run sampleVisit Page.initial emptyWorld).1.step = some "suggestions" := rfl
        have h1 : (Page.run
            [.planning (.applyFilters (constBackend true "\x7b\"destinations\":[]\x7d"))]
            (Page.run sampleVisit Page.initial emptyWorld).1
            (Page.run sampleVisit Page.initial emptyWorld).2).1.step = some "filtered" := rfl
        have h2 : (Page.run
            [.planning (.applyFilters (constBackend true "\x7b\"destinations\":[]\x7d")),
             .planning .tryDifferentFilters]
            (Page.run sampleVisit Page.initial emptyWorld).1
            (Page.run sampleVisit Page.initial emptyWorld).2).1.step = some "suggestions" := rfl
        have hk2 : k ≤ 2 := hk
        interval_cases k
        · rw [List.take_zero]; exact fun h => Option.noConfusion (h0.symm.trans h)
        · exact fun h => Option.noConfusion (h1.symm.trans h)
        · exact fun h => Option.noConfusion (h2.symm.trans h))
      (fun h => by
        have h0 : (Page.run sampleVisit Page.initial emptyWorld).1.step = some "suggestions" := rfl
        rw [h0] at h
        exact absurd h (by decide))⟩

/-- C9, counterexample: the user logs in, fills in the trip form and submits
it, the backend accepting both requests, and the planning step is
`'suggestions'`. `My Trips` then shows the trips view, where no `PlanningView`
is mounted, and `Plan Trip` shows the planning view again with a newly mounted
instance: the planning step is back at `'trip-details'`. -/
theorem planning_step_returns_after_remount :
    (Page.run sampleVisit Page.initial emptyWorld).1.app.currentView = "main" ∧
    (Page.run sampleVisit Page.initial emptyWorld).1.step = some "suggestions" ∧
    (Page.run (sampleVisit ++ [.app .myTrips]) Page.initial emptyWorld).1.app.currentView =
      "trips" ∧
    (Page.run (sampleVisit ++ [.app .myTrips]) Page.initial emptyWorld).1.step = none ∧
    (Page.run (sampleVisit ++ [.app .myTrips, .app .planTrip])
      Page.initial emptyWorld).1.app.currentView = "main" ∧
    (Page.run (sampleVisit ++ [.app .myTrips, .app .planTrip])
      Page.initial emptyWorld).1.step = some "trip-details" :=
  ⟨rfl, rfl, rfl, rfl, rfl, rfl⟩

theorem stringifyValue_obj (props : List (String × JSVal)) :
    ∃ text, stringifyValue (.obj props) = .str text := by
  simp only [stringifyValue, JSON.stringify, JSON.serialize, JSVal.str.injEq, exists_eq']

theorem handleLogin_state (backend : Backend) (credentials : JSVal) (s : AppState) (w : World) :
    ((TravelPlannerApp.handleLogin backend credentials s w).2.1.currentView = s.currentView ∧
      ((TravelPlannerApp.handleLogin backend credentials s w).2.1.user = s.user ∨
       ∃ props, (TravelPlannerApp.handleLogin backend credentials s w).2.1.user = .obj props)) ∨
    ((TravelPlannerApp.handleLogin backend credentials s w).2.1.currentView = "main" ∧
      ∃ props, (TravelPlannerApp.handleLogin backend credentials s w).2.1.user = .obj props) := by
  simp only [TravelPlannerApp.handleLogin, JS.tryCatch, Bind.bind, JS.seq, api_post_eq, prop,
    JS.liftExcept, TravelPlannerApp.setToken, TravelPlannerApp.setUser,
    TravelPlannerApp.setCurrentView, JS.modifyState, localStorage.setItem, JS.modifyWorld,
    Pure.pure, JS.ret]
  generalize (match backend (postRequest "/auth/login" credentials) with
    | .networkError message => (Except.error (JSError.typeError message) : Except JSError JSVal)
    | .response true body => JSON.parse body
    | .response false body =>
      match JSON.parse body with
      | .error e => .error e
      | .ok error =>
        match getProp error "detail" with
        | .error e => .error e
        | .ok detail =>
          match toJSString (jsOr detail (.str "API request failed")) with
          | .error e => .error e
          | .ok message => .error (JSError.mkError message)) = res
  cases res with
  | error e => exact Or.inl ⟨rfl, Or.inl rfl⟩
  | ok result =>
    simp only []
    cases getProp result "token" with
    | error e => exact Or.inl ⟨rfl, Or.inl rfl⟩
    | ok tok =>
      simp only []
      cases getProp result "user_id" with
      | error e => exact Or.inl ⟨rfl, Or.inl rfl⟩
      | ok uid =>
        simp only []
        cases getProp result "username" with
        | error e => exact Or.inl ⟨rfl, Or.inl rfl⟩
        | ok uname =>
          simp only []
          cases toJSString tok with
          | error e => exact Or.inl ⟨rfl, Or.inr ⟨_, rfl⟩⟩
          | ok text =>
            simp only []
            obtain ⟨userText, hu⟩ := stringifyValue_obj [("user_id", uid), ("username", uname)]
            rw [hu]
            simp only [toJSString_str]
            right
            simp

theorem handleSignup_state (backend : Backend) (credentials : JSVal) (s : AppState) (w : World) :
    ((TravelPlannerApp.handleSignup backend credentials s w).2.1.currentView = s.currentView ∧
      ((TravelPlannerApp.handleSignup backend credentials s w).2.1.user = s.user ∨
       ∃ props, (TravelPlannerApp.handleSignup backend credentials s w).2.1.user = .obj props)) ∨
    ((TravelPlannerApp.handleSignup backend credentials s w).2.1.currentView = "main" ∧
      ∃ props, (TravelPlannerApp.handleSignup backend credentials s w).2.1.user = .obj props) := by
  simp only [TravelPlannerApp.handleSignup, JS.tryCatch, Bind.bind, JS.seq, api_post_eq, prop,
    JS.liftExcept, TravelPlannerApp.setToken, TravelPlannerApp.setUser,
    TravelPlannerApp.setCurrentView, JS.modifyState, localStorage.setItem, JS.modifyWorld,
    Pure.pure, JS.ret]
  generalize (match backend (postRequest "/auth/signup" credentials) with
    | .networkError message => (Except.error (JSError.typeError message) : Except JSError JSVal)
    | .response true body => JSON.parse body
    | .response false body =>
      match JSON.parse body with
      | .error e => .error e
      | .ok error =>
        match getProp error "detail" with
        | .error e => .error e
        | .ok detail =>
          match toJSString (jsOr detail (.str "API request failed")) with
          | .error e => .error e
          | .ok message => .error (JSError.mkError message)) = res
  cases res with
  | error e => exact Or.inl ⟨rfl, Or.inl rfl⟩
  | ok result =>
    simp only []
    cases getProp result "token" with
    | error e => exact Or.inl ⟨rfl, Or.inl rfl⟩
    | ok tok =>
      simp only []
      cases getProp result "user_id" with
      | error e => exact Or.inl ⟨rfl, Or.inl rfl⟩
      | ok uid =>
        simp only []
        cases getProp result "username" with
        | error e => exact Or.inl ⟨rfl, Or.inl rfl⟩
        | ok uname =>
          simp only []
          cases toJSString tok with
          | error e => exact Or.inl ⟨rfl, Or.inr ⟨_, rfl⟩⟩
          | ok text =>
            simp only []
            obtain ⟨userText, hu⟩ := stringifyValue_obj [("user_id", uid), ("username", uname)]
            rw [hu]
            simp only [toJSString_str]
            right
            simp

theorem sessionOk_of_handler (s s1 : AppState) (hs : SessionOk s)
    (h : (s1.currentView = s.currentView ∧ (s1.user = s.user ∨ ∃ props, s1.user = .obj props)) ∨
         (s1.currentView = "main" ∧ ∃ props, s1.user = .obj props)) : SessionOk s1 := by
  rcases h with ⟨hv, hu⟩ | ⟨hv, hu⟩
  · refine ⟨by rw [hv]; exact hs.1, ?_⟩
    intro hne
    rcases hu with hu | hu
    · rw [hu]; exact hs.2 (by rw [← hv]; exact hne)
    · exact hu
  · exact ⟨Or.inr (Or.inl hv), fun _ => hu⟩

theorem render_authView (s : AppState) (screen : AppScreen)
    (h : TravelPlannerApp.render s = .ok screen) :
    (screen = .authView ↔ s.currentView = "auth") ∧
    (screen ≠ .authView → ∃ v, getProp s.user "username" = .ok v) := by
  unfold TravelPlannerApp.render at h
  by_cases h1 : s.currentView = "auth"
  · rw [if_pos h1] at h
    cases h
    exact ⟨⟨fun _ => h1, fun _ => rfl⟩, fun hc => absurd rfl hc⟩
  · rw [if_neg h1] at h
    cases hg : getProp s.user "username" with
    | error e => rw [hg] at h; cases h
    | ok v =>
      rw [hg] at h
      simp only [] at h
      refine ⟨⟨fun hc => ?_, fun hc => absurd hc h1⟩, fun _ => ⟨v, rfl⟩⟩
      subst hc
      split at h
      · cases h
      · split at h <;> cases h

theorem getProp_ok_not_null (v : JSVal) (name : String) (x : JSVal)
    (h : getProp v name = .ok x) : v ≠ .null ∧ v ≠ .undefined := by
  constructor <;> intro hv <;> subst hv <;> simp [getProp] at h

theorem seq_ret_snd {σ α : Type} (m : JS σ α) (s : σ) (w : World) :
    (JS.seq m (fun _ => (JS.ret () : JS σ Unit)) s w).2 = (m s w).2 := by
  unfold JS.seq JS.ret
  rcases m s w with ⟨r, s1, w1⟩
  cases r <;> rfl

theorem perform_login_snd (backend : Backend) (credentials : JSVal) (s : AppState) (w : World) :
    (TravelPlannerApp.perform (.login backend credentials) s w).2 =
      (TravelPlannerApp.handleLogin backend credentials s w).2 :=
  seq_ret_snd _ s w

theorem perform_signup_snd (backend : Backend) (credentials : JSVal) (s : AppState) (w : World) :
    (TravelPlannerApp.perform (.signup backend credentials) s w).2 =
      (TravelPlannerApp.handleSignup backend credentials s w).2 :=
  seq_ret_snd _ s w

theorem act_sessionOk (a : AppAction) (s : AppState) (w : World) (hs : SessionOk s) :
    SessionOk (TravelPlannerApp.act a s w).1 := by
  unfold TravelPlannerApp.act
  cases hr : TravelPlannerApp.render s with
  | error e => exact hs
  | ok screen =>
    simp only []
    have hscreen := render_authView s screen hr
    by_cases ho : TravelPlannerApp.offers screen a = true
    · simp only [ho, if_true]
      cases a with
      | login backend credentials =>
        rw [perform_login_snd]
        exact sessionOk_of_handler s _ hs (handleLogin_state backend credentials s w)
      | signup backend credentials =>
        rw [perform_signup_snd]
        exact sessionOk_of_handler s _ hs (handleSignup_state backend credentials s w)
      | setMode mode => exact hs
      | planTrip =>
        have hne : screen ≠ .authView := by
          simpa [TravelPlannerApp.offers] using ho
        have hview : s.currentView ≠ "auth" := fun hc => hne (hscreen.1.mpr hc)
        exact ⟨Or.inr (Or.inl rfl), fun _ => hs.2 hview⟩
      | myTrips =>
        have hne : screen ≠ .authView := by
          simpa [TravelPlannerApp.offers] using ho
        have hview : s.currentView ≠ "auth" := fun hc => hne (hscreen.1.mpr hc)
        exact ⟨Or.inr (Or.inr rfl), fun _ => hs.2 hview⟩
      | logout => exact ⟨Or.inl rfl, fun hne => absurd rfl hne⟩
    · simp only [ho, if_false]
      exact hs

theorem run_sessionOk (actions : List AppAction) (s : AppState) (w : World) (hs : SessionOk s) :
    SessionOk (TravelPlannerApp.run actions s w).1 := by
  induction actions generalizing s w with
  | nil => exact hs
  | cons a rest ih =>
    unfold TravelPlannerApp.run
    exact ih _ _ (act_sessionOk a s w hs)

theorem sessionOk_initial : SessionOk TravelPlannerApp.initialState :=
  ⟨Or.inl rfl, fun h => absurd rfl h⟩

theorem render_ok_of_sessionOk (s : AppState) (hs : SessionOk s) :
    ∃ screen, TravelPlannerApp.render s = .ok screen := by
  unfold TravelPlannerApp.render
  by_cases h1 : s.currentView = "auth"
  · exact ⟨_, by rw [if_pos h1]⟩
  · obtain ⟨props, hp⟩ := hs.2 h1
    rw [if_neg h1, hp]
    simp only [getProp]
    cases props.lookup "username" <;> simp only [] <;> split <;>
      first | exact ⟨_, rfl⟩ | (split <;> exact ⟨_, rfl⟩)

/-- C12: in every state reached from the initial state (`user = null`,
`token = null`, `currentView = 'auth'`), whatever the storage holds, by any
sequence of login and signup attempts (whatever the backend answers), mode
switches of the form, `Logout` and the navigation buttons `Plan Trip` and
`My Trips` that `MainApp` renders, `currentView` is `'auth'`, `'main'` or
`'trips'`; whenever it is not `'auth'` the user is an object, not `null`, so
the reads `user.username` of `MainApp` and `user.user_id` of the planning and
trips views do not raise, and the render of the application does not raise.
Each of `handleLogin`, `handleSignup` and `handleLogout`, run in any state with
these two properties, keeps them, whatever the backend answers. -/
theorem session_never_null (actions : List AppAction) (w : World) :
    ((TravelPlannerApp.run actions TravelPlannerApp.initialState w).1.currentView = "auth" ∨
     (TravelPlannerApp.run actions TravelPlannerApp.initialState w).1.currentView = "main" ∨
     (TravelPlannerApp.run actions TravelPlannerApp.initialState w).1.currentView = "trips") ∧
    ((TravelPlannerApp.run actions TravelPlannerApp.initialState w).1.currentView ≠ "auth" →
      (TravelPlannerApp.run actions TravelPlannerApp.initialState w).1.user ≠ .null ∧
      (TravelPlannerApp.run actions TravelPlannerApp.initialState w).1.user ≠ .undefined ∧
      (∃ props, (TravelPlannerApp.run actions TravelPlannerApp.initialState w).1.user = .obj props) ∧
      (∃ v, getProp (TravelPlannerApp.run actions TravelPlannerApp.initialState w).1.user
              "username" = .ok v) ∧
      (∃ v, getProp (TravelPlannerApp.run actions TravelPlannerApp.initialState w).1.user
              "user_id" = .ok v)) ∧
    (∃ screen,
      TravelPlannerApp.render (TravelPlannerApp.run actions TravelPlannerApp.initialState w).1 =
        .ok screen) ∧
    (∀ (backend : Backend) (credentials : JSVal) (s1 : AppState) (w1 : World), SessionOk s1 →
      SessionOk (TravelPlannerApp.handleLogin backend credentials s1 w1).2.1 ∧
      SessionOk (TravelPlannerApp.handleSignup backend credentials s1 w1).2.1 ∧
      SessionOk (TravelPlannerApp.handleLogout s1 w1).2.1) := by
  have hs := run_sessionOk actions TravelPlannerApp.initialState w sessionOk_initial
  refine ⟨hs.1, ?_, render_ok_of_sessionOk _ hs, fun backend credentials s1 w1 h1 =>
    ⟨sessionOk_of_handler s1 _ h1 (handleLogin_state backend credentials s1 w1),
     sessionOk_of_handler s1 _ h1 (handleSignup_state backend credentials s1 w1),
     ⟨Or.inl rfl, fun hne => absurd rfl hne⟩⟩⟩
  intro hne
  obtain ⟨props, hp⟩ := hs.2 hne
  rw [hp]
  refine ⟨by simp, by simp, ⟨props, rfl⟩, ?_, ?_⟩
  · simp only [getProp]
    cases props.lookup "username" <;> exact ⟨_, rfl⟩
  · simp only [getProp]
    cases props.lookup "user_id" <;> exact ⟨_, rfl⟩

theorem session_never_null_witness :
    (TravelPlannerApp.run
        [.login (constBackend true sampleLoginBody) sampleCredentials, .myTrips]
        TravelPlannerApp.initialState emptyWorld).1.currentView = "trips" ∧
    (TravelPlannerApp.run
        [.login (constBackend true sampleLoginBody) sampleCredentials, .myTrips]
        TravelPlannerApp.initialState emptyWorld).1.user ≠ .null :=
  ⟨rfl,
   ((session_never_null
      [.login (constBackend true sampleLoginBody) sampleCredentials, .myTrips] emptyWorld).2.1
      (by
        have h : (TravelPlannerApp.run
            [.login (constBackend true sampleLoginBody) sampleCredentials, .myTrips]
            TravelPlannerApp.initialState emptyWorld).1.currentView = "trips" := rfl
        rw [h]
        decide)).1⟩

theorem quoteChar_control (n : Nat) (hn : n < 32)
    (h8 : n ≠ 8) (h9 : n ≠ 9) (h10 : n ≠ 10) (h12 : n ≠ 12) (h13 : n ≠ 13) :
    ((hexDigit (n / 16)).toNat = 48 + n / 16) ∧
    hex4 48 48 (48 + n / 16) (hexDigit (n % 16)).toNat = some n := by
  interval_cases n <;> first | contradiction | decide

theorem parseStringBody_quoteChar (c : Char) (fuel : Nat) (rest : List Nat) (acc : List Char) :
    parseStringBody (fuel + 1) ((quoteChar c).map Char.toNat ++ rest) none acc =
      parseStringBody fuel rest none (c :: acc) := by
  have hc : Char.ofNat c.toNat = c := Char.ofNat_toNat c
  unfold quoteChar
  simp only []
  by_cases h8 : c.toNat = 8
  · rw [if_pos h8, ← hc, h8]; rfl
  rw [if_neg h8]
  by_cases h9 : c.toNat = 9
  · rw [if_pos h9, ← hc, h9]; rfl
  rw [if_neg h9]
  by_cases h10 : c.toNat = 10
  · rw [if_pos h10, ← hc, h10]; rfl
  rw [if_neg h10]
  by_cases h12 : c.toNat = 12
  · rw [if_pos h12, ← hc, h12]; rfl
  rw [if_neg h12]
  by_cases h13 : c.toNat = 13
  · rw [if_pos h13, ← hc, h13]; rfl
  rw [if_neg h13]
  by_cases h34 : c.toNat = 34
  · rw [if_pos h34, ← hc, h34]; rfl
  rw [if_neg h34]
  by_cases h92 : c.toNat = 92
  · rw [if_pos h92, ← hc, h92]; rfl
  rw [if_neg h92]
  by_cases hlt : c.toNat < 32
  · rw [if_pos hlt]
    obtain ⟨hd1, hd2⟩ := quoteChar_control c.toNat hlt h8 h9 h10 h12 h13
    have e92 : (Char.ofNat 92).toNat = 92 := by decide
    have e117 : (Char.ofNat 117).toNat = 117 := by decide
    have e48 : (Char.ofNat 48).toNat = 48 := by decide
    simp only [List.map_cons, List.map_nil, e92, e117, e48, hd1, List.cons_append, List.nil_append]
    have hsur1 : ¬ (55296 ≤ c.toNat ∧ c.toNat ≤ 56319) := by omega
    have hsur2 : ¬ (56320 ≤ c.toNat ∧ c.toNat ≤ 57343) := by omega
    simp only [parseStringBody, hd2, hsur1, hsur2, if_false, hc]
    simp
  · rw [if_neg hlt]
    simp only [List.map_cons, List.map_nil, List.cons_append, List.nil_append]
    simp only [parseStringBody, h34, h92, hlt, if_false, hc]

theorem quoteChar_length_pos (c : Char) : 1 ≤ (quoteChar c).length := by
  unfold quoteChar
  simp only []
  repeat' split
  all_goals simp

theorem quoted_length_ge (l : List Char) : l.length ≤ (l.map quoteChar).flatten.length := by
  induction l with
  | nil => simp
  | cons c l ih =>
    simp only [List.map_cons, List.flatten_cons, List.length_append, List.length_cons]
    have := quoteChar_length_pos c
    omega

theorem parseStringBody_quoted (l : List Char) (fuel : Nat) (rest : List Nat) (acc : List Char)
    (hf : l.length < fuel) :
    parseStringBody fuel ((l.map quoteChar).flatten.map Char.toNat ++ 34 :: rest) none acc =
      some (String.mk (acc.reverse ++ l), rest) := by
  induction l generalizing fuel acc with
  | nil =>
    obtain ⟨f, rfl⟩ : ∃ f, fuel = f + 1 := ⟨fuel - 1, by simp at hf; omega⟩
    simp [parseStringBody]
  | cons c l ih =>
    obtain ⟨f, rfl⟩ : ∃ f, fuel = f + 1 := ⟨fuel - 1, by simp at hf; omega⟩
    simp only [List.map_cons, List.flatten_cons, List.map_append, List.append_assoc]
    rw [parseStringBody_quoteChar]
    rw [ih f (c :: acc) (by simp at hf; omega)]
    simp

theorem parseString_quoted (s : String) (rest : List Nat) :
    parseString ((s.data.map quoteChar).flatten.map Char.toNat ++ 34 :: rest) =
      some (s, rest) := by
  unfold parseString
  rw [parseStringBody_quoted]
  · simp
  · have := quoted_length_ge s.data
    simp only [List.length_append, List.length_map, List.length_cons]
    omega

theorem quoteJSONString_codes (s : String) (rest : List Nat) :
    (quoteJSONString s).data.map Char.toNat ++ rest =
      34 :: ((s.data.map quoteChar).flatten.map Char.toNat ++ 34 :: rest) := by
  have e34 : (Char.ofNat 34).toNat = 34 := by decide
  simp [quoteJSONString, e34]

theorem parseValue_quoted (s : String) (fuel : Nat) (rest : List Nat) :
    parseValue (fuel + 1) ((quoteJSONString s).data.map Char.toNat ++ rest) =
      some (.str s, rest) := by
  rw [quoteJSONString_codes]
  simp only [parseValue]
  rw [if_neg (by decide), if_neg (by decide), if_pos trivial, parseString_quoted]

theorem natDigitsAux_eq (m : Nat) :
    ∀ (fuel : Nat) (acc : List Char), m < fuel →
      natDigitsAux fuel m acc = natDigitsAux (m + 1) m [] ++ acc := by
  induction m using Nat.strong_induction_on with
  | _ m ih =>
    intro fuel acc hf
    obtain ⟨f, rfl⟩ : ∃ f, fuel = f + 1 := ⟨fuel - 1, by omega⟩
    by_cases h0 : m / 10 = 0
    · simp only [natDigitsAux, h0, if_true, List.singleton_append]
    · have hlt : m / 10 < m := by omega
      simp only [natDigitsAux, h0, if_false]
      rw [ih (m / 10) hlt f _ (by omega), ih (m / 10) hlt m _ hlt]
      simp

theorem natDigits_rec (m : Nat) :
    natDigits m =
      if m / 10 = 0 then [Char.ofNat (48 + m % 10)]
      else natDigits (m / 10) ++ [Char.ofNat (48 + m % 10)] := by
  by_cases h0 : m / 10 = 0
  · simp only [natDigits, natDigitsAux, h0, if_true]
  · have hlt : m / 10 < m := by omega
    rw [if_neg h0]
    have e : natDigits m = natDigitsAux m (m / 10) [Char.ofNat (48 + m % 10)] := by
      simp only [natDigits, natDigitsAux, h0, if_false]
    rw [e, natDigitsAux_eq (m / 10) m _ hlt]
    rfl

theorem digit_toNat (d : Nat) (hd : d < 10) : (Char.ofNat (48 + d)).toNat = 48 + d := by
  interval_cases d <;> decide

theorem digitsValue_append_digit (l : List Nat) (c : Nat) :
    digitsValue (l ++ [c]) = digitsValue l * 10 + (c - 48) := by
  simp [digitsValue, List.foldl_append]

theorem digitsValue_natDigits (n : Nat) : digitsValue ((natDigits n).map Char.toNat) = n := by
  induction n using Nat.strong_induction_on with
  | _ n ih =>
    rw [natDigits_rec]
    by_cases h0 : n / 10 = 0
    · rw [if_pos h0]
      simp only [List.map_cons, List.map_nil, digit_toNat _ (Nat.mod_lt n (by decide))]
      simp only [digitsValue, List.foldl_cons, List.foldl_nil]
      omega
    · rw [if_neg h0]
      have hlt : n / 10 < n := by omega
      simp only [List.map_append, List.map_cons, List.map_nil,
        digit_toNat _ (Nat.mod_lt n (by decide)), digitsValue_append_digit, ih (n / 10) hlt]
      omega

theorem natDigits_all_digits (n : Nat) : ∀ c ∈ (natDigits n).map Char.toNat, isDigit c = true := by
  induction n using Nat.strong_induction_on with
  | _ n ih =>
    have hd : isDigit (48 + n % 10) = true := by
      have := Nat.mod_lt n (show 0 < 10 by decide)
      simp only [isDigit, Bool.and_eq_true, decide_eq_true_eq]
      omega
    rw [natDigits_rec]
    by_cases h0 : n / 10 = 0
    · rw [if_pos h0]
      intro c hc
      simp only [List.map_cons, List.map_nil, digit_toNat _ (Nat.mod_lt n (by decide)),
        List.mem_singleton] at hc
      rw [hc]; exact hd
    · rw [if_neg h0]
      have hlt : n / 10 < n := by omega
      intro c hc
      simp only [List.map_append, List.map_cons, List.map_nil,
        digit_toNat _ (Nat.mod_lt n (by decide)), List.mem_append, List.mem_singleton] at hc
      rcases hc with hc | hc
      · exact ih (n / 10) hlt c hc
      · rw [hc]; exact hd

theorem natDigits_head (n : Nat) (hn : 0 < n) :
    ∃ c tl, (natDigits n).map Char.toNat = c :: tl ∧ 49 ≤ c ∧ c ≤ 57 := by
  induction n using Nat.strong_induction_on with
  | _ n ih =>
    rw [natDigits_rec]
    by_cases h0 : n / 10 = 0
    · rw [if_pos h0]
      refine ⟨48 + n % 10, [], ?_, ?_, ?_⟩
      · simp only [List.map_cons, List.map_nil, digit_toNat _ (Nat.mod_lt n (by decide))]
      · omega
      · omega
    · rw [if_neg h0]
      have hlt : n / 10 < n := by omega
      obtain ⟨c, tl, he, h1, h2⟩ := ih (n / 10) hlt (by omega)
      refine ⟨c, tl ++ [48 + n % 10], ?_, h1, h2⟩
      simp only [List.map_append, List.map_cons, List.map_nil,
        digit_toNat _ (Nat.mod_lt n (by decide)), he, List.cons_append]

theorem natDigits_length_bounds (n : Nat) (hn : 0 < n) :
    10 ^ ((natDigits n).length - 1) ≤ n ∧ n < 10 ^ (natDigits n).length ∧
    1 ≤ (natDigits n).length := by
  induction n using Nat.strong_induction_on with
  | _ n ih =>
    rw [natDigits_rec]
    by_cases h0 : n / 10 = 0
    · rw [if_pos h0]
      simp only [List.length_singleton, Nat.sub_self, pow_zero, pow_one, le_refl, and_true]
      omega
    · rw [if_neg h0]
      have hlt : n / 10 < n := by omega
      obtain ⟨h1, h2, h3⟩ := ih (n / 10) hlt (by omega)
      simp only [List.length_append, List.length_singleton, Nat.add_sub_cancel]
      refine ⟨?_, ?_, by omega⟩
      · obtain ⟨j, hj⟩ : ∃ j, (natDigits (n / 10)).length = j + 1 := ⟨_, (Nat.sub_add_cancel h3).symm⟩
        rw [hj] at h1 ⊢
        simp only [Nat.add_sub_cancel] at h1
        rw [pow_succ]
        omega
      · rw [pow_succ]
        omega

theorem natDigits_mul_pow (s x : Nat) (hs : 0 < s) :
    natDigits (s * 10 ^ x) = natDigits s ++ zeros x := by
  induction x with
  | zero => simp [zeros]
  | succ x ih =>
    have hpos : 0 < s * 10 ^ x := Nat.mul_pos hs (pow_pos (by decide) _)
    rw [natDigits_rec]
    have e1 : s * 10 ^ (x + 1) / 10 = s * 10 ^ x := by
      rw [pow_succ, ← Nat.mul_assoc]; exact Nat.mul_div_cancel _ (by decide)
    have e2 : s * 10 ^ (x + 1) % 10 = 0 := by
      rw [pow_succ, ← Nat.mul_assoc]; exact Nat.mul_mod_left _ _
    rw [e1, e2, if_neg (by omega), ih]
    simp [zeros, List.replicate_succ']

theorem stripZerosAux_spec (fuel n : Nat) (hn : 0 < n) :
    0 < stripZerosAux fuel n ∧ ∃ z, n = stripZerosAux fuel n * 10 ^ z := by
  induction fuel generalizing n with
  | zero => exact ⟨hn, 0, by simp [stripZerosAux]⟩
  | succ fuel ih =>
    unfold stripZerosAux
    by_cases h : n ≠ 0 ∧ n % 10 = 0
    · rw [if_pos h]
      obtain ⟨hp, z, hz⟩ := ih (n / 10) (by omega)
      refine ⟨hp, z + 1, ?_⟩
      rw [pow_succ, ← Nat.mul_assoc, ← hz]
      omega
    · rw [if_neg h]
      exact ⟨hn, 0, by simp⟩

theorem lt_two_pow_log2Aux (fuel n : Nat) (h : n < 2 ^ fuel) : n < 2 ^ (log2Aux fuel n + 1) := by
  induction fuel generalizing n with
  | zero =>
    simp only [pow_zero, Nat.lt_one_iff] at h
    subst h
    exact pow_pos (by decide) _
  | succ fuel ih =>
    unfold log2Aux
    by_cases h2 : n < 2
    · simp only [h2, if_true]
      simpa using h2
    · simp only [h2, if_false]
      have hh : n / 2 < 2 ^ fuel := by
        rw [pow_succ] at h
        omega
      have := ih (n / 2) hh
      rw [pow_succ]
      omega

theorem lt_two_pow_log2 (n : Nat) : n < 2 ^ (log2 n + 1) :=
  lt_two_pow_log2Aux n n (Nat.lt_two_pow n)

theorem zeros_length (n : Nat) : (zeros n).length = n := by
  simp [zeros]

theorem span_digits_append (ds : List Nat) (t : Nat) (rest : List Nat)
    (hall : ∀ c ∈ ds, isDigit c = true) (ht : isDigit t = false) :
    (ds ++ t :: rest).span isDigit = (ds, t :: rest) := by
  rw [List.span_eq_take_drop, List.takeWhile_append_of_pos hall, List.dropWhile_append_of_pos hall]
  simp [List.takeWhile_cons, List.dropWhile_cons, ht]

theorem skipWs_cons (c : Nat) (l : List Nat) (h : isJSONWs c = false) : skipWs (c :: l) = c :: l := by
  simp [skipWs, List.dropWhile_cons, h]

/-! ### roundBinary64 rounds to nearest -/

theorem scale2_eq (m : Nat) (p : Int) : scale2 m p = (m : ℚ) * (2 : ℚ) ^ p := by
  unfold scale2
  split
  · rename_i h
    rw [Rat.mkRat_eq_div]
    obtain ⟨k, rfl⟩ := Int.eq_ofNat_of_zero_le h
    simp
  · rename_i h
    rw [Rat.mkRat_eq_div]
    obtain ⟨k, hk⟩ : ∃ k : Nat, p = -(k : Int) := ⟨(-p).toNat, by omega⟩
    subst hk
    simp [div_eq_mul_inv]

theorem log2_bounds_rat (n : Nat) (hn : 0 < n) :
    (2 : ℚ) ^ (log2 n : Int) ≤ (n : ℚ) ∧ (n : ℚ) < (2 : ℚ) ^ ((log2 n : Int) + 1) := by
  have h1 : (2 : Nat) ^ log2 n ≤ n := two_pow_log2Aux_le n n hn
  have h2 := lt_two_pow_log2 n
  constructor
  · rw [zpow_natCast]
    exact_mod_cast h1
  · have : ((log2 n : Int) + 1) = ((log2 n + 1 : Nat) : Int) := by push_cast; rfl
    rw [this, zpow_natCast]
    exact_mod_cast h2

theorem zpow_two_pos (e : Int) : (0 : ℚ) < (2 : ℚ) ^ e := zpow_pos (by norm_num) e

theorem zpow_two_lt_iff (a b : Int) : (2 : ℚ) ^ a < (2 : ℚ) ^ b ↔ a < b :=
  zpow_lt_zpow_iff_right₀ (by norm_num)

theorem zpow_two_le_iff (a b : Int) : (2 : ℚ) ^ a ≤ (2 : ℚ) ^ b ↔ a ≤ b :=
  zpow_le_zpow_iff_right₀ (by norm_num)

theorem binade_unique (x : ℚ) (f g : Int)
    (hf1 : (2 : ℚ) ^ f ≤ x) (hf2 : x < (2 : ℚ) ^ (f + 1))
    (hg1 : (2 : ℚ) ^ g ≤ x) (hg2 : x < (2 : ℚ) ^ (g + 1)) : f = g := by
  have h1 : f < g + 1 := (zpow_two_lt_iff _ _).1 (lt_of_le_of_lt hf1 hg2)
  have h2 : g < f + 1 := (zpow_two_lt_iff _ _).1 (lt_of_le_of_lt hg1 hf2)
  omega

theorem floorLog2_spec (num den : Nat) (hn : 0 < num) (hd : 0 < den) :
    (2 : ℚ) ^ (floorLog2 num den) ≤ (num : ℚ) / (den : ℚ) ∧
    (num : ℚ) / (den : ℚ) < (2 : ℚ) ^ (floorLog2 num den + 1) := by
  obtain ⟨hn1, hn2⟩ := log2_bounds_rat num hn
  obtain ⟨hd1, hd2⟩ := log2_bounds_rat den hd
  have hdq : (0 : ℚ) < (den : ℚ) := by exact_mod_cast hd
  have hnq : (0 : ℚ) < (num : ℚ) := by exact_mod_cast hn
  -- general bounds
  have hlow : (2 : ℚ) ^ ((log2 num : Int) - (log2 den : Int) - 1) < (num : ℚ) / (den : ℚ) := by
    rw [lt_div_iff₀ hdq]
    have e : (2 : ℚ) ^ ((log2 num : Int) - (log2 den : Int) - 1) * (2 : ℚ) ^ ((log2 den : Int) + 1) =
        (2 : ℚ) ^ (log2 num : Int) := by
      rw [← zpow_add₀ (by norm_num : (2 : ℚ) ≠ 0)]
      congr 1
      ring
    calc (2 : ℚ) ^ ((log2 num : Int) - (log2 den : Int) - 1) * (den : ℚ)
        < (2 : ℚ) ^ ((log2 num : Int) - (log2 den : Int) - 1) * (2 : ℚ) ^ ((log2 den : Int) + 1) :=
          mul_lt_mul_of_pos_left hd2 (zpow_two_pos _)
      _ = (2 : ℚ) ^ (log2 num : Int) := e
      _ ≤ (num : ℚ) := hn1
  have hup : (num : ℚ) / (den : ℚ) < (2 : ℚ) ^ ((log2 num : Int) - (log2 den : Int) + 1) := by
    rw [div_lt_iff₀ hdq]
    have e : (2 : ℚ) ^ ((log2 num : Int) - (log2 den : Int) + 1) * (2 : ℚ) ^ (log2 den : Int) =
        (2 : ℚ) ^ ((log2 num : Int) + 1) := by
      rw [← zpow_add₀ (by norm_num : (2 : ℚ) ≠ 0)]
      congr 1
      ring
    calc (num : ℚ) < (2 : ℚ) ^ ((log2 num : Int) + 1) := hn2
      _ = (2 : ℚ) ^ ((log2 num : Int) - (log2 den : Int) + 1) * (2 : ℚ) ^ (log2 den : Int) := e.symm
      _ ≤ (2 : ℚ) ^ ((log2 num : Int) - (log2 den : Int) + 1) * (den : ℚ) :=
          mul_le_mul_of_nonneg_left hd1 (le_of_lt (zpow_two_pos _))
  have hat : (if 0 ≤ (log2 num : Int) - (log2 den : Int) then
        decide (den * 2 ^ ((log2 num : Int) - (log2 den : Int)).toNat ≤ num)
      else decide (den ≤ num * 2 ^ (-((log2 num : Int) - (log2 den : Int))).toNat)) = true ↔
      (2 : ℚ) ^ ((log2 num : Int) - (log2 den : Int)) ≤ (num : ℚ) / (den : ℚ) := by
    rw [le_div_iff₀ hdq]
    by_cases h0 : 0 ≤ (log2 num : Int) - (log2 den : Int)
    · rw [if_pos h0]
      obtain ⟨k, hk⟩ := Int.eq_ofNat_of_zero_le h0
      rw [hk, Int.toNat_ofNat, zpow_natCast, decide_eq_true_eq]
      constructor
      · intro h
        have : ((den * 2 ^ k : Nat) : ℚ) ≤ (num : ℚ) := by exact_mod_cast h
        push_cast at this
        linarith
      · intro h
        have : ((2 ^ k * den : Nat) : ℚ) ≤ (num : ℚ) := by push_cast; exact h
        have := (Nat.cast_le (α := ℚ)).1 this
        rw [Nat.mul_comm]
        exact this
    · rw [if_neg h0]
      obtain ⟨k, hk⟩ : ∃ k : Nat, (log2 num : Int) - (log2 den : Int) = -(k : Int) :=
        ⟨(-((log2 num : Int) - (log2 den : Int))).toNat, by omega⟩
      rw [hk, neg_neg, Int.toNat_ofNat, zpow_neg, zpow_natCast, decide_eq_true_eq]
      have hk2 : (0 : ℚ) < (2 : ℚ) ^ k := pow_pos (by norm_num) k
      rw [inv_mul_le_iff₀ hk2]
      constructor
      · intro h
        have : ((den : Nat) : ℚ) ≤ ((num * 2 ^ k : Nat) : ℚ) := by exact_mod_cast h
        push_cast at this
        linarith
      · intro h
        have : ((den : Nat) : ℚ) ≤ ((2 ^ k * num : Nat) : ℚ) := by push_cast; exact h
        have := (Nat.cast_le (α := ℚ)).1 this
        rw [Nat.mul_comm]
        exact this
  unfold floorLog2
  simp only []
  by_cases hA : (if 0 ≤ (log2 num : Int) - (log2 den : Int) then
        decide (den * 2 ^ ((log2 num : Int) - (log2 den : Int)).toNat ≤ num)
      else decide (den ≤ num * 2 ^ (-((log2 num : Int) - (log2 den : Int))).toNat)) = true
  · rw [if_pos hA]
    exact ⟨hat.1 hA, hup⟩
  · rw [if_neg hA]
    refine ⟨le_of_lt hlow, ?_⟩
    have : ¬ (2 : ℚ) ^ ((log2 num : Int) - (log2 den : Int)) ≤ (num : ℚ) / (den : ℚ) :=
      fun h => hA (hat.2 h)
    rw [sub_add_cancel]
    exact not_le.1 this

theorem floorLog2_eq (num den : Nat) (hn : 0 < num) (hd : 0 < den) (f : Int)
    (h1 : (2 : ℚ) ^ f ≤ (num : ℚ) / (den : ℚ)) (h2 : (num : ℚ) / (den : ℚ) < (2 : ℚ) ^ (f + 1)) :
    floorLog2 num den = f := by
  obtain ⟨g1, g2⟩ := floorLog2_spec num den hn hd
  exact binade_unique _ _ _ g1 g2 h1 h2

theorem divRoundHalfEven_eq_of_close (n d M : Nat) (hd : 0 < d)
    (h1 : 2 * (M * d) < 2 * n + d) (h2 : 2 * n < 2 * (M * d) + d) :
    divRoundHalfEven n d = M := by
  have hdm := Nat.div_add_mod n d
  have hr := Nat.mod_lt n hd
  have hcomm : d * (n / d) = n / d * d := Nat.mul_comm _ _
  rcases Nat.lt_trichotomy (n / d) M with hlt | heq | hgt
  · have hA : (n / d + 1) * d ≤ M * d := Nat.mul_le_mul_right d hlt
    rw [Nat.add_mul, Nat.one_mul] at hA
    have hM : M = n / d + 1 := by
      by_contra hne
      have h2' : n / d + 2 ≤ M := by omega
      have hB : (n / d + 2) * d ≤ M * d := Nat.mul_le_mul_right d h2'
      rw [Nat.add_mul] at hB
      omega
    unfold divRoundHalfEven
    simp only []
    rw [if_neg (by omega), if_pos (by omega)]
    exact hM.symm
  · unfold divRoundHalfEven
    simp only []
    rw [← heq] at h1 h2
    rw [if_pos (by omega)]
    exact heq
  · exfalso
    have hA : (M + 1) * d ≤ n / d * d := Nat.mul_le_mul_right d hgt
    rw [Nat.add_mul, Nat.one_mul] at hA
    omega

theorem divRoundHalfEven_of_rat (n d M : Nat) (hd : 0 < d)
    (h1 : (M : ℚ) - 1 / 2 < (n : ℚ) / (d : ℚ)) (h2 : (n : ℚ) / (d : ℚ) < (M : ℚ) + 1 / 2) :
    divRoundHalfEven n d = M := by
  have hdq : (0 : ℚ) < (d : ℚ) := by exact_mod_cast hd
  rw [lt_div_iff₀ hdq] at h1
  rw [div_lt_iff₀ hdq] at h2
  apply divRoundHalfEven_eq_of_close n d M hd
  · have : ((2 * (M * d) : Nat) : ℚ) < ((2 * n + d : Nat) : ℚ) := by
      push_cast
      linarith
    exact_mod_cast this
  · have : ((2 * n : Nat) : ℚ) < ((2 * (M * d) + d : Nat) : ℚ) := by
      push_cast
      linarith
    exact_mod_cast this

theorem divRoundHalfEven_le (n d K : Nat) (hd : 0 < d) (h : n ≤ K * d) :
    divRoundHalfEven n d ≤ K := by
  have hdm := Nat.div_add_mod n d
  have hr := Nat.mod_lt n hd
  have hcomm : d * (n / d) = n / d * d := Nat.mul_comm _ _
  have hq : n / d ≤ K := by
    have := Nat.div_le_div_right (c := d) h
    rwa [Nat.mul_div_cancel _ hd] at this
  rcases Nat.lt_or_ge (n / d) K with hlt | hge
  · unfold divRoundHalfEven
    simp only []
    split
    · omega
    · split
      · omega
      · split <;> omega
  · have hK : n / d = K := by omega
    have hr0 : n % d = 0 := by
      rw [hK] at hcomm hdm
      omega
    unfold divRoundHalfEven
    simp only []
    rw [if_pos (by omega)]
    omega

theorem sig_ratio_nonneg (num den k : Nat) (hd : 0 < den) :
    ((num : ℚ)) / ((den * 2 ^ k : Nat) : ℚ) = (num : ℚ) / (den : ℚ) / (2 : ℚ) ^ (k : Int) := by
  have hdq : (den : ℚ) ≠ 0 := by exact_mod_cast (Nat.pos_iff_ne_zero.mp hd)
  push_cast
  rw [zpow_natCast]
  field_simp

theorem sig_ratio_neg (num den k : Nat) (hd : 0 < den) :
    (((num * 2 ^ k : Nat) : ℚ)) / (den : ℚ) = (num : ℚ) / (den : ℚ) / (2 : ℚ) ^ (-(k : Int)) := by
  have hdq : (den : ℚ) ≠ 0 := by exact_mod_cast (Nat.pos_iff_ne_zero.mp hd)
  push_cast
  rw [zpow_neg, zpow_natCast]
  field_simp

/-- The numerator and denominator whose quotient `significand` rounds. -/
theorem significand_ratio (num den : Nat) (hd : 0 < den) :
    ∃ n1 d1 : Nat, 0 < d1 ∧ significand num den = divRoundHalfEven n1 d1 ∧
      (n1 : ℚ) / (d1 : ℚ) = (num : ℚ) / (den : ℚ) / (2 : ℚ) ^ (ulpExponent num den) := by
  unfold significand
  by_cases h : 0 ≤ ulpExponent num den
  · rw [if_pos h]
    obtain ⟨k, hk⟩ := Int.eq_ofNat_of_zero_le h
    refine ⟨num, den * 2 ^ (ulpExponent num den).toNat,
      Nat.mul_pos hd (pow_pos (by decide) _), rfl, ?_⟩
    rw [hk, Int.toNat_ofNat]
    exact sig_ratio_nonneg num den k hd
  · rw [if_neg h]
    obtain ⟨k, hk⟩ : ∃ k : Nat, ulpExponent num den = -(k : Int) :=
      ⟨(-ulpExponent num den).toNat, by omega⟩
    refine ⟨num * 2 ^ (-ulpExponent num den).toNat, den, hd, rfl, ?_⟩
    rw [hk, neg_neg, Int.toNat_ofNat]
    exact sig_ratio_neg num den k hd

theorem significand_eq_of_close (num den M : Nat) (hd : 0 < den)
    (h1 : (M : ℚ) - 1 / 2 < (num : ℚ) / (den : ℚ) / (2 : ℚ) ^ (ulpExponent num den))
    (h2 : (num : ℚ) / (den : ℚ) / (2 : ℚ) ^ (ulpExponent num den) < (M : ℚ) + 1 / 2) :
    significand num den = M := by
  obtain ⟨n1, d1, hd1, hs, hr⟩ := significand_ratio num den hd
  rw [hs]
  rw [← hr] at h1 h2
  exact divRoundHalfEven_of_rat n1 d1 M hd1 h1 h2

theorem roundBinary64_eq_of_close (num den M : Nat) (E : Int) (hn : 0 < num) (hd : 0 < den)
    (hE : ulpExponent num den = E)
    (h1 : (M : ℚ) - 1 / 2 < (num : ℚ) / (den : ℚ) / (2 : ℚ) ^ E)
    (h2 : (num : ℚ) / (den : ℚ) / (2 : ℚ) ^ E < (M : ℚ) + 1 / 2)
    (hfin : (M : ℚ) * (2 : ℚ) ^ E < (2 : ℚ) ^ (1024 : Nat)) :
    roundBinary64 num den = some ((M : ℚ) * (2 : ℚ) ^ E) := by
  have hs : significand num den = M := by
    apply significand_eq_of_close num den M hd
    · rw [hE]; exact h1
    · rw [hE]; exact h2
  unfold roundBinary64
  rw [if_neg (by omega), hs, hE]
  have hov : ¬ (0 ≤ E ∧ 2 ^ 1024 ≤ M * 2 ^ E.toNat) := by
    rintro ⟨h0, hbig⟩
    obtain ⟨k, hk⟩ := Int.eq_ofNat_of_zero_le h0
    rw [hk, Int.toNat_ofNat] at hbig
    rw [hk, zpow_natCast] at hfin
    have : ((2 ^ 1024 : Nat) : ℚ) ≤ ((M * 2 ^ k : Nat) : ℚ) := by exact_mod_cast hbig
    push_cast at this
    linarith
  rw [if_neg hov, scale2_eq]

theorem zpow_two_add (E : Int) (k : Nat) : (2 : ℚ) ^ (E + (k : Int)) = (2 : ℚ) ^ E * (2 : ℚ) ^ k := by
  rw [zpow_add₀ (by norm_num : (2 : ℚ) ≠ 0), zpow_natCast]

theorem ulpExponent_ge (num den : Nat) : -1074 ≤ ulpExponent num den := by
  unfold ulpExponent
  exact le_max_right _ _

theorem ulpExponent_normal (num den : Nat) (E : Int) (hn : 0 < num) (hd : 0 < den)
    (hE : -1074 ≤ E)
    (h1 : (2 : ℚ) ^ E * (2 : ℚ) ^ (52 : Nat) ≤ (num : ℚ) / (den : ℚ))
    (h2 : (num : ℚ) / (den : ℚ) < (2 : ℚ) ^ E * (2 : ℚ) ^ (53 : Nat)) :
    ulpExponent num den = E := by
  have hf : floorLog2 num den = E + 52 := by
    apply floorLog2_eq num den hn hd
    · have := zpow_two_add E 52
      rw [show ((52 : Nat) : Int) = 52 from rfl] at this
      rw [this]; exact h1
    · have := zpow_two_add E 53
      rw [show ((53 : Nat) : Int) = 53 from rfl] at this
      rw [show E + 52 + 1 = E + 53 by ring, this]; exact h2
  unfold ulpExponent
  rw [hf]
  omega

theorem ulpExponent_subnormal (num den : Nat) (hn : 0 < num) (hd : 0 < den)
    (h2 : (num : ℚ) / (den : ℚ) < (2 : ℚ) ^ (-1074 : Int) * (2 : ℚ) ^ (53 : Nat)) :
    ulpExponent num den = -1074 := by
  obtain ⟨g1, _⟩ := floorLog2_spec num den hn hd
  have := zpow_two_add (-1074) 53
  rw [← this] at h2
  have hlt : floorLog2 num den < -1074 + ((53 : Nat) : Int) :=
    (zpow_two_lt_iff _ _).1 (lt_of_le_of_lt g1 h2)
  unfold ulpExponent
  have : ((53 : Nat) : Int) = 53 := rfl
  omega

theorem roundBinary64_near (M : Nat) (E : Int) (num den : Nat)
    (hM : 0 < M) (hM53 : M < 2 ^ 53) (hE : -1074 ≤ E) (hc : 2 ^ 52 ≤ M ∨ E = -1074)
    (hfin : (M : ℚ) * (2 : ℚ) ^ E < (2 : ℚ) ^ (1024 : Nat))
    (hn : 0 < num) (hd : 0 < den)
    (hlo : (20000000000000000 - 1) * ((M : ℚ) * (2 : ℚ) ^ E) ≤
      20000000000000000 * ((num : ℚ) / (den : ℚ)))
    (hhi : 20000000000000000 * ((num : ℚ) / (den : ℚ)) ≤
      (20000000000000000 + 1) * ((M : ℚ) * (2 : ℚ) ^ E)) :
    roundBinary64 num den = some ((M : ℚ) * (2 : ℚ) ^ E) := by
  have ht : (0 : ℚ) < (2 : ℚ) ^ E := zpow_two_pos E
  obtain ⟨y, hy⟩ : ∃ y : ℚ, (num : ℚ) / (den : ℚ) = y * (2 : ℚ) ^ E :=
    ⟨(num : ℚ) / (den : ℚ) / (2 : ℚ) ^ E, (div_mul_cancel₀ _ (ne_of_gt ht)).symm⟩
  have hyd : (num : ℚ) / (den : ℚ) / (2 : ℚ) ^ E = y := by
    rw [hy]; exact mul_div_cancel_right₀ _ (ne_of_gt ht)
  rw [hy] at hlo hhi
  have hlo1 : (20000000000000000 - 1) * (M : ℚ) ≤ 20000000000000000 * y := by
    have : ((20000000000000000 - 1) * (M : ℚ)) * (2 : ℚ) ^ E ≤
        (20000000000000000 * y) * (2 : ℚ) ^ E := by linarith
    exact le_of_mul_le_mul_right this ht
  have hhi1 : 20000000000000000 * y ≤ (20000000000000000 + 1) * (M : ℚ) := by
    have : (20000000000000000 * y) * (2 : ℚ) ^ E ≤
        ((20000000000000000 + 1) * (M : ℚ)) * (2 : ℚ) ^ E := by linarith
    exact le_of_mul_le_mul_right this ht
  have hMq1 : (1 : ℚ) ≤ (M : ℚ) := by exact_mod_cast hM
  have hMq2 : (M : ℚ) ≤ 9007199254740991 := by
    have : M ≤ 9007199254740991 := by
      have : (2 : Nat) ^ 53 = 9007199254740992 := by norm_num
      omega
    exact_mod_cast this
  have hclose1 : (M : ℚ) - 1 / 2 < y := by linarith
  have hclose2 : y < (M : ℚ) + 1 / 2 := by linarith
  have hy53 : y < 9007199254740992 := by linarith
  have hp53 : (2 : ℚ) ^ (53 : Nat) = 9007199254740992 := by norm_num
  have hp52 : (2 : ℚ) ^ (52 : Nat) = 4503599627370496 := by norm_num
  by_cases hE0 : E = -1074
  · have hu : ulpExponent num den = E := by
      rw [hE0]
      apply ulpExponent_subnormal num den hn hd
      rw [hy, hp53, ← hE0]
      have := mul_lt_mul_of_pos_left hy53 ht
      linarith
    apply roundBinary64_eq_of_close num den M E hn hd hu _ _ hfin
    · rw [hyd]; exact hclose1
    · rw [hyd]; exact hclose2
  · have hM52 : 2 ^ 52 ≤ M := by
      rcases hc with h | h
      · exact h
      · exact absurd h hE0
    have hMq3 : (4503599627370496 : ℚ) ≤ (M : ℚ) := by
      have : 4503599627370496 ≤ M := by
        have : (2 : Nat) ^ 52 = 4503599627370496 := by norm_num
        omega
      exact_mod_cast this
    by_cases hy52 : (4503599627370496 : ℚ) ≤ y
    · have hu : ulpExponent num den = E := by
        apply ulpExponent_normal num den E hn hd hE
        · rw [hy, hp52]
          have := mul_le_mul_of_nonneg_left hy52 (le_of_lt ht)
          linarith
        · rw [hy, hp53]
          have := mul_lt_mul_of_pos_left hy53 ht
          linarith
      apply roundBinary64_eq_of_close num den M E hn hd hu _ _ hfin
      · rw [hyd]; exact hclose1
      · rw [hyd]; exact hclose2
    · have hy52' : y < 4503599627370496 := not_le.1 hy52
      have hMeq : M = 2 ^ 52 := by
        have h52 : (2 : Nat) ^ 52 = 4503599627370496 := by norm_num
        by_contra hne
        have : 4503599627370497 ≤ M := by omega
        have : (4503599627370497 : ℚ) ≤ (M : ℚ) := by exact_mod_cast this
        linarith
      have hMq : (M : ℚ) = 4503599627370496 := by
        rw [hMeq]; norm_num
      have ht1 : (2 : ℚ) ^ (E - 1) = (2 : ℚ) ^ E / 2 := by
        rw [zpow_sub_one₀ (by norm_num : (2 : ℚ) ≠ 0)]
        rfl
      have ht1pos : (0 : ℚ) < (2 : ℚ) ^ (E - 1) := zpow_two_pos _
      have hy2 : (num : ℚ) / (den : ℚ) = (2 * y) * (2 : ℚ) ^ (E - 1) := by
        rw [hy, ht1]; ring
      have hyd2 : (num : ℚ) / (den : ℚ) / (2 : ℚ) ^ (E - 1) = 2 * y := by
        rw [hy2]; exact mul_div_cancel_right₀ _ (ne_of_gt ht1pos)
      have hu : ulpExponent num den = E - 1 := by
        apply ulpExponent_normal num den (E - 1) hn hd (by omega)
        · rw [hy2, hp52]
          have h2y : (4503599627370496 : ℚ) ≤ 2 * y := by linarith
          have := mul_le_mul_of_nonneg_left h2y (le_of_lt ht1pos)
          linarith
        · rw [hy2, hp53]
          have h2y : 2 * y < (9007199254740992 : ℚ) := by linarith
          have := mul_lt_mul_of_pos_left h2y ht1pos
          linarith
      have hval : (M : ℚ) * (2 : ℚ) ^ E = ((2 ^ 53 : Nat) : ℚ) * (2 : ℚ) ^ (E - 1) := by
        rw [hMq, ht1]
        push_cast
        ring
      rw [hval]
      apply roundBinary64_eq_of_close num den (2 ^ 53) (E - 1) hn hd hu
      · rw [hyd2]; push_cast; linarith
      · rw [hyd2]; push_cast; linarith
      · rw [← hval]; exact hfin

theorem significand_le (num den : Nat) (hn : 0 < num) (hd : 0 < den) :
    significand num den ≤ 2 ^ 53 := by
  obtain ⟨n1, d1, hd1, hs, hr⟩ := significand_ratio num den hd
  obtain ⟨_, g2⟩ := floorLog2_spec num den hn hd
  have he : floorLog2 num den - 52 ≤ ulpExponent num den := by
    unfold ulpExponent
    exact le_max_left _ _
  have ht := zpow_two_pos (ulpExponent num den)
  have hlt : (num : ℚ) / (den : ℚ) < (2 : ℚ) ^ (ulpExponent num den) * (2 : ℚ) ^ (53 : Nat) := by
    rw [← zpow_two_add]
    refine lt_of_lt_of_le g2 ((zpow_two_le_iff _ _).2 ?_)
    have : ((53 : Nat) : Int) = 53 := rfl
    omega
  have hq : (n1 : ℚ) / (d1 : ℚ) < (2 : ℚ) ^ (53 : Nat) := by
    rw [hr, div_lt_iff₀ ht]
    linarith
  have hd1q : (0 : ℚ) < (d1 : ℚ) := by exact_mod_cast hd1
  rw [div_lt_iff₀ hd1q] at hq
  have hnat : n1 ≤ 2 ^ 53 * d1 := by
    have : ((n1 : Nat) : ℚ) < ((2 ^ 53 * d1 : Nat) : ℚ) := by push_cast; exact hq
    exact le_of_lt (by exact_mod_cast this)
  rw [hs]
  exact divRoundHalfEven_le n1 d1 (2 ^ 53) hd1 hnat

theorem significand_ge (num den : Nat) (hn : 0 < num) (hd : 0 < den)
    (he : ulpExponent num den ≠ -1074) : 2 ^ 52 ≤ significand num den := by
  obtain ⟨n1, d1, hd1, hs, hr⟩ := significand_ratio num den hd
  obtain ⟨g1, _⟩ := floorLog2_spec num den hn hd
  have hfl : floorLog2 num den = ulpExponent num den + 52 := by
    unfold ulpExponent at he ⊢
    rcases max_cases (floorLog2 num den - 52) (-1074) with ⟨h1, _⟩ | ⟨h1, _⟩
    · rw [h1]; ring
    · exact absurd h1 he
  have ht := zpow_two_pos (ulpExponent num den)
  have hge : (2 : ℚ) ^ (ulpExponent num den) * (2 : ℚ) ^ (52 : Nat) ≤ (num : ℚ) / (den : ℚ) := by
    rw [← zpow_two_add]
    rw [hfl] at g1
    exact g1
  have hq : (2 : ℚ) ^ (52 : Nat) ≤ (n1 : ℚ) / (d1 : ℚ) := by
    rw [hr, le_div_iff₀ ht]
    linarith
  have hd1q : (0 : ℚ) < (d1 : ℚ) := by exact_mod_cast hd1
  rw [le_div_iff₀ hd1q] at hq
  have hnat : 2 ^ 52 * d1 ≤ n1 := by
    have : ((2 ^ 52 * d1 : Nat) : ℚ) ≤ ((n1 : Nat) : ℚ) := by push_cast; exact hq
    exact_mod_cast this
  rw [hs]
  refine le_trans ?_ (divRoundHalfEven_ge n1 d1)
  exact (Nat.le_div_iff_mul_le hd1).2 hnat

theorem roundBinary64_canonical (num den : Nat) (hn : 0 < num) (hd : 0 < den) (q : ℚ)
    (h : roundBinary64 num den = some q) :
    q = 0 ∨ ∃ (M : Nat) (E : Int), q = (M : ℚ) * (2 : ℚ) ^ E ∧ 0 < M ∧ M < 2 ^ 53 ∧ -1074 ≤ E ∧
      (2 ^ 52 ≤ M ∨ E = -1074) ∧ (M : ℚ) * (2 : ℚ) ^ E < (2 : ℚ) ^ (1024 : Nat) := by
  have hle := significand_le num den hn hd
  have hge := ulpExponent_ge num den
  unfold roundBinary64 at h
  rw [if_neg (by omega)] at h
  by_cases hov : 0 ≤ ulpExponent num den ∧
      2 ^ 1024 ≤ significand num den * 2 ^ (ulpExponent num den).toNat
  · rw [if_pos hov] at h
    cases h
  · rw [if_neg hov, scale2_eq] at h
    simp only [Option.some.injEq] at h
    have hfin : (significand num den : ℚ) * (2 : ℚ) ^ (ulpExponent num den) <
        (2 : ℚ) ^ (1024 : Nat) := by
      by_cases h0 : 0 ≤ ulpExponent num den
      · obtain ⟨k, hk⟩ := Int.eq_ofNat_of_zero_le h0
        have hlt : significand num den * 2 ^ k < 2 ^ 1024 := by
          have := fun hb => hov ⟨h0, hb⟩
          rw [hk, Int.toNat_ofNat] at this
          exact not_le.1 this
        rw [hk, zpow_natCast]
        exact_mod_cast hlt
      · have h1 : (2 : ℚ) ^ (ulpExponent num den) ≤ (2 : ℚ) ^ (0 : Int) :=
          (zpow_two_le_iff _ _).2 (by omega)
        rw [zpow_zero] at h1
        have h2 : (significand num den : ℚ) ≤ (2 : ℚ) ^ (53 : Nat) := by exact_mod_cast hle
        have h3 : (0 : ℚ) ≤ (significand num den : ℚ) := Nat.cast_nonneg _
        have h4 : (2 : ℚ) ^ (53 : Nat) < (2 : ℚ) ^ (1024 : Nat) :=
          pow_lt_pow_right₀ (by norm_num) (by norm_num)
        have h5 := zpow_two_pos (ulpExponent num den)
        calc (significand num den : ℚ) * (2 : ℚ) ^ (ulpExponent num den)
            ≤ (significand num den : ℚ) * 1 := mul_le_mul_of_nonneg_left h1 h3
          _ = (significand num den : ℚ) := mul_one _
          _ ≤ (2 : ℚ) ^ (53 : Nat) := h2
          _ < (2 : ℚ) ^ (1024 : Nat) := h4
    rcases Nat.eq_zero_or_pos (significand num den) with hs0 | hspos
    · left
      rw [← h, hs0]
      simp
    · right
      rcases Nat.lt_or_ge (significand num den) (2 ^ 53) with hlt | hge53
      · refine ⟨significand num den, ulpExponent num den, h.symm, hspos, hlt, hge, ?_, hfin⟩
        by_cases he : ulpExponent num den = -1074
        · exact Or.inr he
        · exact Or.inl (significand_ge num den hn hd he)
      · have hs53 : significand num den = 2 ^ 53 := le_antisymm hle hge53
        have hval : (significand num den : ℚ) * (2 : ℚ) ^ (ulpExponent num den) =
            ((2 ^ 52 : Nat) : ℚ) * (2 : ℚ) ^ (ulpExponent num den + 1) := by
          rw [hs53, zpow_add_one₀ (by norm_num : (2 : ℚ) ≠ 0)]
          push_cast
          ring
        refine ⟨2 ^ 52, ulpExponent num den + 1, ?_, by norm_num, by norm_num, by omega,
          Or.inl (le_refl _), ?_⟩
        · rw [← h, hval]
        · rw [← hval]; exact hfin

theorem divRoundHalfEven_scale (n d k : Nat) (hk : 0 < k) :
    divRoundHalfEven (n * k) (d * k) = divRoundHalfEven n d := by
  unfold divRoundHalfEven
  simp only []
  rw [Nat.mul_div_mul_right n d hk, Nat.mul_mod_mul_right]
  have e1 : (2 * (n % d * k) < d * k) ↔ (2 * (n % d) < d) := by
    rw [← Nat.mul_assoc]
    exact Nat.mul_lt_mul_right hk
  have e2 : (d * k < 2 * (n % d * k)) ↔ (d < 2 * (n % d)) := by
    rw [← Nat.mul_assoc]
    exact Nat.mul_lt_mul_right hk
  simp only [e1, e2]

theorem divRoundHalfEven_ratio (a b c d : Nat) (hb : 0 < b) (hd : 0 < d)
    (h : (a : ℚ) / (b : ℚ) = (c : ℚ) / (d : ℚ)) :
    divRoundHalfEven a b = divRoundHalfEven c d := by
  have hbq : (b : ℚ) ≠ 0 := by exact_mod_cast (Nat.pos_iff_ne_zero.mp hb)
  have hdq : (d : ℚ) ≠ 0 := by exact_mod_cast (Nat.pos_iff_ne_zero.mp hd)
  have hnat : a * d = c * b := by
    rw [div_eq_div_iff hbq hdq] at h
    exact_mod_cast h
  rw [← divRoundHalfEven_scale a b d hd, ← divRoundHalfEven_scale c d b hb, hnat, Nat.mul_comm b d]

theorem floorLog2_ratio (a b c d : Nat) (ha : 0 < a) (hb : 0 < b) (hc : 0 < c) (hd : 0 < d)
    (h : (a : ℚ) / (b : ℚ) = (c : ℚ) / (d : ℚ)) : floorLog2 a b = floorLog2 c d := by
  obtain ⟨g1, g2⟩ := floorLog2_spec c d hc hd
  rw [← h] at g1 g2
  exact floorLog2_eq a b ha hb _ g1 g2

theorem roundBinary64_ratio (a b c d : Nat) (hb : 0 < b) (hd : 0 < d)
    (h : (a : ℚ) / (b : ℚ) = (c : ℚ) / (d : ℚ)) : roundBinary64 a b = roundBinary64 c d := by
  have hbq : (b : ℚ) ≠ 0 := by exact_mod_cast (Nat.pos_iff_ne_zero.mp hb)
  have hdq : (d : ℚ) ≠ 0 := by exact_mod_cast (Nat.pos_iff_ne_zero.mp hd)
  by_cases ha : a = 0
  · have hc : c = 0 := by
      rw [ha] at h
      simp only [Nat.cast_zero, zero_div] at h
      have := h.symm
      rw [div_eq_zero_iff] at this
      rcases this with h0 | h0
      · exact_mod_cast h0
      · exact absurd h0 hdq
    rw [ha, hc]
    simp [roundBinary64]
  · have hc : c ≠ 0 := by
      intro hc0
      rw [hc0] at h
      simp only [Nat.cast_zero, zero_div] at h
      rw [div_eq_zero_iff] at h
      rcases h with h0 | h0
      · exact ha (by exact_mod_cast h0)
      · exact absurd h0 hbq
    have hfl := floorLog2_ratio a b c d (by omega) hb (by omega) hd h
    have hulp : ulpExponent a b = ulpExponent c d := by
      unfold ulpExponent
      rw [hfl]
    have hsig : significand a b = significand c d := by
      obtain ⟨n1, d1, hd1, hs1, hr1⟩ := significand_ratio a b hb
      obtain ⟨n2, d2, hd2, hs2, hr2⟩ := significand_ratio c d hd
      rw [hs1, hs2]
      apply divRoundHalfEven_ratio n1 d1 n2 d2 hd1 hd2
      rw [hr1, hr2, h, hulp]
    unfold roundBinary64
    rw [if_neg ha, if_neg hc, hulp, hsig]

/-! ### Number::toString writes digits that round back -/

theorem firstScaleAux_spec (num den : Nat) :
    ∀ (fuel j : Nat), 1 ≤ j → num * 10 ^ (j - 1) < den → den ≤ num * 10 ^ (j + fuel - 1) →
      1 ≤ firstScaleAux fuel num den j ∧
      den ≤ num * 10 ^ (firstScaleAux fuel num den j) ∧
      num * 10 ^ (firstScaleAux fuel num den j - 1) < den := by
  intro fuel
  induction fuel with
  | zero =>
    intro j hj h1 h2
    simp only [Nat.add_zero] at h2
    omega
  | succ fuel ih =>
    intro j hj h1 h2
    unfold firstScaleAux
    by_cases h : den ≤ num * 10 ^ j
    · rw [if_pos h]
      exact ⟨hj, h, h1⟩
    · rw [if_neg h]
      apply ih (j + 1) (by omega)
      · simpa using not_le.1 h
      · have : j + 1 + fuel - 1 = j + (fuel + 1) - 1 := by omega
        rw [this]; exact h2

theorem zpow_ten_pos (e : Int) : (0 : ℚ) < (10 : ℚ) ^ e := zpow_pos (by norm_num) e

theorem decimalPoint_spec (num den : Nat) (hn : 0 < num) (hd : 0 < den) :
    (10 : ℚ) ^ (decimalPoint num den - 1) ≤ (num : ℚ) / (den : ℚ) ∧
    (num : ℚ) / (den : ℚ) < (10 : ℚ) ^ (decimalPoint num den) := by
  have hdq : (0 : ℚ) < (den : ℚ) := by exact_mod_cast hd
  unfold decimalPoint
  by_cases h : den ≤ num
  · rw [if_pos h]
    have hm : 0 < num / den := Nat.div_pos h hd
    obtain ⟨h1, h2, h3⟩ := natDigits_length_bounds (num / den) hm
    have hfloor : (num / den) * den ≤ num := Nat.div_mul_le_self num den
    have hceil : num < (num / den + 1) * den := by
      have := Nat.lt_succ_self (num / den)
      exact (Nat.div_lt_iff_lt_mul hd).1 this
    constructor
    · have e : (((natDigits (num / den)).length : Int) - 1) =
          (((natDigits (num / den)).length - 1 : Nat) : Int) := by omega
      rw [e, zpow_natCast, le_div_iff₀ hdq]
      have : ((10 ^ ((natDigits (num / den)).length - 1) * den : Nat) : ℚ) ≤ (num : ℚ) := by
        have : 10 ^ ((natDigits (num / den)).length - 1) * den ≤ num :=
          le_trans (Nat.mul_le_mul_right den h1) hfloor
        exact_mod_cast this
      push_cast at this
      exact this
    · rw [zpow_natCast, div_lt_iff₀ hdq]
      have : ((num : Nat) : ℚ) < ((10 ^ (natDigits (num / den)).length * den : Nat) : ℚ) := by
        have : num < 10 ^ (natDigits (num / den)).length * den :=
          lt_of_lt_of_le hceil (Nat.mul_le_mul_right den h2)
        exact_mod_cast this
      push_cast at this
      exact this
  · rw [if_neg h]
    have hlt : num < den := not_le.1 h
    have hfound : den ≤ num * 10 ^ (1 + den - 1) := by
      have h1 : den < 10 ^ den := Nat.lt_pow_self (by decide) den
      have h2 : 10 ^ den ≤ num * 10 ^ den := Nat.le_mul_of_pos_left _ hn
      have : 1 + den - 1 = den := by omega
      rw [this]
      omega
    obtain ⟨hj1, hj2, hj3⟩ := firstScaleAux_spec num den den 1 (le_refl 1) (by simpa using hlt) hfound
    generalize firstScaleAux den num den 1 = j at hj1 hj2 hj3
    have hnq : (0 : ℚ) < (num : ℚ) := by exact_mod_cast hn
    constructor
    · have e : (1 - (j : Int) - 1) = -(j : Int) := by ring
      rw [e, zpow_neg, zpow_natCast, le_div_iff₀ hdq]
      have h10 : (0 : ℚ) < (10 : ℚ) ^ j := pow_pos (by norm_num) j
      rw [inv_mul_le_iff₀ h10]
      have : ((den : Nat) : ℚ) ≤ ((num * 10 ^ j : Nat) : ℚ) := by exact_mod_cast hj2
      push_cast at this
      linarith
    · obtain ⟨i, hi⟩ : ∃ i, j = i + 1 := ⟨j - 1, by omega⟩
      subst hi
      have e : (1 - ((i + 1 : Nat) : Int)) = -(i : Int) := by push_cast; ring
      rw [e, zpow_neg, zpow_natCast, div_lt_iff₀ hdq]
      have h10 : (0 : ℚ) < (10 : ℚ) ^ i := pow_pos (by norm_num) i
      rw [lt_inv_mul_iff₀ h10]
      simp only [Nat.add_sub_cancel] at hj3
      have : ((num * 10 ^ i : Nat) : ℚ) < ((den : Nat) : ℚ) := by exact_mod_cast hj3
      push_cast at this
      linarith

/-- The quotient `roundsTo` rounds is `c * 10 ^ x`. -/
theorem roundsTo_rep (c : Nat) (x : Int) :
    ∃ n d : Nat, 0 < d ∧ (n : ℚ) / (d : ℚ) = (c : ℚ) * (10 : ℚ) ^ x ∧ (0 < c → 0 < n) ∧
      ∀ v : ℚ, roundsTo v c x = decide (roundBinary64 n d = some v) := by
  by_cases h : 0 ≤ x
  · obtain ⟨k, hk⟩ := Int.eq_ofNat_of_zero_le h
    refine ⟨c * 10 ^ x.toNat, 1, by decide, ?_, ?_, ?_⟩
    · rw [hk, Int.toNat_ofNat, zpow_natCast]
      push_cast
      simp
    · intro hc
      exact Nat.mul_pos hc (pow_pos (by decide) _)
    · intro v
      unfold roundsTo
      simp only [h, if_true]
  · obtain ⟨k, hk⟩ : ∃ k : Nat, x = -(k : Int) := ⟨(-x).toNat, by omega⟩
    refine ⟨c, 10 ^ (-x).toNat, pow_pos (by decide) _, ?_, ?_, ?_⟩
    · rw [hk, neg_neg, Int.toNat_ofNat, zpow_neg, zpow_natCast]
      push_cast
      rw [div_eq_mul_inv]
    · intro hc; exact hc
    · intro v
      unfold roundsTo
      simp only [h, if_false]

theorem roundsTo_of_near (M : Nat) (E : Int) (c : Nat) (x : Int)
    (hM : 0 < M) (hM53 : M < 2 ^ 53) (hE : -1074 ≤ E) (hcan : 2 ^ 52 ≤ M ∨ E = -1074)
    (hfin : (M : ℚ) * (2 : ℚ) ^ E < (2 : ℚ) ^ (1024 : Nat))
    (hc : 0 < c)
    (hlo : (20000000000000000 - 1) * ((M : ℚ) * (2 : ℚ) ^ E) ≤
      20000000000000000 * ((c : ℚ) * (10 : ℚ) ^ x))
    (hhi : 20000000000000000 * ((c : ℚ) * (10 : ℚ) ^ x) ≤
      (20000000000000000 + 1) * ((M : ℚ) * (2 : ℚ) ^ E)) :
    roundsTo ((M : ℚ) * (2 : ℚ) ^ E) c x = true := by
  obtain ⟨n, d, hd, hr, hn, hrt⟩ := roundsTo_rep c x
  rw [hrt, decide_eq_true_eq]
  rw [← hr] at hlo hhi
  exact roundBinary64_near M E n d hM hM53 hE hcan hfin (hn hc) hd hlo hhi

theorem roundsTo_pos (v : ℚ) (hv : v ≠ 0) (c : Nat) (x : Int) (h : roundsTo v c x = true) :
    0 < c := by
  rcases Nat.eq_zero_or_pos c with h0 | h0
  · exfalso
    subst h0
    unfold roundsTo at h
    simp only [Nat.zero_mul, decide_eq_true_eq] at h
    have : roundBinary64 0 1 = some 0 := by simp [roundBinary64]
    split at h
    · rw [this] at h
      simp only [Option.some.injEq] at h
      exact hv h.symm
    · have : roundBinary64 0 (10 ^ (-x).toNat) = some 0 := by simp [roundBinary64]
      rw [this] at h
      simp only [Option.some.injEq] at h
      exact hv h.symm
  · exact h0

/-- The numerator and denominator `shortestAux` divides: their quotient is
`v / 10 ^ x`. -/
theorem shortest_pu (v : ℚ) (hv : 0 < v) (x : Int) :
    0 < (if 0 ≤ x then v.den * 10 ^ x.toNat else v.den) ∧
    (((if 0 ≤ x then v.num.natAbs else v.num.natAbs * 10 ^ (-x).toNat : Nat) : ℚ)) /
      (((if 0 ≤ x then v.den * 10 ^ x.toNat else v.den : Nat) : ℚ)) = v / (10 : ℚ) ^ x := by
  have hden : (0 : ℚ) < (v.den : ℚ) := by exact_mod_cast v.den_pos
  have hnum : ((v.num.natAbs : Nat) : ℚ) = (v.num : ℚ) := by
    have : (0 : Int) ≤ v.num := le_of_lt (Rat.num_pos.2 hv)
    have h2 : ((v.num.natAbs : Nat) : Int) = v.num := Int.natAbs_of_nonneg this
    have h3 : (((v.num.natAbs : Nat) : Int) : ℚ) = (v.num : ℚ) := by rw [h2]
    rw [← h3, Int.cast_natCast]
  have hv' : (v.num : ℚ) / (v.den : ℚ) = v := Rat.num_div_den v
  by_cases h : 0 ≤ x
  · obtain ⟨k, hk⟩ := Int.eq_ofNat_of_zero_le h
    simp only [h, if_true]
    refine ⟨Nat.mul_pos v.den_pos (pow_pos (by decide) _), ?_⟩
    rw [hk, Int.toNat_ofNat, zpow_natCast, hnum]
    push_cast
    rw [← div_div, hv']
  · obtain ⟨k, hk⟩ : ∃ k : Nat, x = -(k : Int) := ⟨(-x).toNat, by omega⟩
    simp only [h, if_false]
    refine ⟨v.den_pos, ?_⟩
    rw [hk, neg_neg, Int.toNat_ofNat, zpow_neg, zpow_natCast]
    push_cast
    rw [hnum, div_inv_eq_mul, mul_div_right_comm, hv']

theorem shortest_last (M : Nat) (E : Int) (x : Int) (p u : Nat)
    (hM : 0 < M) (hM53 : M < 2 ^ 53) (hE : -1074 ≤ E) (hcan : 2 ^ 52 ≤ M ∨ E = -1074)
    (hfin : (M : ℚ) * (2 : ℚ) ^ E < (2 : ℚ) ^ (1024 : Nat))
    (hu : 0 < u) (hr : (p : ℚ) / (u : ℚ) = (M : ℚ) * (2 : ℚ) ^ E / (10 : ℚ) ^ x)
    (hw : (10000000000000000 : ℚ) ≤ (M : ℚ) * (2 : ℚ) ^ E / (10 : ℚ) ^ x) :
    roundsTo ((M : ℚ) * (2 : ℚ) ^ E) (p / u) x = true ∨
    roundsTo ((M : ℚ) * (2 : ℚ) ^ E) (p / u + 1) x = true := by
  have hT : (0 : ℚ) < (10 : ℚ) ^ x := zpow_ten_pos x
  have huq : (0 : ℚ) < (u : ℚ) := by exact_mod_cast hu
  obtain ⟨w, hwdef⟩ : ∃ w : ℚ, w = (p : ℚ) / (u : ℚ) := ⟨_, rfl⟩
  have hv : (M : ℚ) * (2 : ℚ) ^ E = w * (10 : ℚ) ^ x := by
    rw [hwdef, hr]
    exact (div_mul_cancel₀ _ (ne_of_gt hT)).symm
  have hw16 : (10000000000000000 : ℚ) ≤ w := by rw [hwdef, hr]; exact hw
  have hwu : w * (u : ℚ) = (p : ℚ) := by
    rw [hwdef]; exact div_mul_cancel₀ _ (ne_of_gt huq)
  have hdm := Nat.div_add_mod p u
  have hrlt := Nat.mod_lt p hu
  have hpq : (p : ℚ) = (u : ℚ) * ((p / u : Nat) : ℚ) + ((p % u : Nat) : ℚ) := by
    exact_mod_cast hdm.symm
  have hdelta : (w - ((p / u : Nat) : ℚ)) * (u : ℚ) = ((p % u : Nat) : ℚ) := by
    rw [sub_mul, hwu, hpq]; ring
  have hrq0 : (0 : ℚ) ≤ ((p % u : Nat) : ℚ) := Nat.cast_nonneg _
  have hrq1 : ((p % u : Nat) : ℚ) < (u : ℚ) := by exact_mod_cast hrlt
  have hlow : ((p / u : Nat) : ℚ) ≤ w := by
    have : (0 : ℚ) * (u : ℚ) ≤ (w - ((p / u : Nat) : ℚ)) * (u : ℚ) := by
      rw [hdelta, zero_mul]; exact hrq0
    have := le_of_mul_le_mul_right this huq
    linarith
  have hupp : w < ((p / u : Nat) : ℚ) + 1 := by
    have : (w - ((p / u : Nat) : ℚ)) * (u : ℚ) < 1 * (u : ℚ) := by
      rw [hdelta, one_mul]; exact hrq1
    have := lt_of_mul_lt_mul_right this (le_of_lt huq)
    linarith
  by_cases hcase : 2 * (p % u) ≤ u
  · left
    have hhalf : w - ((p / u : Nat) : ℚ) ≤ 1 / 2 := by
      have h2 : (2 : ℚ) * ((p % u : Nat) : ℚ) ≤ (u : ℚ) := by exact_mod_cast hcase
      have : (w - ((p / u : Nat) : ℚ)) * (u : ℚ) ≤ (1 / 2) * (u : ℚ) := by
        rw [hdelta]; linarith
      exact le_of_mul_le_mul_right this huq
    have hcpos : 0 < p / u := by
      have : (0 : ℚ) < ((p / u : Nat) : ℚ) := by linarith
      exact_mod_cast this
    apply roundsTo_of_near M E (p / u) x hM hM53 hE hcan hfin hcpos
    · rw [hv]
      have : (20000000000000000 - 1) * w ≤ 20000000000000000 * ((p / u : Nat) : ℚ) := by linarith
      have := mul_le_mul_of_nonneg_right this (le_of_lt hT)
      linarith
    · rw [hv]
      have : 20000000000000000 * ((p / u : Nat) : ℚ) ≤ (20000000000000000 + 1) * w := by linarith
      have := mul_le_mul_of_nonneg_right this (le_of_lt hT)
      linarith
  · right
    have hhalf : (((p / u : Nat) : ℚ) + 1) - w ≤ 1 / 2 := by
      have h2 : (u : ℚ) < (2 : ℚ) * ((p % u : Nat) : ℚ) := by exact_mod_cast not_le.1 hcase
      have : ((((p / u : Nat) : ℚ) + 1) - w) * (u : ℚ) ≤ (1 / 2) * (u : ℚ) := by
        have e : ((((p / u : Nat) : ℚ) + 1) - w) * (u : ℚ) =
            (u : ℚ) - (w - ((p / u : Nat) : ℚ)) * (u : ℚ) := by ring
        rw [e, hdelta]; linarith
      exact le_of_mul_le_mul_right this huq
    apply roundsTo_of_near M E (p / u + 1) x hM hM53 hE hcan hfin (Nat.succ_pos _)
    · rw [hv]
      push_cast
      have : (20000000000000000 - 1) * w ≤ 20000000000000000 * (((p / u : Nat) : ℚ) + 1) := by
        linarith
      have := mul_le_mul_of_nonneg_right this (le_of_lt hT)
      linarith
    · rw [hv]
      push_cast
      have : 20000000000000000 * (((p / u : Nat) : ℚ) + 1) ≤ (20000000000000000 + 1) * w := by
        linarith
      have := mul_le_mul_of_nonneg_right this (le_of_lt hT)
      linarith

theorem shortestAux_step (fuel : Nat) (v : ℚ) (n0 : Int) (k : Nat) (p u : Nat)
    (hp : p = if 0 ≤ n0 - (k : Int) then v.num.natAbs
      else v.num.natAbs * 10 ^ (-(n0 - (k : Int))).toNat)
    (hu : u = if 0 ≤ n0 - (k : Int) then v.den * 10 ^ (n0 - (k : Int)).toNat else v.den) :
    (roundsTo v (shortestAux (fuel + 1) v n0 k).1 (shortestAux (fuel + 1) v n0 k).2 = true) ∨
    (roundsTo v (p / u) (n0 - (k : Int)) = false ∧
     roundsTo v (p / u + 1) (n0 - (k : Int)) = false ∧
     shortestAux (fuel + 1) v n0 k = shortestAux fuel v n0 (k + 1)) := by
  subst hp hu
  simp only [shortestAux]
  generalize (if 0 ≤ n0 - (k : Int) then v.num.natAbs
      else v.num.natAbs * 10 ^ (-(n0 - (k : Int))).toNat) = p
  generalize (if 0 ≤ n0 - (k : Int) then v.den * 10 ^ (n0 - (k : Int)).toNat else v.den) = u
  cases hLo : roundsTo v (p / u) (n0 - (k : Int)) with
  | true =>
    left
    cases hHi : roundsTo v (p / u + 1) (n0 - (k : Int)) with
    | true =>
      simp only [Bool.and_self, if_true]
      split
      · exact hLo
      · split
        · exact hHi
        · split
          · exact hLo
          · exact hHi
    | false =>
      simp only [Bool.and_false, Bool.false_eq_true, if_false, if_true]
      exact hLo
  | false =>
    cases hHi : roundsTo v (p / u + 1) (n0 - (k : Int)) with
    | true =>
      left
      simp only [Bool.false_and, Bool.false_eq_true, if_false, if_true]
      exact hHi
    | false =>
      right
      simp only [Bool.and_self, Bool.false_eq_true, if_false]
      exact ⟨trivial, trivial, trivial⟩

theorem shortestAux_checked (M : Nat) (E : Int) (n0 : Int)
    (hM : 0 < M) (hM53 : M < 2 ^ 53) (hE : -1074 ≤ E) (hcan : 2 ^ 52 ≤ M ∨ E = -1074)
    (hfin : (M : ℚ) * (2 : ℚ) ^ E < (2 : ℚ) ^ (1024 : Nat))
    (hn0 : (10 : ℚ) ^ (n0 - 1) ≤ (M : ℚ) * (2 : ℚ) ^ E) :
    ∀ (fuel k : Nat), 1 ≤ fuel → k + fuel = 18 →
      roundsTo ((M : ℚ) * (2 : ℚ) ^ E) (shortestAux fuel ((M : ℚ) * (2 : ℚ) ^ E) n0 k).1
        (shortestAux fuel ((M : ℚ) * (2 : ℚ) ^ E) n0 k).2 = true := by
  have hvpos : (0 : ℚ) < (M : ℚ) * (2 : ℚ) ^ E :=
    mul_pos (by exact_mod_cast hM) (zpow_two_pos E)
  intro fuel
  induction fuel with
  | zero => intro k h; omega
  | succ f ih =>
    intro k _ hk
    rcases shortestAux_step f ((M : ℚ) * (2 : ℚ) ^ E) n0 k _ _ rfl rfl with h | ⟨hnlo, hnhi, hrec⟩
    · exact h
    · by_cases hf : f = 0
      · exfalso
        have hk17 : (k : Int) = 17 := by omega
        obtain ⟨hu, hr⟩ := shortest_pu ((M : ℚ) * (2 : ℚ) ^ E) hvpos (n0 - (k : Int))
        have hw : (10000000000000000 : ℚ) ≤
            (M : ℚ) * (2 : ℚ) ^ E / (10 : ℚ) ^ (n0 - (k : Int)) := by
          rw [le_div_iff₀ (zpow_ten_pos _)]
          have e : (10000000000000000 : ℚ) * (10 : ℚ) ^ (n0 - (k : Int)) =
              (10 : ℚ) ^ (n0 - 1) := by
            have : n0 - 1 = (n0 - (k : Int)) + ((16 : Nat) : Int) := by
              rw [hk17]; push_cast; ring
            rw [this, zpow_add₀ (by norm_num : (10 : ℚ) ≠ 0), zpow_natCast]
            norm_num
            ring
          rw [e]; exact hn0
        rcases shortest_last M E (n0 - (k : Int)) _ _ hM hM53 hE hcan hfin hu hr hw with h | h
        · rw [hnlo] at h; cases h
        · rw [hnhi] at h; cases h
      · rw [hrec]
        exact ih (k + 1) (by omega) (by omega)

/-! ### parseNumber reads the layouts of Number::toString -/

theorem span_digits_nondigit (ds : List Nat) (tail : List Nat)
    (hall : ∀ c ∈ ds, isDigit c = true)
    (ht : ∀ t tl, tail = t :: tl → isDigit t = false) :
    (ds ++ tail).span isDigit = (ds, tail) := by
  cases tail with
  | nil =>
    rw [List.append_nil, List.span_eq_take_drop]
    rw [List.takeWhile_eq_self_iff.2 hall, List.dropWhile_eq_nil_iff.2 hall]
  | cons t tl => exact span_digits_append ds t tl hall (ht t tl rfl)

theorem parseNumber_unsigned (c : Nat) (itl fds tail : List Nat)
    (hc : isDigit c = true) (hitl : ∀ d ∈ itl, isDigit d = true) (hzero : c = 48 → itl = [])
    (hfds : ∀ d ∈ fds, isDigit d = true)
    (htail : ∀ t tl, tail = t :: tl → isDigit t = false ∧ t ≠ 46) (neg : Bool)
    (cs : List Nat)
    (hcs : cs = (if neg then [45] else []) ++
      ((c :: itl) ++ ((if fds = [] then [] else 46 :: fds) ++ tail))) :
    parseNumber cs =
      (if (decide (tail.head? = some 101) || decide (tail.head? = some 69)) = true then
        match exponentPart tail with
        | none => none
        | some (e, r3) =>
          some (JSNum.ofDecimal neg (digitsValue ((c :: itl) ++ fds)) (e - (fds.length : Int)), r3)
      else some (JSNum.ofDecimal neg (digitsValue ((c :: itl) ++ fds)) (-(fds.length : Int)), tail)) := by
  have hc45 : ¬ c = 45 := by
    intro h; subst h; revert hc; decide
  -- the integer part
  have hint : ∀ r : List Nat, (∀ t tl, r = t :: tl → isDigit t = false) →
      (if c = 48 then some ([48], itl ++ r)
       else if isDigit c = true then some ((c :: (itl ++ r)).span isDigit) else none) =
        some (c :: itl, r) := by
    intro r hr
    by_cases h48 : c = 48
    · rw [if_pos h48, hzero h48, h48]; rfl
    · rw [if_neg h48, if_pos hc]
      have := span_digits_nondigit (c :: itl) r (by
        intro d hd
        rcases List.mem_cons.1 hd with h | h
        · rw [h]; exact hc
        · exact hitl d h) hr
      rw [List.cons_append] at this
      rw [this]
  have hneg : (decide (cs.head? = some 45)) = neg := by
    rw [hcs]
    cases neg with
    | true => rfl
    | false => simp [hc45]
  have hcs1 : (if decide (cs.head? = some 45) = true then cs.tail else cs) =
      (c :: (itl ++ ((if fds = [] then [] else 46 :: fds) ++ tail))) := by
    rw [hneg, hcs]
    cases neg with
    | true => rfl
    | false => rfl
  unfold parseNumber
  simp only []
  rw [hcs1, hneg]
  simp only []
  by_cases hf : fds = []
  · subst hf
    simp only [if_true, List.nil_append, List.append_nil, List.length_nil, Nat.cast_zero, neg_zero,
      sub_zero]
    rw [hint tail (fun t tl h => (htail t tl h).1)]
    simp only []
    cases tail with
    | nil => simp
    | cons t tl =>
      have h46 : ¬ t = 46 := (htail t tl rfl).2
      simp only [h46, if_false]
      simp
      try rfl
  · simp only [hf, if_false]
    rw [hint (46 :: fds ++ tail) (by intro t tl h; cases h; decide)]
    simp only [List.cons_append, if_true]
    have hsp := span_digits_nondigit fds tail hfds (fun t tl h => (htail t tl h).1)
    rw [hsp]
    simp only [hf, if_false]
    try rfl

/-- A number without exponent part, followed by a character that is not a
digit, a point or an exponent mark. -/
theorem parseNumber_plain (c : Nat) (itl fds : List Nat) (t : Nat) (rest : List Nat)
    (hc : isDigit c = true) (hitl : ∀ d ∈ itl, isDigit d = true) (hzero : c = 48 → itl = [])
    (hfds : ∀ d ∈ fds, isDigit d = true)
    (ht : isDigit t = false ∧ t ≠ 46 ∧ t ≠ 101 ∧ t ≠ 69) (neg : Bool) (cs : List Nat)
    (hcs : cs = (if neg then [45] else []) ++
      ((c :: itl) ++ ((if fds = [] then [] else 46 :: fds) ++ t :: rest))) :
    parseNumber cs =
      some (JSNum.ofDecimal neg (digitsValue ((c :: itl) ++ fds)) (-(fds.length : Int)),
        t :: rest) := by
  rw [parseNumber_unsigned c itl fds (t :: rest) hc hitl hzero hfds
    (by intro t1 tl h; cases h; exact ⟨ht.1, ht.2.1⟩) neg cs hcs]
  have : (decide ((t :: rest).head? = some 101) || decide ((t :: rest).head? = some 69)) = false := by
    simp [ht.2.2.1, ht.2.2.2]
  rw [this]
  simp

theorem exponentPart_signed (sg : Nat) (eds : List Nat) (t : Nat) (rest : List Nat)
    (hsg : sg = 43 ∨ sg = 45) (heds : ∀ d ∈ eds, isDigit d = true) (hne : eds ≠ [])
    (ht : isDigit t = false) :
    exponentPart (101 :: sg :: (eds ++ t :: rest)) =
      some ((if sg = 45 then -(digitsValue eds : Int) else (digitsValue eds : Int)), t :: rest) := by
  have hsp := span_digits_append eds t rest heds ht
  rcases hsg with h | h
  · subst h
    simp only [exponentPart, hsp, hne, if_false]
    simp
  · subst h
    simp only [exponentPart, hsp, hne, if_false]
    simp

theorem parseNumber_exp (c : Nat) (itl fds : List Nat) (sg : Nat) (eds : List Nat) (t : Nat)
    (rest : List Nat)
    (hc : isDigit c = true) (hitl : ∀ d ∈ itl, isDigit d = true) (hzero : c = 48 → itl = [])
    (hfds : ∀ d ∈ fds, isDigit d = true)
    (hsg : sg = 43 ∨ sg = 45) (heds : ∀ d ∈ eds, isDigit d = true) (hne : eds ≠ [])
    (ht : isDigit t = false) (neg : Bool) (cs : List Nat)
    (hcs : cs = (if neg then [45] else []) ++
      ((c :: itl) ++ ((if fds = [] then [] else 46 :: fds) ++ 101 :: sg :: (eds ++ t :: rest)))) :
    parseNumber cs =
      some (JSNum.ofDecimal neg (digitsValue ((c :: itl) ++ fds))
        ((if sg = 45 then -(digitsValue eds : Int) else (digitsValue eds : Int)) -
          (fds.length : Int)), t :: rest) := by
  rw [parseNumber_unsigned c itl fds (101 :: sg :: (eds ++ t :: rest)) hc hitl hzero hfds
    (by intro t1 tl h; cases h; exact ⟨by decide, by decide⟩) neg cs hcs]
  rw [exponentPart_signed sg eds t rest hsg heds hne ht]
  simp

theorem roundsTo_ratio (v : ℚ) (s D : Nat) (x e10 : Int)
    (hr : (D : ℚ) * (10 : ℚ) ^ e10 = (s : ℚ) * (10 : ℚ) ^ x)
    (h : roundsTo v s x = true) : roundsTo v D e10 = true := by
  obtain ⟨n1, d1, hd1, hr1, _, ht1⟩ := roundsTo_rep s x
  obtain ⟨n2, d2, hd2, hr2, _, ht2⟩ := roundsTo_rep D e10
  rw [ht1] at h
  rw [ht2, roundBinary64_ratio n2 d2 n1 d1 hd2 hd1 (by rw [hr1, hr2, hr])]
  exact h

theorem ofDecimal_of_roundsTo (v : ℚ) (D : Nat) (e10 : Int) (neg : Bool) (hD : D ≠ 0)
    (h : roundsTo v D e10 = true) : JSNum.ofDecimal neg D e10 = .fin neg v := by
  unfold roundsTo at h
  simp only [decide_eq_true_eq] at h
  unfold JSNum.ofDecimal
  rw [if_neg hD]
  simp only [h]

theorem zeros_codes (m : Nat) : (zeros m).map Char.toNat = List.replicate m 48 := by
  unfold zeros
  rw [List.map_replicate]
  rfl

theorem digitsValue_foldl (l : List Nat) (a : Nat) :
    l.foldl (fun a d => a * 10 + (d - 48)) a = a * 10 ^ l.length + digitsValue l := by
  induction l generalizing a with
  | nil => simp [digitsValue]
  | cons d l ih =>
    simp only [List.foldl_cons, List.length_cons, digitsValue]
    rw [ih, ih (0 * 10 + (d - 48))]
    ring

theorem digitsValue_append (a b : List Nat) :
    digitsValue (a ++ b) = digitsValue a * 10 ^ b.length + digitsValue b := by
  unfold digitsValue
  rw [List.foldl_append, digitsValue_foldl]
  rfl

theorem digitsValue_replicate (m : Nat) : digitsValue (List.replicate m 48) = 0 := by
  induction m with
  | zero => rfl
  | succ m ih =>
    rw [List.replicate_succ]
    have := digitsValue_append [48] (List.replicate m 48)
    simp only [List.singleton_append] at this
    rw [this, ih]
    simp [digitsValue]

theorem replicate_all_digits (m : Nat) : ∀ d ∈ List.replicate m 48, isDigit d = true := by
  intro d hd
  rw [List.eq_of_mem_replicate hd]
  decide

theorem ten_zpow_natCast_mul (a : Nat) (z : Nat) (x : Int) :
    ((a * 10 ^ z : Nat) : ℚ) * (10 : ℚ) ^ x = (a : ℚ) * (10 : ℚ) ^ ((z : Int) + x) := by
  rw [zpow_add₀ (by norm_num : (10 : ℚ) ≠ 0), zpow_natCast]
  push_cast
  ring

theorem ofDecimal_finish (v : ℚ) (s1 z : Nat) (x : Int) (D : Nat) (e10 : Int) (neg : Bool)
    (hrt : roundsTo v (s1 * 10 ^ z) x = true) (hD : D ≠ 0)
    (hval : (D : ℚ) * (10 : ℚ) ^ e10 = (s1 : ℚ) * (10 : ℚ) ^ ((z : Int) + x)) :
    JSNum.ofDecimal neg D e10 = .fin neg v := by
  apply ofDecimal_of_roundsTo v D e10 neg hD
  apply roundsTo_ratio v (s1 * 10 ^ z) D x e10 _ hrt
  rw [hval, ten_zpow_natCast_mul]

theorem natDigits_codes (m : Nat) (hm : 0 < m) :
    ∃ c tl, (natDigits m).map Char.toNat = c :: tl ∧ isDigit c = true ∧ c ≠ 48 ∧
      (∀ d ∈ tl, isDigit d = true) ∧ digitsValue (c :: tl) = m ∧
      (natDigits m).length = tl.length + 1 := by
  obtain ⟨c, tl, he, h1, h2⟩ := natDigits_head m hm
  have hall := natDigits_all_digits m
  have hval := digitsValue_natDigits m
  rw [he] at hall hval
  refine ⟨c, tl, he, hall c (List.mem_cons_self _ _), by omega,
    fun d hd => hall d (List.mem_cons_of_mem _ hd), hval, ?_⟩
  have := congrArg List.length he
  simpa using this

theorem layout_integer (v : ℚ) (s1 z j : Nat) (x : Int) (neg : Bool) (t : Nat) (rest : List Nat)
    (hs1 : 0 < s1) (hrt : roundsTo v (s1 * 10 ^ z) x = true) (hj : (j : Int) = (z : Int) + x)
    (ht : isDigit t = false ∧ t ≠ 46 ∧ t ≠ 101 ∧ t ≠ 69) :
    parseNumber ((if neg then [45] else []) ++
        ((natDigits s1 ++ zeros j).map Char.toNat ++ t :: rest)) =
      some (.fin neg v, t :: rest) := by
  have hpos : 0 < s1 * 10 ^ j := Nat.mul_pos hs1 (pow_pos (by decide) _)
  rw [← natDigits_mul_pow s1 j hs1]
  obtain ⟨c, tl, he, hc, hc48, htl, hval, _⟩ := natDigits_codes (s1 * 10 ^ j) hpos
  rw [he]
  rw [parseNumber_plain c tl [] t rest hc htl (fun h => absurd h hc48) (by simp) ht neg _ (by simp)]
  congr 2
  apply ofDecimal_finish v s1 z x _ _ neg hrt
  · rw [List.append_nil, hval]; omega
  · rw [List.append_nil, hval]
    simp only [List.length_nil, Nat.cast_zero, neg_zero, zpow_zero, mul_one]
    rw [← hj]
    push_cast
    rw [zpow_natCast]

theorem layout_fraction (v : ℚ) (s1 z n1 : Nat) (x : Int) (neg : Bool) (t : Nat) (rest : List Nat)
    (hs1 : 0 < s1) (hrt : roundsTo v (s1 * 10 ^ z) x = true)
    (hn1 : 0 < n1) (hn2 : n1 < (natDigits s1).length)
    (hn : (n1 : Int) = ((natDigits s1).length : Int) + (z : Int) + x)
    (ht : isDigit t = false ∧ t ≠ 46 ∧ t ≠ 101 ∧ t ≠ 69) :
    parseNumber ((if neg then [45] else []) ++
        (((natDigits s1).take n1 ++ [Char.ofNat 46] ++ (natDigits s1).drop n1).map Char.toNat ++
          t :: rest)) =
      some (.fin neg v, t :: rest) := by
  obtain ⟨c, tl, he, hc, hc48, htl, hval, hlen⟩ := natDigits_codes s1 hs1
  obtain ⟨i, hi⟩ : ∃ i, n1 = i + 1 := ⟨n1 - 1, by omega⟩
  have htake : ((natDigits s1).take n1).map Char.toNat = c :: tl.take i := by
    rw [List.map_take, he, hi, List.take_succ_cons]
  have hdrop : ((natDigits s1).drop n1).map Char.toNat = tl.drop i := by
    rw [List.map_drop, he, hi, List.drop_succ_cons]
  have hdne : tl.drop i ≠ [] := by
    intro h
    have := congrArg List.length h
    simp only [List.length_drop, List.length_nil] at this
    omega
  have hcodes : ((natDigits s1).take n1 ++ [Char.ofNat 46] ++ (natDigits s1).drop n1).map Char.toNat =
      (c :: tl.take i) ++ (46 :: tl.drop i) := by
    have e46 : (Char.ofNat 46).toNat = 46 := by decide
    simp only [List.map_append, htake, hdrop, List.map_cons, List.map_nil, List.append_assoc,
      List.singleton_append, e46]
  rw [hcodes]
  rw [parseNumber_plain c (tl.take i) (tl.drop i) t rest hc
    (fun d hd => htl d (List.mem_of_mem_take hd)) (fun h => absurd h hc48)
    (fun d hd => htl d (List.mem_of_mem_drop hd)) ht neg _ (by simp [hdne])]
  congr 2
  have hD : digitsValue (c :: tl.take i ++ tl.drop i) = s1 := by
    rw [List.cons_append, List.take_append_drop]; exact hval
  apply ofDecimal_finish v s1 z x _ _ neg hrt
  · rw [hD]; omega
  · rw [hD]
    congr 2
    simp only [List.length_drop]
    omega

theorem layout_small (v : ℚ) (s1 z m : Nat) (x : Int) (neg : Bool) (t : Nat) (rest : List Nat)
    (hs1 : 0 < s1) (hrt : roundsTo v (s1 * 10 ^ z) x = true)
    (hm : (m : Int) = -(((natDigits s1).length : Int) + (z : Int) + x))
    (ht : isDigit t = false ∧ t ≠ 46 ∧ t ≠ 101 ∧ t ≠ 69) :
    parseNumber ((if neg then [45] else []) ++
        (([Char.ofNat 48, Char.ofNat 46] ++ zeros m ++ natDigits s1).map Char.toNat ++
          t :: rest)) =
      some (.fin neg v, t :: rest) := by
  obtain ⟨c, tl, he, hc, hc48, htl, hval, hlen⟩ := natDigits_codes s1 hs1
  have hcodes : ([Char.ofNat 48, Char.ofNat 46] ++ zeros m ++ natDigits s1).map Char.toNat =
      (48 :: []) ++ (46 :: (List.replicate m 48 ++ (c :: tl))) := by
    rw [List.map_append, List.map_append, zeros_codes, he]
    rfl
  have hall : ∀ d ∈ List.replicate m 48 ++ (c :: tl), isDigit d = true := by
    intro d hd
    rcases List.mem_append.1 hd with h | h
    · exact replicate_all_digits m d h
    · rcases List.mem_cons.1 h with h | h
      · rw [h]; exact hc
      · exact htl d h
  rw [hcodes]
  rw [parseNumber_plain 48 [] (List.replicate m 48 ++ (c :: tl)) t rest (by decide) (by simp)
    (fun _ => rfl) hall ht neg _ (by simp)]
  congr 2
  have hD : digitsValue (48 :: [] ++ (List.replicate m 48 ++ (c :: tl))) = s1 := by
    have h1 := digitsValue_append (48 :: List.replicate m 48) (c :: tl)
    have h2 := digitsValue_replicate (m + 1)
    rw [List.replicate_succ] at h2
    rw [List.cons_append] at h1
    simp only [List.nil_append, List.cons_append]
    rw [h1, h2, hval]
    simp
  apply ofDecimal_finish v s1 z x _ _ neg hrt
  · rw [hD]; omega
  · rw [hD]
    congr 2
    simp only [List.length_append, List.length_replicate, List.length_cons]
    push_cast
    omega

theorem natDigits_codes_all (m : Nat) :
    (natDigits m).map Char.toNat ≠ [] ∧
    (∀ d ∈ (natDigits m).map Char.toNat, isDigit d = true) ∧
    digitsValue ((natDigits m).map Char.toNat) = m :=
  ⟨by
    rw [natDigits_rec]
    split <;> simp,
   natDigits_all_digits m, digitsValue_natDigits m⟩

theorem layout_exponent (v : ℚ) (s1 z : Nat) (x e : Int) (neg : Bool) (t : Nat) (rest : List Nat)
    (hs1 : 0 < s1) (hrt : roundsTo v (s1 * 10 ^ z) x = true)
    (he : e = ((natDigits s1).length : Int) + (z : Int) + x - 1)
    (ht : isDigit t = false ∧ t ≠ 46 ∧ t ≠ 101 ∧ t ≠ 69) :
    parseNumber ((if neg then [45] else []) ++
        (((match natDigits s1 with
            | [] => []
            | [d] => [d]
            | d :: more => d :: Char.ofNat 46 :: more) ++
          [Char.ofNat 101, if 0 ≤ e then Char.ofNat 43 else Char.ofNat 45] ++
          natDigits e.natAbs).map Char.toNat ++ t :: rest)) =
      some (.fin neg v, t :: rest) := by
  obtain ⟨c, tl, hcode, hc, hc48, htl, hval, hlen⟩ := natDigits_codes s1 hs1
  obtain ⟨hene, heall, heval⟩ := natDigits_codes_all e.natAbs
  have e46 : (Char.ofNat 46).toNat = 46 := by decide
  have e101 : (Char.ofNat 101).toNat = 101 := by decide
  have hmant : (match natDigits s1 with
            | [] => []
            | [d] => [d]
            | d :: more => d :: Char.ofNat 46 :: more).map Char.toNat =
      (c :: []) ++ (if tl = [] then [] else 46 :: tl) := by
    cases hds : natDigits s1 with
    | nil => rw [hds] at hcode; cases hcode
    | cons d more =>
      rw [hds] at hcode
      simp only [List.map_cons, List.cons.injEq] at hcode
      cases more with
      | nil =>
        simp only [List.map_nil] at hcode
        simp only [List.map_cons, List.map_nil, hcode.1, ← hcode.2, if_true, List.append_nil,
          List.singleton_append]
      | cons d2 more2 =>
        have hne : tl ≠ [] := by
          rw [← hcode.2]; simp
        simp only [List.map_cons, e46, hcode.1, if_neg hne, List.singleton_append]
        rw [← hcode.2]
        simp
  have hsign : ((if 0 ≤ e then Char.ofNat 43 else Char.ofNat 45 : Char)).toNat =
      (if 0 ≤ e then 43 else 45) := by
    split <;> decide
  have hcodes : ((match natDigits s1 with
            | [] => []
            | [d] => [d]
            | d :: more => d :: Char.ofNat 46 :: more) ++
          [Char.ofNat 101, if 0 ≤ e then Char.ofNat 43 else Char.ofNat 45] ++
          natDigits e.natAbs).map Char.toNat ++ t :: rest =
      (c :: []) ++ ((if tl = [] then [] else 46 :: tl) ++
        101 :: (if 0 ≤ e then 43 else 45) ::
          ((natDigits e.natAbs).map Char.toNat ++ t :: rest)) := by
    rw [List.map_append, List.map_append, hmant]
    simp only [List.map_cons, List.map_nil, e101, hsign, List.append_assoc, List.cons_append,
      List.nil_append]
  rw [hcodes]
  rw [parseNumber_exp c [] tl (if 0 ≤ e then 43 else 45) ((natDigits e.natAbs).map Char.toNat)
    t rest hc (by simp) (fun _ => rfl) htl (by split <;> simp) heall hene ht.1 neg _ rfl]
  congr 2
  have hD : digitsValue (c :: [] ++ tl) = s1 := by
    rw [List.singleton_append]; exact hval
  apply ofDecimal_finish v s1 z x _ _ neg hrt
  · rw [hD]; omega
  · rw [hD, heval]
    congr 2
    by_cases h0 : 0 ≤ e
    · simp only [h0, if_true]
      rw [if_neg (by decide)]
      omega
    · simp only [h0, if_false, if_true]
      omega

theorem positiveToString_parse (M : Nat) (E : Int)
    (hM : 0 < M) (hM53 : M < 2 ^ 53) (hE : -1074 ≤ E) (hcan : 2 ^ 52 ≤ M ∨ E = -1074)
    (hfin : (M : ℚ) * (2 : ℚ) ^ E < (2 : ℚ) ^ (1024 : Nat))
    (neg : Bool) (t : Nat) (rest : List Nat)
    (ht : isDigit t = false ∧ t ≠ 46 ∧ t ≠ 101 ∧ t ≠ 69) :
    parseNumber ((if neg then [45] else []) ++
        ((positiveToString ((M : ℚ) * (2 : ℚ) ^ E)).map Char.toNat ++ t :: rest)) =
      some (.fin neg ((M : ℚ) * (2 : ℚ) ^ E), t :: rest) := by
  have hvpos : (0 : ℚ) < (M : ℚ) * (2 : ℚ) ^ E :=
    mul_pos (by exact_mod_cast hM) (zpow_two_pos E)
  generalize hv : (M : ℚ) * (2 : ℚ) ^ E = v at hvpos
  have hnum : ((v.num.natAbs : Nat) : ℚ) / (v.den : ℚ) = v := by
    have h0 : (0 : Int) ≤ v.num := le_of_lt (Rat.num_pos.2 hvpos)
    have h2 : ((v.num.natAbs : Nat) : Int) = v.num := Int.natAbs_of_nonneg h0
    have h3 : (((v.num.natAbs : Nat) : Int) : ℚ) = (v.num : ℚ) := by rw [h2]
    rw [← Int.cast_natCast, h3]
    exact Rat.num_div_den v
  have hnpos : 0 < v.num.natAbs := Int.natAbs_pos.2 (ne_of_gt (Rat.num_pos.2 hvpos))
  obtain ⟨hdp, _⟩ := decimalPoint_spec v.num.natAbs v.den hnpos v.den_pos
  rw [hnum] at hdp
  have hrt := shortestAux_checked M E (decimalPoint v.num.natAbs v.den) hM hM53 hE hcan hfin
    (by rw [hv]; exact hdp) 17 1 (by decide) (by decide)
  rw [hv] at hrt
  have hs := roundsTo_pos v (ne_of_gt hvpos) _ _ hrt
  unfold positiveToString
  simp only []
  generalize (shortestAux 17 v (decimalPoint v.num.natAbs v.den) 1) = sx at hrt hs
  obtain ⟨s, x⟩ := sx
  simp only [] at hrt hs ⊢
  unfold stripZeros
  obtain ⟨hs1, z, hz⟩ := stripZerosAux_spec s s hs
  have hlen : (natDigits s).length = (natDigits (stripZerosAux s s)).length + z := by
    conv_lhs => rw [hz]
    rw [natDigits_mul_pow _ z hs1, List.length_append, zeros_length]
  generalize stripZerosAux s s = s1 at hs1 hz hlen
  rw [hz] at hrt
  rw [hlen]
  obtain ⟨_, _, hk1⟩ := natDigits_length_bounds s1 hs1
  by_cases h1 : ((natDigits s1).length : Int) ≤ (((natDigits s1).length + z : Nat) : Int) + x ∧
      (((natDigits s1).length + z : Nat) : Int) + x ≤ 21
  · rw [if_pos h1]
    exact layout_integer v s1 z _ x neg t rest hs1 hrt (by push_cast at h1 ⊢; omega) ht
  · rw [if_neg h1]
    by_cases h2 : 0 < (((natDigits s1).length + z : Nat) : Int) + x ∧
        (((natDigits s1).length + z : Nat) : Int) + x ≤ 21
    · rw [if_pos h2]
      exact layout_fraction v s1 z _ x neg t rest hs1 hrt (by push_cast at h2 ⊢; omega)
        (by push_cast at h1 h2 ⊢; omega) (by push_cast at h2 ⊢; omega) ht
    · rw [if_neg h2]
      by_cases h3 : -6 < (((natDigits s1).length + z : Nat) : Int) + x ∧
          (((natDigits s1).length + z : Nat) : Int) + x ≤ 0
      · rw [if_pos h3]
        exact layout_small v s1 z _ x neg t rest hs1 hrt (by push_cast at h3 ⊢; omega) ht
      · rw [if_neg h3]
        exact layout_exponent v s1 z x _ neg t rest hs1 hrt (by push_cast; ring) ht

theorem parseNumber_head (c : Nat) (r : List Nat) (x : JSNum × List Nat)
    (h : parseNumber (c :: r) = some x) : c = 45 ∨ isDigit c = true := by
  by_cases h45 : c = 45
  · exact Or.inl h45
  · right
    by_contra hd
    have hd' : isDigit c = false := by simpa using hd
    have h48 : ¬ c = 48 := by
      intro h48; rw [h48] at hd'; revert hd'; decide
    simp [parseNumber, h45, h48, hd'] at h

theorem parseValue_number (fuel : Nat) (cs : List Nat) (n : JSNum) (r : List Nat)
    (h : parseNumber cs = some (n, r)) : parseValue (fuel + 1) cs = some (.num n, r) := by
  cases cs with
  | nil => simp [parseNumber] at h
  | cons c tl =>
    have hc := parseNumber_head c tl _ h
    have hne : c ≠ 123 ∧ c ≠ 91 ∧ c ≠ 34 ∧ c ≠ 116 ∧ c ≠ 102 ∧ c ≠ 110 := by
      rcases hc with hc | hc
      · subst hc; decide
      · simp only [isDigit, Bool.and_eq_true, decide_eq_true_eq] at hc
        omega
    simp only [parseValue]
    rw [if_neg hne.1, if_neg hne.2.1, if_neg hne.2.2.1, if_neg hne.2.2.2.1, if_neg hne.2.2.2.2.1,
      if_neg hne.2.2.2.2.2, h]

theorem ofDecimal_cases (neg : Bool) (digits : Nat) (exp10 : Int) :
    (∃ b, JSNum.ofDecimal neg digits exp10 = .inf b) ∨
    JSNum.ofDecimal neg digits exp10 = .fin neg 0 ∨
    ∃ (M : Nat) (E : Int), JSNum.ofDecimal neg digits exp10 = .fin neg ((M : ℚ) * (2 : ℚ) ^ E) ∧
      0 < M ∧ M < 2 ^ 53 ∧ -1074 ≤ E ∧ (2 ^ 52 ≤ M ∨ E = -1074) ∧
      (M : ℚ) * (2 : ℚ) ^ E < (2 : ℚ) ^ (1024 : Nat) := by
  unfold JSNum.ofDecimal
  by_cases hd : digits = 0
  · rw [if_pos hd]
    exact Or.inr (Or.inl rfl)
  · rw [if_neg hd]
    simp only []
    have hdpos : 0 < digits := Nat.pos_of_ne_zero hd
    have key : ∀ num den : Nat, 0 < num → 0 < den →
        (∃ b, (match roundBinary64 num den with
          | some q => JSNum.fin neg q
          | none => JSNum.inf neg) = .inf b) ∨
        (match roundBinary64 num den with
          | some q => JSNum.fin neg q
          | none => JSNum.inf neg) = .fin neg 0 ∨
        ∃ (M : Nat) (E : Int), (match roundBinary64 num den with
          | some q => JSNum.fin neg q
          | none => JSNum.inf neg) = .fin neg ((M : ℚ) * (2 : ℚ) ^ E) ∧
          0 < M ∧ M < 2 ^ 53 ∧ -1074 ≤ E ∧ (2 ^ 52 ≤ M ∨ E = -1074) ∧
          (M : ℚ) * (2 : ℚ) ^ E < (2 : ℚ) ^ (1024 : Nat) := by
      intro num den hn hden
      cases hr : roundBinary64 num den with
      | none => exact Or.inl ⟨neg, rfl⟩
      | some q =>
        rcases roundBinary64_canonical num den hn hden q hr with h0 | ⟨M, E, hq, h⟩
        · right; left
          simp only [h0]
        · right; right
          exact ⟨M, E, by simp only [hq], h⟩
    by_cases he : 0 ≤ exp10
    · rw [if_pos he]
      exact key _ 1 (Nat.mul_pos hdpos (pow_pos (by decide) _)) (by decide)
    · rw [if_neg he]
      exact key digits _ hdpos (pow_pos (by decide) _)

/-- The characters that may follow a value inside an array or object (a comma,
a closing bracket or brace) end a number and are not white space. -/
theorem follower_props (t : Nat) (ht : t = 44 ∨ t = 93 ∨ t = 125) :
    (isDigit t = false ∧ t ≠ 46 ∧ t ≠ 101 ∧ t ≠ 69) ∧ isJSONWs t = false := by
  rcases ht with h | h | h <;> subst h <;> decide

theorem number_readsBack (neg : Bool) (digits : Nat) (exp10 : Int)
    (hinf : ∀ b, JSNum.ofDecimal neg digits exp10 ≠ .inf b)
    (hz : JSNum.ofDecimal neg digits exp10 ≠ .fin true 0) :
    ∃ text : String, JSON.serialize (.num (JSNum.ofDecimal neg digits exp10)) = some text ∧
      (∀ (fuel t : Nat) (rest : List Nat), (t = 44 ∨ t = 93 ∨ t = 125) →
        parseValue (fuel + 1) (text.data.map Char.toNat ++ t :: rest) =
          some (.num (JSNum.ofDecimal neg digits exp10), t :: rest)) ∧
      (∃ c tl, text.data.map Char.toNat = c :: tl ∧ isJSONWs c = false) := by
  rcases ofDecimal_cases neg digits exp10 with ⟨b, hb⟩ | h0 | ⟨M, E, hq, hM, hM53, hE, hcan, hfin⟩
  · exact absurd hb (hinf b)
  · rw [h0] at hz ⊢
    have hneg : neg = false := by
      cases neg with
      | true => exact absurd rfl hz
      | false => rfl
    subst hneg
    refine ⟨"0", by simp [JSON.serialize, JSNum.toJSString], ?_, ⟨48, [], rfl, by decide⟩⟩
    intro fuel t rest ht
    apply parseValue_number
    have hp := (follower_props t ht).1
    have := parseNumber_plain 48 [] [] t rest (by decide) (by simp) (fun _ => rfl) (by simp) hp
      false (48 :: t :: rest) (by simp)
    show parseNumber (48 :: t :: rest) = _
    rw [this]
    simp [JSNum.ofDecimal, digitsValue]
  · rw [hq]
    have hvpos : (0 : ℚ) < (M : ℚ) * (2 : ℚ) ^ E :=
      mul_pos (by exact_mod_cast hM) (zpow_two_pos E)
    have hne : ¬ ((M : ℚ) * (2 : ℚ) ^ E = 0) := ne_of_gt hvpos
    refine ⟨(JSNum.fin neg ((M : ℚ) * (2 : ℚ) ^ E)).toJSString, by simp only [JSON.serialize], ?_, ?_⟩
    · intro fuel t rest ht
      apply parseValue_number
      have hp := (follower_props t ht).1
      have := positiveToString_parse M E hM hM53 hE hcan hfin neg t rest hp
      rw [← this]
      congr 1
      simp only [JSNum.toJSString, hne, if_false]
      cases neg with
      | true =>
        simp only [if_true, List.map_cons, List.cons_append, List.nil_append]
        rfl
      | false => simp
    · have hp := positiveToString_parse M E hM hM53 hE hcan hfin neg 44 [] (by decide)
      have hcodes : (JSNum.fin neg ((M : ℚ) * (2 : ℚ) ^ E)).toJSString.data.map Char.toNat ++ [44] =
          (if neg then [45] else []) ++
            ((positiveToString ((M : ℚ) * (2 : ℚ) ^ E)).map Char.toNat ++ [44]) := by
        simp only [JSNum.toJSString, hne, if_false]
        cases neg with
        | true =>
          simp only [if_true, List.map_cons, List.cons_append, List.nil_append]
          rfl
        | false => simp
      rw [← hcodes] at hp
      cases hd : (JSNum.fin neg ((M : ℚ) * (2 : ℚ) ^ E)).toJSString.data.map Char.toNat with
      | nil =>
        rw [hd] at hp
        have h44 : parseNumber ([] ++ [44]) = none := rfl
        rw [h44] at hp
        cases hp
      | cons c tl =>
        rw [hd] at hp
        refine ⟨c, tl, rfl, ?_⟩
        rcases parseNumber_head c _ _ hp with h | h
        · subst h; decide
        · simp only [isDigit, Bool.and_eq_true, decide_eq_true_eq] at h
          simp only [isJSONWs, Bool.or_eq_false_iff, decide_eq_false_iff_not]
          omega

/-! ### Property order -/

theorem lookup_none_of_keys (P : List (String × JSVal)) (k : String)
    (h : ∀ a ∈ P, a.1 ≠ k) : P.lookup k = none := by
  induction P with
  | nil => rfl
  | cons a P ih =>
    obtain ⟨k1, x⟩ := a
    have h1 : k1 ≠ k := h (k1, x) (List.mem_cons_self _ _)
    have hbeq : (k == k1) = false := by
      simp only [beq_eq_false_iff_ne, ne_eq]
      exact fun hc => h1 hc.symm
    simp only [List.lookup, hbeq]
    exact ih (fun a ha => h a (List.mem_cons_of_mem _ ha))

theorem keys_of_lookup_none (P : List (String × JSVal)) (k : String)
    (h : P.lookup k = none) : ∀ a ∈ P, a.1 ≠ k := by
  induction P with
  | nil => intro a ha; cases ha
  | cons b P ih =>
    obtain ⟨k1, x⟩ := b
    simp only [List.lookup] at h
    cases hb : (k == k1) with
    | true => rw [hb] at h; cases h
    | false =>
      rw [hb] at h
      intro a ha
      rcases List.mem_cons.1 ha with ha | ha
      · rw [ha]
        simp only [beq_eq_false_iff_ne, ne_eq] at hb
        exact fun hc => hb hc.symm
      · exact ih h a ha

theorem insertIndexed_append (P : List (String × JSVal)) (k : String) (i : Nat) (v : JSVal)
    (h : ∀ a ∈ P, ∃ j, arrayIndex a.1 = some j ∧ j ≤ i) :
    insertIndexed k i v P = P ++ [(k, v)] := by
  induction P with
  | nil => rfl
  | cons a P ih =>
    obtain ⟨k1, x⟩ := a
    obtain ⟨j, hj, hji⟩ := h (k1, x) (List.mem_cons_self _ _)
    simp only [insertIndexed, hj]
    rw [if_neg (by omega), ih (fun a ha => h a (List.mem_cons_of_mem _ ha))]
    rfl

theorem setProp_append (P : List (String × JSVal)) (k : String) (v : JSVal)
    (h : KeysInOrder (P ++ [(k, v)])) : setProp P k v = P ++ [(k, v)] := by
  unfold KeysInOrder at h
  rw [List.pairwise_append] at h
  obtain ⟨_, _, hb⟩ := h
  have hb' : ∀ a ∈ P, a.1 ≠ k ∧ keyBefore a.1 k := fun a ha => hb a ha (k, v) (List.mem_singleton_self _)
  have hl := lookup_none_of_keys P k (fun a ha => (hb' a ha).1)
  unfold setProp hasOwn
  rw [hl]
  simp only [Option.isSome_none, Bool.false_eq_true, if_false]
  cases hi : arrayIndex k with
  | none => rfl
  | some i =>
    simp only []
    apply insertIndexed_append
    intro a ha
    have := (hb' a ha).2
    unfold keyBefore at this
    rw [hi] at this
    cases hj : arrayIndex a.1 with
    | none => rw [hj] at this; exact absurd this (by simp)
    | some j => rw [hj] at this; exact ⟨j, rfl, this⟩

theorem foldl_setProp_self (P : List (String × JSVal)) (h : KeysInOrder P) :
    P.foldl (fun acc kv => setProp acc kv.1 kv.2) [] = P := by
  induction P using List.reverseRecOn with
  | nil => rfl
  | append_singleton P a ih =>
    obtain ⟨k, v⟩ := a
    have hP : KeysInOrder P := by
      unfold KeysInOrder at h ⊢
      rw [List.pairwise_append] at h
      exact h.1
    rw [List.foldl_append, ih hP]
    exact setProp_append P k v h

theorem mem_insertIndexed (P : List (String × JSVal)) (k : String) (i : Nat) (v : JSVal)
    (q : String × JSVal) (h : q ∈ insertIndexed k i v P) : q = (k, v) ∨ q ∈ P := by
  induction P with
  | nil =>
    simp only [insertIndexed, List.mem_singleton] at h
    exact Or.inl h
  | cons a P ih =>
    obtain ⟨k1, x⟩ := a
    cases hj : arrayIndex k1 with
    | none =>
      simp only [insertIndexed, hj, List.mem_cons] at h
      rcases h with h | h | h
      · exact Or.inl h
      · exact Or.inr (by rw [h]; exact List.mem_cons_self _ _)
      · exact Or.inr (List.mem_cons_of_mem _ h)
    | some j =>
      simp only [insertIndexed, hj] at h
      by_cases hij : i < j
      · rw [if_pos hij] at h
        simp only [List.mem_cons] at h
        rcases h with h | h | h
        · exact Or.inl h
        · exact Or.inr (by rw [h]; exact List.mem_cons_self _ _)
        · exact Or.inr (List.mem_cons_of_mem _ h)
      · rw [if_neg hij] at h
        rcases List.mem_cons.1 h with h | h
        · exact Or.inr (by rw [h]; exact List.mem_cons_self _ _)
        · rcases ih h with h | h
          · exact Or.inl h
          · exact Or.inr (List.mem_cons_of_mem _ h)

theorem keysInOrder_insertIndexed (P : List (String × JSVal)) (k : String) (i : Nat) (v : JSVal)
    (hi : arrayIndex k = some i) (hP : KeysInOrder P) (hnew : ∀ a ∈ P, a.1 ≠ k) :
    KeysInOrder (insertIndexed k i v P) := by
  unfold KeysInOrder at hP ⊢
  induction P with
  | nil => simp [insertIndexed]
  | cons a P ih =>
    obtain ⟨k1, x⟩ := a
    rw [List.pairwise_cons] at hP
    obtain ⟨hhead, htail⟩ := hP
    have hk1 : k1 ≠ k := hnew (k1, x) (List.mem_cons_self _ _)
    cases hj : arrayIndex k1 with
    | none =>
      simp only [insertIndexed, hj]
      rw [List.pairwise_cons]
      refine ⟨?_, List.pairwise_cons.2 ⟨hhead, htail⟩⟩
      intro p hp
      refine ⟨fun hc => hnew p hp hc.symm, ?_⟩
      rcases List.mem_cons.1 hp with hp | hp
      · rw [hp]; simp only [keyBefore, hi, hj]
      · have := (hhead p hp).2
        simp only [keyBefore, hj] at this
        cases hpj : arrayIndex p.1 with
        | none => simp only [keyBefore, hi, hpj]
        | some j' => rw [hpj] at this; exact absurd this (by simp)
    | some j =>
      simp only [insertIndexed, hj]
      by_cases hij : i < j
      · rw [if_pos hij, List.pairwise_cons]
        refine ⟨?_, List.pairwise_cons.2 ⟨hhead, htail⟩⟩
        intro p hp
        refine ⟨fun hc => hnew p hp hc.symm, ?_⟩
        rcases List.mem_cons.1 hp with hp | hp
        · rw [hp]; simp only [keyBefore, hi, hj]; omega
        · have := (hhead p hp).2
          simp only [keyBefore, hj] at this
          cases hpj : arrayIndex p.1 with
          | none => simp only [keyBefore, hi, hpj]
          | some j' =>
            rw [hpj] at this
            simp only [keyBefore, hi, hpj]
            simp only [] at this
            omega
      · rw [if_neg hij, List.pairwise_cons]
        refine ⟨?_, ih htail (fun a ha => hnew a (List.mem_cons_of_mem _ ha))⟩
        intro q hq
        rcases mem_insertIndexed P k i v q hq with hq | hq
        · rw [hq]
          refine ⟨hk1, ?_⟩
          simp only [keyBefore, hi, hj]
          omega
        · exact hhead q hq

theorem keysInOrder_setProp (P : List (String × JSVal)) (k : String) (v : JSVal)
    (hP : KeysInOrder P) : KeysInOrder (setProp P k v) := by
  unfold setProp hasOwn
  cases hl : P.lookup k with
  | some x =>
    simp only [Option.isSome_some, if_true]
    unfold KeysInOrder at hP ⊢
    rw [List.pairwise_map]
    refine hP.imp ?_
    intro a b hab
    have ha : (if a.1 = k then (a.1, v) else a).1 = a.1 := by split <;> rfl
    have hb : (if b.1 = k then (b.1, v) else b).1 = b.1 := by split <;> rfl
    rw [ha, hb]
    exact hab
  | none =>
    simp only [Option.isSome_none, Bool.false_eq_true, if_false]
    have hnew := keys_of_lookup_none P k hl
    cases hi : arrayIndex k with
    | some i => exact keysInOrder_insertIndexed P k i v hi hP hnew
    | none =>
      simp only []
      unfold KeysInOrder at hP ⊢
      rw [List.pairwise_append]
      refine ⟨hP, List.pairwise_singleton _ _, ?_⟩
      intro a ha b hb
      rw [List.mem_singleton] at hb
      rw [hb]
      refine ⟨hnew a ha, ?_⟩
      simp only [keyBefore, hi]
      split <;> trivial

theorem mem_setProp (P : List (String × JSVal)) (k : String) (v : JSVal) (q : String × JSVal)
    (h : q ∈ setProp P k v) : q.2 = v ∨ q ∈ P := by
  unfold setProp at h
  split at h
  · rw [List.mem_map] at h
    obtain ⟨a, ha, hq⟩ := h
    by_cases hk : a.1 = k
    · rw [if_pos hk] at hq
      left; rw [← hq]
    · rw [if_neg hk] at hq
      right; rw [← hq]; exact ha
  · split at h
    · rcases mem_insertIndexed P k _ v q h with h | h
      · left; rw [h]
      · right; exact h
    · rcases List.mem_append.1 h with h | h
      · right; exact h
      · left
        rw [List.mem_singleton] at h
        rw [h]

/-! ### Values read from their JSON text -/

theorem readsAs_of (text : String) (v : JSVal)
    (hw : ∃ c tl, text.data.map Char.toNat = c :: tl ∧ isJSONWs c = false)
    (hp : ∀ (fuel t : Nat) (rest : List Nat), (t = 44 ∨ t = 93 ∨ t = 125) →
      parseValue (fuel + 1) (text.data.map Char.toNat ++ t :: rest) = some (v, t :: rest)) :
    ReadsAs text v := by
  refine ⟨hw, ?_⟩
  intro fuel t rest hf ht
  obtain ⟨c, tl, hc, _⟩ := hw
  have hlen : 1 ≤ text.length := by
    have := congrArg List.length hc
    simp only [List.length_map, List.length_cons] at this
    show 1 ≤ text.data.length
    omega
  obtain ⟨f, rfl⟩ : ∃ f, fuel = f + 1 := ⟨fuel - 1, by omega⟩
  exact hp f t rest ht

theorem readsAs_nullText : ReadsAs "null" .null :=
  readsAs_of "null" .null ⟨110, _, rfl, by decide⟩ (fun _ _ _ _ => rfl)

theorem readsBackAs_null : ReadsBackAs .null .null :=
  ⟨"null", by simp only [JSON.serialize], readsAs_nullText⟩

theorem readsBackAs_bool (b : Bool) : ReadsBackAs (.bool b) (.bool b) := by
  cases b with
  | true =>
    exact ⟨"true", by simp only [JSON.serialize],
      readsAs_of "true" _ ⟨116, _, rfl, by decide⟩ (fun _ _ _ _ => rfl)⟩
  | false =>
    exact ⟨"false", by simp only [JSON.serialize],
      readsAs_of "false" _ ⟨102, _, rfl, by decide⟩ (fun _ _ _ _ => rfl)⟩

theorem readsBackAs_str (s : String) : ReadsBackAs (.str s) (.str s) := by
  refine ⟨quoteJSONString s, by simp only [JSON.serialize], readsAs_of _ _ ?_ ?_⟩
  · have hq := quoteJSONString_codes s []
    rw [List.append_nil] at hq
    exact ⟨34, _, hq, by decide⟩
  · intro fuel t rest _
    exact parseValue_quoted s fuel (t :: rest)

theorem readsBackAs_num (neg : Bool) (digits : Nat) (exp10 : Int) :
    ReadsBackAs (.num (JSNum.ofDecimal neg digits exp10))
      (JSVal.written (.num (JSNum.ofDecimal neg digits exp10))) := by
  rcases ofDecimal_cases neg digits exp10 with ⟨b, hb⟩ | h0 | ⟨M, E, hq, hM, _⟩
  · rw [hb]
    exact ⟨"null", by simp only [JSON.serialize], by
      simp only [JSVal.written]; exact readsAs_nullText⟩
  · rw [h0]
    refine ⟨"0", by simp [JSON.serialize, JSNum.toJSString], ?_⟩
    have hw : JSVal.written (.num (.fin neg 0)) = .num (.fin false 0) := by
      simp [JSVal.written]
    rw [hw]
    refine readsAs_of "0" _ ⟨48, [], rfl, by decide⟩ ?_
    intro fuel t rest ht
    apply parseValue_number
    have hp := (follower_props t ht).1
    have := parseNumber_plain 48 [] [] t rest (by decide) (by simp) (fun _ => rfl) (by simp) hp
      false (48 :: t :: rest) (by simp)
    show parseNumber (48 :: t :: rest) = _
    rw [this]
    simp [JSNum.ofDecimal, digitsValue]
  · have hvpos : (0 : ℚ) < (M : ℚ) * (2 : ℚ) ^ E :=
      mul_pos (by exact_mod_cast hM) (zpow_two_pos E)
    have hinf : ∀ b, JSNum.ofDecimal neg digits exp10 ≠ .inf b := by
      intro b hb; rw [hq] at hb; cases hb
    have hz : JSNum.ofDecimal neg digits exp10 ≠ .fin true 0 := by
      intro hb
      rw [hq] at hb
      simp only [JSNum.fin.injEq] at hb
      exact absurd hb.2 (ne_of_gt hvpos)
    obtain ⟨text, h1, h2, h3⟩ := number_readsBack neg digits exp10 hinf hz
    have hw : JSVal.written (.num (JSNum.ofDecimal neg digits exp10)) =
        .num (JSNum.ofDecimal neg digits exp10) := by
      rw [hq]
      simp [JSVal.written, ne_of_gt hvpos]
    rw [hw]
    exact ⟨text, h1, readsAs_of text _ h3 h2⟩

theorem readsAs_head (text : String) (v : JSVal) (h : ReadsAs text v) :
    ∃ c tl, text.data.map Char.toNat = c :: tl ∧ isJSONWs c = false ∧ c ≠ 93 ∧ 1 ≤ text.length := by
  obtain ⟨⟨c, tl, hc, hw⟩, hp⟩ := h
  refine ⟨c, tl, hc, hw, ?_, ?_⟩
  · intro h93
    have := hp (text.length + 1) 44 [] (by omega) (Or.inl rfl)
    rw [hc, h93] at this
    simp [parseValue, parseNumber, isDigit] at this
  · have := congrArg List.length hc
    simp only [List.length_map, List.length_cons] at this
    show 1 ≤ text.data.length
    omega

theorem skipWs_head (l : List Nat) (c : Nat) (tl : List Nat) (h : l = c :: tl)
    (hw : isJSONWs c = false) : skipWs l = l := by
  rw [h]; exact skipWs_cons c tl hw

/-- The texts of the elements of an array, joined by commas and closed by a
bracket, read as the array of their values. -/
theorem parseElements_texts (tv : List (String × JSVal)) :
    ∀ (p : String × JSVal), (∀ x ∈ p :: tv, ReadsAs x.1 x.2) →
      (∃ c tl, (commaJoin ((p :: tv).map Prod.fst)).data.map Char.toNat = c :: tl ∧
        isJSONWs c = false ∧ c ≠ 93) ∧
      ∀ (acc : List JSVal) (fuel : Nat) (R : List Nat),
        (commaJoin ((p :: tv).map Prod.fst)).length + 1 ≤ fuel →
        parseElements fuel
            ((commaJoin ((p :: tv).map Prod.fst)).data.map Char.toNat ++ 93 :: R) acc =
          some (.arr (acc.reverse ++ (p :: tv).map Prod.snd), R) := by
  induction tv with
  | nil =>
    intro p hl
    obtain ⟨text, e⟩ := p
    have hr : ReadsAs text e := hl (text, e) (List.mem_cons_self _ _)
    obtain ⟨c, tl, hc, hw, h93, hlen⟩ := readsAs_head text e hr
    obtain ⟨_, hp⟩ := hr
    simp only [List.map_cons, List.map_nil, commaJoin]
    refine ⟨⟨c, tl, hc, hw, h93⟩, ?_⟩
    intro acc fuel R hf
    obtain ⟨f, rfl⟩ : ∃ f, fuel = f + 1 := ⟨fuel - 1, by omega⟩
    simp only [parseElements]
    rw [hp f 93 R (by omega) (Or.inr (Or.inl rfl))]
    simp only [skipWs_cons 93 R (by decide)]
    simp
  | cons p2 tv ih =>
    intro p hl
    obtain ⟨text, e⟩ := p
    have hr : ReadsAs text e := hl (text, e) (List.mem_cons_self _ _)
    obtain ⟨c, tl, hc, hw, h93, hlen⟩ := readsAs_head text e hr
    obtain ⟨_, hp⟩ := hr
    obtain ⟨⟨c2, tl2, hc2, hw2, _⟩, ih2⟩ := ih p2 (fun x hx => hl x (List.mem_cons_of_mem _ hx))
    have hcj : commaJoin (((text, e) :: p2 :: tv).map Prod.fst) =
        text ++ "," ++ commaJoin ((p2 :: tv).map Prod.fst) := by
      simp only [List.map_cons, commaJoin]
    have hcodes : ∀ X : List Nat,
        (text ++ "," ++ commaJoin ((p2 :: tv).map Prod.fst)).data.map Char.toNat ++ X =
        text.data.map Char.toNat ++ 44 ::
          ((commaJoin ((p2 :: tv).map Prod.fst)).data.map Char.toNat ++ X) := by
      intro X
      simp only [String.data_append, List.map_append, List.append_assoc]
      rfl
    rw [hcj]
    refine ⟨⟨c, tl ++ (44 :: (commaJoin ((p2 :: tv).map Prod.fst)).data.map Char.toNat),
      ?_, hw, h93⟩, ?_⟩
    · have := hcodes []
      simp only [List.append_nil] at this
      rw [this, hc]
      rfl
    · intro acc fuel R hf
      obtain ⟨f, rfl⟩ : ∃ f, fuel = f + 1 := ⟨fuel - 1, by omega⟩
      have hlen2 : (text ++ "," ++ commaJoin ((p2 :: tv).map Prod.fst)).length =
          text.length + 1 + (commaJoin ((p2 :: tv).map Prod.fst)).length := by
        simp only [String.length_append]
        rfl
      rw [hlen2] at hf
      rw [hcodes]
      simp only [parseElements]
      rw [hp f 44 _ (by omega) (Or.inl rfl)]
      simp only [skipWs_cons 44 _ (by decide), if_true]
      rw [skipWs_head _ c2 (tl2 ++ 93 :: R) (by rw [hc2]; rfl) hw2]
      rw [ih2 (e :: acc) f R (by omega)]
      simp

theorem readsAs_arrayText (tv : List (String × JSVal)) (hl : ∀ x ∈ tv, ReadsAs x.1 x.2) :
    ReadsAs ("[" ++ commaJoin (tv.map Prod.fst) ++ "]") (.arr (tv.map Prod.snd)) := by
  have hcodes : ∀ X : List Nat,
      ("[" ++ commaJoin (tv.map Prod.fst) ++ "]").data.map Char.toNat ++ X =
      91 :: ((commaJoin (tv.map Prod.fst)).data.map Char.toNat ++ 93 :: X) := by
    intro X
    simp only [String.data_append, List.map_append, List.append_assoc]
    rfl
  refine ⟨⟨91, _, by
    have := hcodes []
    rw [List.append_nil] at this
    exact this, by decide⟩, ?_⟩
  intro fuel t rest hf ht
  have hlen : ("[" ++ commaJoin (tv.map Prod.fst) ++ "]").length =
      (commaJoin (tv.map Prod.fst)).length + 2 := by
    simp only [String.length_append]
    have h1 : "[".length = 1 := rfl
    have h2 : "]".length = 1 := rfl
    omega
  rw [hlen] at hf
  obtain ⟨f, rfl⟩ : ∃ f, fuel = f + 1 := ⟨fuel - 1, by omega⟩
  rw [hcodes]
  cases tv with
  | nil =>
    simp only [List.map_nil, commaJoin]
    simp only [parseValue]
    rw [if_neg (by decide), if_pos trivial]
    simp [skipWs_cons 93 _ (by decide)]
  | cons p tv =>
    obtain ⟨⟨c, tl, hc, hw, h93⟩, hp⟩ := parseElements_texts tv p hl
    simp only [parseValue]
    rw [if_neg (by decide), if_pos trivial]
    rw [skipWs_head _ c (tl ++ 93 :: t :: rest) (by rw [hc]; rfl) hw]
    rw [hc]
    simp only [List.cons_append, List.head?_cons, Option.some.injEq, h93, if_false]
    rw [← List.cons_append, ← hc, hp [] f (t :: rest) (by omega)]
    simp

theorem elems_texts (l : List JSVal) (h : ∀ x ∈ l, ReadsBackAs x (JSVal.written x)) :
    ∃ tv : List (String × JSVal), JSON.serializeElems l = tv.map Prod.fst ∧
      JSVal.writtenElems l = tv.map Prod.snd ∧ ∀ p ∈ tv, ReadsAs p.1 p.2 := by
  induction l with
  | nil => exact ⟨[], rfl, rfl, fun p hp => by cases hp⟩
  | cons e l ih =>
    obtain ⟨tv, h1, h2, h3⟩ := ih (fun x hx => h x (List.mem_cons_of_mem _ hx))
    obtain ⟨text, hs, hr⟩ := h e (List.mem_cons_self _ _)
    refine ⟨(text, JSVal.written e) :: tv, ?_, ?_, ?_⟩
    · simp only [JSON.serializeElems, hs, h1, List.map_cons]
    · simp only [JSVal.writtenElems, h2, List.map_cons]
    · intro p hp
      rcases List.mem_cons.1 hp with hp | hp
      · rw [hp]; exact hr
      · exact h3 p hp

theorem readsBackAs_arr (l : List JSVal) (h : ∀ x ∈ l, ReadsBackAs x (JSVal.written x)) :
    ReadsBackAs (.arr l) (JSVal.written (.arr l)) := by
  obtain ⟨tv, h1, h2, h3⟩ := elems_texts l h
  refine ⟨"[" ++ commaJoin (tv.map Prod.fst) ++ "]", ?_, ?_⟩
  · simp only [JSON.serialize, h1]
  · simp only [JSVal.written, h2]
    exact readsAs_arrayText tv h3

/-! ### Objects read from their JSON text -/

/-- The texts of the members of an object, joined by commas and closed by a
brace, read as the object built from their keys and values. -/
theorem parseMembers_texts (mv : List (String × String × JSVal)) :
    ∀ (m : String × String × JSVal), (∀ x ∈ m :: mv, ReadsAs x.2.1 x.2.2) →
      (∃ tl, (commaJoin ((m :: mv).map
          (fun x => quoteJSONString x.1 ++ ":" ++ x.2.1))).data.map Char.toNat = 34 :: tl) ∧
      ∀ (acc : List (String × JSVal)) (fuel : Nat) (R : List Nat),
        (commaJoin ((m :: mv).map
          (fun x => quoteJSONString x.1 ++ ":" ++ x.2.1))).length + 1 ≤ fuel →
        parseMembers fuel
            ((commaJoin ((m :: mv).map
              (fun x => quoteJSONString x.1 ++ ":" ++ x.2.1))).data.map Char.toNat ++
              125 :: R) acc =
          some (.obj (((m :: mv).map (fun x => (x.1, x.2.2))).foldl
            (fun a kv => setProp a kv.1 kv.2) acc), R) := by
  induction mv with
  | nil =>
    intro m hl
    obtain ⟨k, text, v⟩ := m
    have hr : ReadsAs text v := hl (k, text, v) (List.mem_cons_self _ _)
    obtain ⟨c, tl, hc, hw, _, hlen⟩ := readsAs_head text v hr
    obtain ⟨_, hp⟩ := hr
    have hcodes : ∀ X : List Nat,
        (quoteJSONString k ++ ":" ++ text).data.map Char.toNat ++ X =
        34 :: ((k.data.map quoteChar).flatten.map Char.toNat ++
          34 :: 58 :: (text.data.map Char.toNat ++ X)) := by
      intro X
      have := quoteJSONString_codes k (58 :: (text.data.map Char.toNat ++ X))
      rw [← this]
      simp only [String.data_append, List.map_append, List.append_assoc]
      rfl
    simp only [List.map_cons, List.map_nil, commaJoin]
    refine ⟨⟨_, by have := hcodes []; rw [List.append_nil] at this; exact this⟩, ?_⟩
    intro acc fuel R hf
    obtain ⟨f, rfl⟩ : ∃ f, fuel = f + 1 := ⟨fuel - 1, by omega⟩
    have hlen2 : (quoteJSONString k ++ ":" ++ text).length =
        (quoteJSONString k).length + 1 + text.length := by
      simp only [String.length_append]
      rfl
    rw [hlen2] at hf
    rw [hcodes]
    simp only [parseMembers]
    rw [if_pos trivial, parseString_quoted]
    simp only [skipWs_cons 58 _ (by decide)]
    rw [if_pos trivial, skipWs_head _ c (tl ++ 125 :: R) (by rw [hc]; rfl) hw,
      hp f 125 R (by omega) (Or.inr (Or.inr rfl))]
    simp only [skipWs_cons 125 _ (by decide)]
    simp
  | cons m2 mv ih =>
    intro m hl
    obtain ⟨k, text, v⟩ := m
    have hr : ReadsAs text v := hl (k, text, v) (List.mem_cons_self _ _)
    obtain ⟨c, tl, hc, hw, _, hlen⟩ := readsAs_head text v hr
    obtain ⟨_, hp⟩ := hr
    obtain ⟨⟨tl2, hc2⟩, ih2⟩ := ih m2 (fun x hx => hl x (List.mem_cons_of_mem _ hx))
    have hcj : commaJoin (((k, text, v) :: m2 :: mv).map
          (fun x => quoteJSONString x.1 ++ ":" ++ x.2.1)) =
        (quoteJSONString k ++ ":" ++ text) ++ "," ++
          commaJoin ((m2 :: mv).map (fun x => quoteJSONString x.1 ++ ":" ++ x.2.1)) := by
      simp only [List.map_cons, commaJoin]
    have hcodes : ∀ X : List Nat,
        ((quoteJSONString k ++ ":" ++ text) ++ "," ++
          commaJoin ((m2 :: mv).map
            (fun x => quoteJSONString x.1 ++ ":" ++ x.2.1))).data.map Char.toNat ++ X =
        34 :: ((k.data.map quoteChar).flatten.map Char.toNat ++
          34 :: 58 :: (text.data.map Char.toNat ++ 44 ::
            ((commaJoin ((m2 :: mv).map
              (fun x => quoteJSONString x.1 ++ ":" ++ x.2.1))).data.map Char.toNat ++ X))) := by
      intro X
      have := quoteJSONString_codes k (58 :: (text.data.map Char.toNat ++ 44 ::
            ((commaJoin ((m2 :: mv).map
              (fun x => quoteJSONString x.1 ++ ":" ++ x.2.1))).data.map Char.toNat ++ X)))
      rw [← this]
      simp only [String.data_append, List.map_append, List.append_assoc]
      rfl
    rw [hcj]
    refine ⟨⟨_, by have := hcodes []; rw [List.append_nil] at this; exact this⟩, ?_⟩
    intro acc fuel R hf
    obtain ⟨f, rfl⟩ : ∃ f, fuel = f + 1 := ⟨fuel - 1, by omega⟩
    have hlen2 : ((quoteJSONString k ++ ":" ++ text) ++ "," ++
          commaJoin ((m2 :: mv).map (fun x => quoteJSONString x.1 ++ ":" ++ x.2.1))).length =
        (quoteJSONString k).length + 1 + text.length + 1 +
          (commaJoin ((m2 :: mv).map
            (fun x => quoteJSONString x.1 ++ ":" ++ x.2.1))).length := by
      simp only [String.length_append]
      rfl
    rw [hlen2] at hf
    rw [hcodes]
    simp only [parseMembers]
    rw [if_pos trivial, parseString_quoted]
    simp only [skipWs_cons 58 _ (by decide)]
    rw [if_pos trivial, skipWs_head _ c _ (by rw [hc]; rfl) hw,
      hp f 44 _ (by omega) (Or.inl rfl)]
    simp only [skipWs_cons 44 _ (by decide), if_true]
    rw [skipWs_head _ 34 (tl2 ++ 125 :: R) (by rw [hc2]; rfl) (by decide)]
    rw [ih2 (setProp acc k v) f R (by omega)]
    rfl

/-- The text of an object followed by anything reads as the object, given
fuel beyond the length of the text. -/
theorem parseValue_objectText (mv : List (String × String × JSVal))
    (hk : KeysInOrder (mv.map (fun x => (x.1, x.2.2))))
    (hl : ∀ x ∈ mv, ReadsAs x.2.1 x.2.2) (fuel : Nat) (R : List Nat)
    (hf : ("\x7b" ++ commaJoin (mv.map (fun x => quoteJSONString x.1 ++ ":" ++ x.2.1)) ++
      "\x7d").length ≤ fuel) :
    parseValue fuel
        (("\x7b" ++ commaJoin (mv.map (fun x => quoteJSONString x.1 ++ ":" ++ x.2.1)) ++
          "\x7d").data.map Char.toNat ++ R) =
      some (.obj (mv.map (fun x => (x.1, x.2.2))), R) := by
  have hcodes : ∀ X : List Nat,
      ("\x7b" ++ commaJoin (mv.map (fun x => quoteJSONString x.1 ++ ":" ++ x.2.1)) ++
        "\x7d").data.map Char.toNat ++ X =
      123 :: ((commaJoin (mv.map
        (fun x => quoteJSONString x.1 ++ ":" ++ x.2.1))).data.map Char.toNat ++ 125 :: X) := by
    intro X
    simp only [String.data_append, List.map_append, List.append_assoc]
    rfl
  have hlen : ("\x7b" ++ commaJoin (mv.map (fun x => quoteJSONString x.1 ++ ":" ++ x.2.1)) ++
      "\x7d").length =
      (commaJoin (mv.map (fun x => quoteJSONString x.1 ++ ":" ++ x.2.1))).length + 2 := by
    simp only [String.length_append]
    have h1 : "\x7b".length = 1 := rfl
    have h2 : "\x7d".length = 1 := rfl
    omega
  rw [hlen] at hf
  obtain ⟨f, rfl⟩ : ∃ f, fuel = f + 1 := ⟨fuel - 1, by omega⟩
  rw [hcodes]
  cases mv with
  | nil =>
    simp only [List.map_nil, commaJoin]
    simp only [parseValue]
    rw [if_pos trivial]
    simp only [List.nil_append, skipWs_cons 125 R (by decide)]
    simp
  | cons m mv =>
    obtain ⟨⟨tl, hc⟩, hp⟩ := parseMembers_texts mv m hl
    simp only [parseValue]
    rw [if_pos trivial]
    rw [skipWs_head _ 34 (tl ++ 125 :: R) (by rw [hc]; rfl) (by decide)]
    rw [hc]
    simp only [List.cons_append, List.head?_cons, Option.some.injEq]
    rw [if_neg (by decide)]
    rw [← List.cons_append, ← hc, hp [] f R (by omega)]
    rw [foldl_setProp_self _ hk]

theorem readsAs_objectText (mv : List (String × String × JSVal))
    (hk : KeysInOrder (mv.map (fun x => (x.1, x.2.2))))
    (hl : ∀ x ∈ mv, ReadsAs x.2.1 x.2.2) :
    ReadsAs ("\x7b" ++ commaJoin (mv.map (fun x => quoteJSONString x.1 ++ ":" ++ x.2.1)) ++ "\x7d")
      (.obj (mv.map (fun x => (x.1, x.2.2)))) := by
  refine ⟨⟨123, _, by
    simp only [String.data_append, List.map_append, List.append_assoc]
    rfl, by decide⟩, ?_⟩
  intro fuel t rest hf _
  exact parseValue_objectText mv hk hl fuel (t :: rest) hf

theorem parse_objectText (mv : List (String × String × JSVal))
    (hk : KeysInOrder (mv.map (fun x => (x.1, x.2.2))))
    (hl : ∀ x ∈ mv, ReadsAs x.2.1 x.2.2) :
    JSON.parse ("\x7b" ++ commaJoin (mv.map (fun x => quoteJSONString x.1 ++ ":" ++ x.2.1)) ++
        "\x7d") =
      .ok (.obj (mv.map (fun x => (x.1, x.2.2)))) := by
  have hhead : ∃ tl, ("\x7b" ++ commaJoin (mv.map
      (fun x => quoteJSONString x.1 ++ ":" ++ x.2.1)) ++ "\x7d").data.map Char.toNat =
      123 :: tl := ⟨_, by
    simp only [String.data_append, List.map_append, List.append_assoc]
    rfl⟩
  obtain ⟨tl, htl⟩ := hhead
  have hp := parseValue_objectText mv hk hl
    (2 * (("\x7b" ++ commaJoin (mv.map (fun x => quoteJSONString x.1 ++ ":" ++ x.2.1)) ++
        "\x7d").data.map Char.toNat).length + 2) []
    (by
      rw [List.length_map]
      show ("\x7b" ++ commaJoin (mv.map (fun x => quoteJSONString x.1 ++ ":" ++ x.2.1)) ++
        "\x7d").data.length ≤ _
      omega)
  rw [List.append_nil] at hp
  unfold JSON.parse
  simp only []
  rw [skipWs_head _ 123 tl htl (by decide), hp]
  simp [skipWs]

theorem serialize_isUndefined (v : JSVal) :
    (JSON.serialize v = none ↔ JSVal.isUndefined v = true) := by
  cases v with
  | undefined => simp [JSON.serialize, JSVal.isUndefined]
  | null => simp [JSON.serialize, JSVal.isUndefined]
  | bool b => cases b <;> simp [JSON.serialize, JSVal.isUndefined]
  | num n => cases n <;> simp [JSON.serialize, JSVal.isUndefined]
  | str s => simp [JSON.serialize, JSVal.isUndefined]
  | arr l => simp [JSON.serialize, JSVal.isUndefined]
  | obj ps => simp [JSON.serialize, JSVal.isUndefined]

theorem props_texts (props : List (String × JSVal))
    (h : ∀ kv ∈ props, JSVal.isUndefined kv.2 = true ∨ ReadsBackAs kv.2 (JSVal.written kv.2)) :
    ∃ mv : List (String × String × JSVal),
      JSON.serializeProps props = mv.map (fun x => quoteJSONString x.1 ++ ":" ++ x.2.1) ∧
      JSVal.writtenProps props = mv.map (fun x => (x.1, x.2.2)) ∧
      ∀ x ∈ mv, ReadsAs x.2.1 x.2.2 := by
  induction props with
  | nil => exact ⟨[], rfl, rfl, fun p hp => by cases hp⟩
  | cons kv props ih =>
    obtain ⟨k, v⟩ := kv
    obtain ⟨mv, h1, h2, h3⟩ := ih (fun x hx => h x (List.mem_cons_of_mem _ hx))
    by_cases hu : JSVal.isUndefined v = true
    · have hs := (serialize_isUndefined v).2 hu
      refine ⟨mv, ?_, ?_, h3⟩
      · simp only [JSON.serializeProps, hs, h1]
      · simp only [JSVal.writtenProps, hu, if_true, h2]
    · rcases h (k, v) (List.mem_cons_self _ _) with hc | ⟨text, hs, hr⟩
      · exact absurd hc hu
      · refine ⟨(k, text, JSVal.written v) :: mv, ?_, ?_, ?_⟩
        · simp only [JSON.serializeProps, hs, h1, List.map_cons]
        · simp only [JSVal.writtenProps, hu, h2, List.map_cons]
          simp
        · intro p hp
          rcases List.mem_cons.1 hp with hp | hp
          · rw [hp]; exact hr
          · exact h3 p hp

theorem readsBackAs_obj (props : List (String × JSVal))
    (hk : KeysInOrder (JSVal.writtenProps props))
    (h : ∀ kv ∈ props, JSVal.isUndefined kv.2 = true ∨ ReadsBackAs kv.2 (JSVal.written kv.2)) :
    ReadsBackAs (.obj props) (JSVal.written (.obj props)) := by
  obtain ⟨mv, h1, h2, h3⟩ := props_texts props h
  refine ⟨_, by simp only [JSON.serialize, h1]; rfl, ?_⟩
  simp only [JSVal.written, h2]
  rw [h2] at hk
  exact readsAs_objectText mv hk h3

theorem parse_stringify_obj (props : List (String × JSVal))
    (hk : KeysInOrder (JSVal.writtenProps props))
    (h : ∀ kv ∈ props, JSVal.isUndefined kv.2 = true ∨ ReadsBackAs kv.2 (JSVal.written kv.2)) :
    ∃ text : String, JSON.stringify (.obj props) = some text ∧
      JSON.parse text = .ok (JSVal.written (.obj props)) := by
  obtain ⟨mv, h1, h2, h3⟩ := props_texts props h
  refine ⟨_, by simp only [JSON.stringify, JSON.serialize, h1]; rfl, ?_⟩
  simp only [JSVal.written, h2]
  rw [h2] at hk
  exact parse_objectText mv hk h3

/-! ### Every value of a parsed text is read back as it is written -/

theorem parseNumber_ofDecimal (cs : List Nat) (n : JSNum) (r : List Nat)
    (h : parseNumber cs = some (n, r)) :
    ∃ (neg : Bool) (digits : Nat) (exp10 : Int), n = JSNum.ofDecimal neg digits exp10 := by
  unfold parseNumber at h
  simp only [] at h
  split at h
  · cases h
  · split at h
    · cases h
    · split at h
      · split at h
        · cases h
        · simp only [Option.some.injEq, Prod.mk.injEq] at h
          exact ⟨_, _, _, h.1.symm⟩
      · simp only [Option.some.injEq, Prod.mk.injEq] at h
        exact ⟨_, _, _, h.1.symm⟩

theorem mem_writtenProps (props : List (String × JSVal)) (b : String × JSVal)
    (h : b ∈ JSVal.writtenProps props) : ∃ a ∈ props, a.1 = b.1 := by
  induction props with
  | nil => cases h
  | cons kv props ih =>
    obtain ⟨k, v⟩ := kv
    simp only [JSVal.writtenProps] at h
    split at h
    · obtain ⟨a, ha, he⟩ := ih h
      exact ⟨a, List.mem_cons_of_mem _ ha, he⟩
    · rcases List.mem_cons.1 h with h | h
      · exact ⟨(k, v), List.mem_cons_self _ _, by rw [h]⟩
      · obtain ⟨a, ha, he⟩ := ih h
        exact ⟨a, List.mem_cons_of_mem _ ha, he⟩

/-- Writing an object keeps its keys in their order. -/
theorem keysInOrder_writtenProps (props : List (String × JSVal)) (hk : KeysInOrder props) :
    KeysInOrder (JSVal.writtenProps props) := by
  induction props with
  | nil => exact List.Pairwise.nil
  | cons kv props ih =>
    obtain ⟨k, v⟩ := kv
    unfold KeysInOrder at hk
    rw [List.pairwise_cons] at hk
    have ih2 := ih hk.2
    simp only [JSVal.writtenProps]
    split
    · exact ih2
    · unfold KeysInOrder
      rw [List.pairwise_cons]
      refine ⟨?_, ih2⟩
      intro b hb
      obtain ⟨a, ha, he⟩ := mem_writtenProps props b hb
      have := hk.1 a ha
      rw [he] at this
      exact this

theorem length_writtenProps (props : List (String × JSVal)) :
    (JSVal.writtenProps props).length ≤ props.length := by
  induction props with
  | nil => exact Nat.le_refl _
  | cons kv props ih =>
    obtain ⟨k, v⟩ := kv
    simp only [JSVal.writtenProps]
    split
    · simp only [List.length_cons]; omega
    · simp only [List.length_cons]; omega

theorem good_obj (props : List (String × JSVal)) (hk : KeysInOrder props)
    (hl : ∀ kv ∈ props, ReadsBackAs kv.2 (JSVal.written kv.2)) :
    ReadsBackAs (.obj props) (JSVal.written (.obj props)) :=
  readsBackAs_obj props (keysInOrder_writtenProps props hk) (fun kv hkv => Or.inr (hl kv hkv))

theorem parser_invariant : ∀ fuel : Nat,
    (∀ (cs : List Nat) (v : JSVal) (r : List Nat), parseValue fuel cs = some (v, r) →
      ReadsBackAs v (JSVal.written v) ∧
      ∀ props, v = .obj props → KeysInOrder props ∧
        ∀ kv ∈ props, ReadsBackAs kv.2 (JSVal.written kv.2)) ∧
    (∀ (cs : List Nat) (acc : List JSVal) (v : JSVal) (r : List Nat),
      parseElements fuel cs acc = some (v, r) →
      (∀ a ∈ acc, ReadsBackAs a (JSVal.written a)) →
      ReadsBackAs v (JSVal.written v) ∧ ∀ props, v ≠ .obj props) ∧
    (∀ (cs : List Nat) (acc : List (String × JSVal)) (v : JSVal) (r : List Nat),
      parseMembers fuel cs acc = some (v, r) → KeysInOrder acc →
      (∀ kv ∈ acc, ReadsBackAs kv.2 (JSVal.written kv.2)) →
      ∃ props, v = .obj props ∧ KeysInOrder props ∧
        ∀ kv ∈ props, ReadsBackAs kv.2 (JSVal.written kv.2)) := by
  intro fuel
  induction fuel with
  | zero =>
    refine ⟨?_, ?_, ?_⟩
    · intro cs v r h; simp [parseValue] at h
    · intro cs acc v r h; simp [parseElements] at h
    · intro cs acc v r h; simp [parseMembers] at h
  | succ f ih =>
    obtain ⟨ihV, ihE, ihM⟩ := ih
    refine ⟨?_, ?_, ?_⟩
    · intro cs v r h
      cases cs with
      | nil => simp [parseValue] at h
      | cons c rest =>
        simp only [parseValue] at h
        split at h
        · -- object
          split at h
          · simp only [Option.some.injEq, Prod.mk.injEq] at h
            rw [← h.1]
            refine ⟨good_obj [] List.Pairwise.nil (fun kv hkv => by cases hkv), ?_⟩
            intro props hp
            cases hp
            exact ⟨List.Pairwise.nil, fun kv hkv => by cases hkv⟩
          · obtain ⟨props, hv, hk, hl⟩ := ihM _ _ _ _ h List.Pairwise.nil
              (fun kv hkv => by cases hkv)
            rw [hv]
            refine ⟨good_obj props hk hl, ?_⟩
            intro props1 hp
            cases hp
            exact ⟨hk, hl⟩
        · split at h
          · -- array
            split at h
            · simp only [Option.some.injEq, Prod.mk.injEq] at h
              rw [← h.1]
              exact ⟨readsBackAs_arr [] (fun x hx => by cases hx),
                fun props hp => by cases hp⟩
            · obtain ⟨hg, hno⟩ := ihE _ _ _ _ h (fun a ha => by cases ha)
              exact ⟨hg, fun props hp => absurd hp (hno props)⟩
          · split at h
            · -- string
              split at h
              · simp only [Option.some.injEq, Prod.mk.injEq] at h
                rw [← h.1]
                exact ⟨readsBackAs_str _, fun props hp => by cases hp⟩
              · cases h
            · split at h
              · split at h
                · simp only [Option.some.injEq, Prod.mk.injEq] at h
                  rw [← h.1]
                  exact ⟨readsBackAs_bool _, fun props hp => by cases hp⟩
                · cases h
              · split at h
                · split at h
                  · simp only [Option.some.injEq, Prod.mk.injEq] at h
                    rw [← h.1]
                    exact ⟨readsBackAs_bool _, fun props hp => by cases hp⟩
                  · cases h
                · split at h
                  · split at h
                    · simp only [Option.some.injEq, Prod.mk.injEq] at h
                      rw [← h.1]
                      exact ⟨readsBackAs_null, fun props hp => by cases hp⟩
                    · cases h
                  · split at h
                    · rename_i n r1 hn
                      simp only [Option.some.injEq, Prod.mk.injEq] at h
                      rw [← h.1]
                      obtain ⟨neg, digits, exp10, hd⟩ := parseNumber_ofDecimal _ _ _ hn
                      rw [hd]
                      exact ⟨readsBackAs_num neg digits exp10,
                        fun props hp => by cases hp⟩
                    · cases h
    · intro cs acc v r h hacc
      simp only [parseElements] at h
      split at h
      · cases h
      · rename_i v1 rest1 hv1
        have hg1 := (ihV _ _ _ hv1).1
        split at h
        · cases h
        · split at h
          · exact ihE _ _ _ _ h (by
              intro a ha
              rcases List.mem_cons.1 ha with ha | ha
              · rw [ha]; exact hg1
              · exact hacc a ha)
          · split at h
            · simp only [Option.some.injEq, Prod.mk.injEq] at h
              rw [← h.1]
              refine ⟨readsBackAs_arr _ ?_, fun props hp => by cases hp⟩
              intro x hx
              rw [List.mem_reverse] at hx
              rcases List.mem_cons.1 hx with hx | hx
              · rw [hx]; exact hg1
              · exact hacc x hx
            · cases h
    · intro cs acc v r h hk hacc
      simp only [parseMembers] at h
      split at h
      · cases h
      · split at h
        · split at h
          · cases h
          · split at h
            · cases h
            · split at h
              · split at h
                · cases h
                · rename_i v1 rest3 hv1
                  have hg1 := (ihV _ _ _ hv1).1
                  have hk2 := fun k => keysInOrder_setProp acc k v1 hk
                  split at h
                  · cases h
                  · split at h
                    · exact ihM _ _ _ _ h (hk2 _) (by
                        intro kv hkv
                        rcases mem_setProp _ _ _ kv hkv with hq | hq
                        · rw [hq]; exact hg1
                        · exact hacc kv hq)
                    · split at h
                      · simp only [Option.some.injEq, Prod.mk.injEq] at h
                        refine ⟨_, h.1.symm, hk2 _, ?_⟩
                        intro kv hkv
                        rcases mem_setProp _ _ _ kv hkv with hq | hq
                        · rw [hq]; exact hg1
                        · exact hacc kv hq
                      · cases h
              · cases h
        · cases h

theorem mem_of_lookup (P : List (String × JSVal)) (k : String) (x : JSVal)
    (h : P.lookup k = some x) : (k, x) ∈ P := by
  induction P with
  | nil => cases h
  | cons a P ih =>
    obtain ⟨k1, y⟩ := a
    simp only [List.lookup] at h
    cases hb : (k == k1) with
    | true =>
      rw [hb] at h
      simp only [Option.some.injEq] at h
      have : k = k1 := by simpa using hb
      rw [this, h]
      exact List.mem_cons_self _ _
    | false =>
      rw [hb] at h
      exact List.mem_cons_of_mem _ (ih h)

theorem readsBackAs_ofNat (n : Nat) :
    ReadsBackAs (.num (JSNum.ofNat n)) (JSVal.written (.num (JSNum.ofNat n))) :=
  readsBackAs_num false n 0

/-- A property read from a parsed value is `undefined`, or is read back from
its JSON text as the value `JSON.stringify` writes for it. -/
theorem parsed_prop_readsBackAs (text : String) (r x : JSVal) (name : String)
    (hp : JSON.parse text = .ok r) (hg : getProp r name = .ok x) :
    JSVal.isUndefined x = true ∨ ReadsBackAs x (JSVal.written x) := by
  unfold JSON.parse at hp
  simp only [] at hp
  split at hp
  · rename_i v rest hv
    split at hp
    · simp only [Except.ok.injEq] at hp
      subst hp
      obtain ⟨_, hobj⟩ := (parser_invariant _).1 _ _ _ hv
      cases v with
      | undefined => simp [getProp] at hg
      | null => simp [getProp] at hg
      | bool b =>
        simp only [getProp, Except.ok.injEq] at hg
        rw [← hg]
        exact Or.inl rfl
      | num n =>
        simp only [getProp, Except.ok.injEq] at hg
        rw [← hg]
        exact Or.inl rfl
      | str s =>
        simp only [getProp] at hg
        split at hg
        · simp only [Except.ok.injEq] at hg
          rw [← hg]
          exact Or.inr (readsBackAs_ofNat _)
        · simp only [Except.ok.injEq] at hg
          rw [← hg]
          exact Or.inl rfl
      | arr l =>
        simp only [getProp] at hg
        split at hg
        · simp only [Except.ok.injEq] at hg
          rw [← hg]
          exact Or.inr (readsBackAs_ofNat _)
        · simp only [Except.ok.injEq] at hg
          rw [← hg]
          exact Or.inl rfl
      | obj props =>
        obtain ⟨_, hl⟩ := hobj props rfl
        simp only [getProp] at hg
        split at hg
        · rename_i y hy
          simp only [Except.ok.injEq] at hg
          subst hg
          exact Or.inr (hl _ (mem_of_lookup props name _ hy))
        · simp only [Except.ok.injEq] at hg
          rw [← hg]
          exact Or.inl rfl
    · cases hp
  · cases hp

mutual
/-- A value is written as itself exactly when it is storable. -/
theorem written_eq_iff : ∀ v : JSVal, JSVal.written v = v ↔ JSVal.storable v = true
  | .undefined => by simp [JSVal.written, JSVal.storable]
  | .null => by simp [JSVal.written, JSVal.storable]
  | .bool b => by simp [JSVal.written, JSVal.storable]
  | .num .nan => by simp [JSVal.written, JSVal.storable]
  | .num (.inf _) => by simp [JSVal.written, JSVal.storable]
  | .num (.fin neg q) => by
    cases neg <;> by_cases hq : q = 0 <;> simp [JSVal.written, JSVal.storable, hq]
  | .str s => by simp [JSVal.written, JSVal.storable]
  | .arr l => by
    simp only [JSVal.written, JSVal.storable, JSVal.arr.injEq]
    exact writtenElems_eq_iff l
  | .obj ps => by
    simp only [JSVal.written, JSVal.storable, JSVal.obj.injEq]
    exact writtenProps_eq_iff ps
theorem writtenElems_eq_iff : ∀ l : List JSVal,
    JSVal.writtenElems l = l ↔ JSVal.storableElems l = true
  | [] => by simp [JSVal.writtenElems, JSVal.storableElems]
  | v :: vs => by
    simp only [JSVal.writtenElems, JSVal.storableElems, List.cons.injEq, Bool.and_eq_true]
    rw [written_eq_iff v, writtenElems_eq_iff vs]
theorem writtenProps_eq_iff : ∀ ps : List (String × JSVal),
    JSVal.writtenProps ps = ps ↔ JSVal.storableProps ps = true
  | [] => by simp [JSVal.writtenProps, JSVal.storableProps]
  | (k, v) :: rest => by
    simp only [JSVal.writtenProps, JSVal.storableProps, Bool.and_eq_true]
    by_cases hu : JSVal.isUndefined v = true
    · have hv : v = .undefined := by
        cases v <;> simp [JSVal.isUndefined] at hu
        rfl
      subst hv
      simp only [hu, if_true, JSVal.storable, Bool.false_eq_true, false_and, iff_false]
      intro hc
      have h1 := congrArg List.length hc
      have h2 := length_writtenProps rest
      simp only [List.length_cons] at h1
      omega
    · simp only [hu, Bool.false_eq_true, if_false, List.cons.injEq, Prod.mk.injEq, true_and]
      rw [written_eq_iff v, writtenProps_eq_iff rest]
end

theorem keysInOrder_userRecord (uid uname : JSVal) :
    KeysInOrder [("user_id", uid), ("username", uname)] := by
  have h1 : arrayIndex "user_id" = none := by decide
  have h2 : arrayIndex "username" = none := by decide
  unfold KeysInOrder
  refine List.Pairwise.cons ?_ (List.Pairwise.cons (fun a ha => by cases ha) List.Pairwise.nil)
  intro a ha
  rw [List.mem_singleton] at ha
  rw [ha]
  refine ⟨?_, ?_⟩
  · show "user_id" ≠ "username"
    decide
  · simp only [keyBefore, h1, h2]

/-- The stored text of the user record is parsed as the record
`JSON.stringify` wrote, which is the record itself exactly when both fields
are storable. -/
theorem parse_userRecord (uid uname : JSVal) (userText : String)
    (hu : JSVal.isUndefined uid = true ∨ ReadsBackAs uid (JSVal.written uid))
    (hn : JSVal.isUndefined uname = true ∨ ReadsBackAs uname (JSVal.written uname))
    (huser : JSON.stringify (userRecord uid uname) = some userText) :
    JSON.parse userText = .ok (JSVal.written (userRecord uid uname)) ∧
    (JSON.parse userText = .ok (userRecord uid uname) ↔
      (JSVal.storable uid = true ∧ JSVal.storable uname = true)) := by
  obtain ⟨text, hst, hparse⟩ := parse_stringify_obj [("user_id", uid), ("username", uname)]
    (keysInOrder_writtenProps _ (keysInOrder_userRecord uid uname))
    (by
      intro kv hkv
      rcases List.mem_cons.1 hkv with h | h
      · rw [h]; exact hu
      · rw [List.mem_singleton] at h
        rw [h]; exact hn)
  have hst2 : JSON.stringify (userRecord uid uname) = some text := hst
  rw [huser] at hst2
  cases hst2
  refine ⟨hparse, ?_⟩
  have hparse2 : JSON.parse userText = .ok (JSVal.written (userRecord uid uname)) := hparse
  rw [hparse2]
  constructor
  · intro h
    have h1 : JSVal.written (userRecord uid uname) = userRecord uid uname := by
      injection h
    have h2 := (written_eq_iff _).1 h1
    simp only [userRecord, JSVal.storable, JSVal.storableProps, Bool.and_eq_true,
      Bool.and_true] at h2
    exact h2
  · rintro ⟨h1, h2⟩
    have : JSVal.storable (userRecord uid uname) = true := by
      simp only [userRecord, JSVal.storable, JSVal.storableProps, h1, h2, Bool.and_self]
    rw [(written_eq_iff _).2 this]

/-! ### The session round trip -/

theorem startupEffect_after_logout (s : AppState) (w : World) (s0 : AppState) :
    TravelPlannerApp.startupEffect s0 (TravelPlannerApp.handleLogout s w).2.2 =
      (.ok (), s0, (TravelPlannerApp.handleLogout s w).2.2) := by
  apply startupEffect_skip_eq
  left
  rw [handleLogout_eq]
  show ((w.localStorage.filter _).filter _).lookup "token" = none
  rw [lookup_filter_other _ _ _ (by decide), lookup_filter_self]

theorem stringify_obj_ne_empty (props : List (String × JSVal)) (text : String)
    (h : JSON.stringify (.obj props) = some text) : text ≠ "" := by
  simp only [JSON.stringify, JSON.serialize, Option.some.injEq] at h
  intro hc
  rw [hc] at h
  have := congrArg String.length h
  simp at this
  exact absurd this.1.1 (by decide)

theorem startupEffect_exact_iff (w : World) (text userText : String) (tok user : JSVal)
    (ht : w.localStorage.lookup "token" = some text)
    (hu : w.localStorage.lookup "user" = some userText)
    (htext : toJSString tok = .ok text) (hune : userText ≠ "") :
    TravelPlannerApp.startupEffect TravelPlannerApp.initialState w =
        (.ok (),
         { TravelPlannerApp.initialState with token := tok, user := user, currentView := "main" },
         w) ↔
      (∃ t, tok = .str t ∧ t ≠ "") ∧ JSON.parse userText = .ok user := by
  constructor
  · intro heq
    by_cases htne : text = ""
    · rw [startupEffect_skip_eq _ _ (Or.inr (Or.inl (by rw [ht, htne])))] at heq
      have hv : TravelPlannerApp.initialState.currentView = "main" :=
        congrArg (fun x => x.2.1.currentView) heq
      exact absurd hv (by decide)
    · cases hparse : JSON.parse userText with
      | error e =>
        rw [startupEffect_raise_eq _ _ text userText e ht hu htne hune hparse] at heq
        have := congrArg (fun x => x.1) heq
        cases this
      | ok v =>
        rw [startupEffect_restore_eq _ _ text userText v ht hu htne hune hparse] at heq
        have h1 := congrArg (fun x => x.2.1.token) heq
        have h2 := congrArg (fun x => x.2.1.user) heq
        simp only [] at h1 h2
        exact ⟨⟨text, h1.symm, htne⟩, by rw [h2]⟩
  · rintro ⟨⟨t, htok, htne⟩, hparse⟩
    subst htok
    rw [toJSString_str] at htext
    have ht1 : t = text := by
      injection htext
    subst ht1
    exact startupEffect_restore_eq _ _ t userText user ht hu htne hune hparse

/-- C11 (amended): for `handleLogin` and `handleSignup` alike, let the backend
answer with a success status and a JSON body `r` whose `token` can be read and
converts to a string, so that the handler succeeds and sets `token = r.token`,
`user = {user_id: r.user_id, username: r.username}`, `currentView = 'main'`.
The startup effect run from the initial state on the `localStorage` the handler
wrote returns normally and restores exactly that session if and only if
`r.token` is a non-empty string and `JSON.parse` reads the stored text of the
user record back as that record. The record is read back if and only if
`r.user_id` and `r.username` are storable: present, and holding no negative
zero and no infinity (a number literal that overflows), at any depth. Run on
the `localStorage` left by `handleLogout`, whatever the state and the storage
before the logout, the startup effect leaves the initial state: `user = null`,
`token = null`, `currentView = 'auth'`. -/
theorem session_round_trip (signup : Bool) (backend : Backend) (credentials : JSVal)
    (s : AppState) (w : World) (body text userText : String) (r tok uid uname : JSVal)
    (hb : backend (postRequest (authEndpoint signup) credentials) = .response true body)
    (hp : JSON.parse body = .ok r)
    (htok : getProp r "token" = .ok tok) (htext : toJSString tok = .ok text)
    (huid : getProp r "user_id" = .ok uid) (huname : getProp r "username" = .ok uname)
    (huser : JSON.stringify (userRecord uid uname) = some userText) :
    (authHandler signup backend credentials s w).1 = .ok (.obj [("success", .bool true)]) ∧
    (authHandler signup backend credentials s w).2.1.token = tok ∧
    (authHandler signup backend credentials s w).2.1.user = userRecord uid uname ∧
    (authHandler signup backend credentials s w).2.1.currentView = "main" ∧
    (TravelPlannerApp.startupEffect TravelPlannerApp.initialState
          (authHandler signup backend credentials s w).2.2 =
        (.ok (),
         { TravelPlannerApp.initialState with
            token := (authHandler signup backend credentials s w).2.1.token
            user := (authHandler signup backend credentials s w).2.1.user
            currentView := (authHandler signup backend credentials s w).2.1.currentView },
         (authHandler signup backend credentials s w).2.2) ↔
      (∃ t, tok = .str t ∧ t ≠ "") ∧ JSON.parse userText = .ok (userRecord uid uname)) ∧
    (JSON.parse userText = .ok (userRecord uid uname) ↔
      (JSVal.storable uid = true ∧ JSVal.storable uname = true)) ∧
    (∀ (s1 : AppState) (w1 : World),
      TravelPlannerApp.startupEffect TravelPlannerApp.initialState
          (TravelPlannerApp.handleLogout s1 w1).2.2 =
        (.ok (), TravelPlannerApp.initialState, (TravelPlannerApp.handleLogout s1 w1).2.2)) := by
  rw [authHandler_success_eq signup backend credentials s w body text userText r tok uid uname
    hb hp htok htext huid huname huser]
  refine ⟨rfl, rfl, rfl, rfl, ?_, ?_, fun s1 w1 => startupEffect_after_logout s1 w1 _⟩
  · apply startupEffect_exact_iff _ text userText tok (userRecord uid uname) _ _ htext
      (stringify_obj_ne_empty _ _ huser)
    · show (storageSet (storageSet w.localStorage "token" text) "user" userText).lookup "token" =
        some text
      rw [lookup_storageSet_other _ _ _ _ (by decide), lookup_storageSet_self]
    · exact lookup_storageSet_self _ _ _
  · exact (parse_userRecord uid uname userText
      (parsed_prop_readsBackAs body r uid "user_id" hp huid)
      (parsed_prop_readsBackAs body r uname "username" hp huname) huser).2

theorem session_round_trip_witness :
    JSON.parse fractionalIdBody =
      .ok (.obj [("token", .str "t0"), ("user_id", .num (JSNum.ofDecimal false 15 (-1))),
                 ("username", .str "ann")]) ∧
    JSON.stringify (userRecord (.num (JSNum.ofDecimal false 15 (-1))) (.str "ann")) =
      some "\x7b\"user_id\":1.5,\"username\":\"ann\"\x7d" ∧
    JSVal.storable (.num (JSNum.ofDecimal false 15 (-1))) = true ∧
    JSVal.storable (.str "ann") = true ∧
    TravelPlannerApp.startupEffect TravelPlannerApp.initialState
        (authHandler false (constBackend true fractionalIdBody) sampleCredentials
          TravelPlannerApp.initialState emptyWorld).2.2 =
      (.ok (),
       { TravelPlannerApp.initialState with
          token := (authHandler false (constBackend true fractionalIdBody) sampleCredentials
            TravelPlannerApp.initialState emptyWorld).2.1.token
          user := (authHandler false (constBackend true fractionalIdBody) sampleCredentials
            TravelPlannerApp.initialState emptyWorld).2.1.user
          currentView := (authHandler false (constBackend true fractionalIdBody) sampleCredentials
            TravelPlannerApp.initialState emptyWorld).2.1.currentView },
       (authHandler false (constBackend true fractionalIdBody) sampleCredentials
          TravelPlannerApp.initialState emptyWorld).2.2) :=
  ⟨rfl, rfl, rfl, rfl,
   (session_round_trip false (constBackend true fractionalIdBody) sampleCredentials
      TravelPlannerApp.initialState emptyWorld fractionalIdBody "t0"
      "\x7b\"user_id\":1.5,\"username\":\"ann\"\x7d"
      (.obj [("token", .str "t0"), ("user_id", .num (JSNum.ofDecimal false 15 (-1))),
             ("username", .str "ann")])
      (.str "t0") (.num (JSNum.ofDecimal false 15 (-1))) (.str "ann")
      rfl rfl rfl rfl rfl rfl rfl).2.2.2.2.1.mpr
     ⟨⟨"t0", rfl, by decide⟩,
      (session_round_trip false (constBackend true fractionalIdBody) sampleCredentials
        TravelPlannerApp.initialState emptyWorld fractionalIdBody "t0"
        "\x7b\"user_id\":1.5,\"username\":\"ann\"\x7d"
        (.obj [("token", .str "t0"), ("user_id", .num (JSNum.ofDecimal false 15 (-1))),
               ("username", .str "ann")])
        (.str "t0") (.num (JSNum.ofDecimal false 15 (-1))) (.str "ann")
        rfl rfl rfl rfl rfl rfl rfl).2.2.2.2.2.1.mpr ⟨rfl, rfl⟩⟩⟩

/-- C11, counterexample: a login response whose token is the empty string. The
handler returns `{success: true}` and sets `currentView = 'main'` with
`token = ''`; the startup effect run on the storage it wrote finds the stored
token falsy and leaves `currentView = 'auth'` with `token = null` and
`user = null`. -/
theorem empty_token_not_restored :
    (∃ r, JSON.parse emptyTokenBody = .ok r ∧ getProp r "token" = .ok (.str "")) ∧
    (TravelPlannerApp.handleLogin (constBackend true emptyTokenBody) sampleCredentials
        TravelPlannerApp.initialState emptyWorld).1 = .ok (.obj [("success", .bool true)]) ∧
    (TravelPlannerApp.handleLogin (constBackend true emptyTokenBody) sampleCredentials
        TravelPlannerApp.initialState emptyWorld).2.1.token = .str "" ∧
    (TravelPlannerApp.handleLogin (constBackend true emptyTokenBody) sampleCredentials
        TravelPlannerApp.initialState emptyWorld).2.1.currentView = "main" ∧
    (TravelPlannerApp.handleLogin (constBackend true emptyTokenBody) sampleCredentials
        TravelPlannerApp.initialState emptyWorld).2.2.localStorage.lookup "token" = some "" ∧
    (TravelPlannerApp.startupEffect TravelPlannerApp.initialState
        (TravelPlannerApp.handleLogin (constBackend true emptyTokenBody) sampleCredentials
          TravelPlannerApp.initialState emptyWorld).2.2).2.1.currentView = "auth" ∧
    (TravelPlannerApp.startupEffect TravelPlannerApp.initialState
        (TravelPlannerApp.handleLogin (constBackend true emptyTokenBody) sampleCredentials
          TravelPlannerApp.initialState emptyWorld).2.2).2.1.currentView ≠ "main" ∧
    (TravelPlannerApp.startupEffect TravelPlannerApp.initialState
        (TravelPlannerApp.handleLogin (constBackend true emptyTokenBody) sampleCredentials
          TravelPlannerApp.initialState emptyWorld).2.2).2.1.token = .null ∧
    (TravelPlannerApp.startupEffect TravelPlannerApp.initialState
        (TravelPlannerApp.handleLogin (constBackend true emptyTokenBody) sampleCredentials
          TravelPlannerApp.initialState emptyWorld).2.2).2.1.user = .null := by
  refine ⟨⟨_, rfl, rfl⟩, rfl, rfl, rfl, rfl, rfl, ?_, rfl, rfl⟩
  have h : (TravelPlannerApp.startupEffect TravelPlannerApp.initialState
        (TravelPlannerApp.handleLogin (constBackend true emptyTokenBody) sampleCredentials
          TravelPlannerApp.initialState emptyWorld).2.2).2.1.currentView = "auth" := rfl
  rw [h]
  decide

end TravelPlanner
